import Mathlib

/-!
# Block-memory macro operations of the z code generator (OpMemToMem.hpp)

A shallow embedding of `compiler/z/codegen/OpMemToMem.hpp`.

* C++ pointers are `Option` of an object address (`none` is `NULL`).
* The code generator (`_cg`) is an explicit state record that is threaded
  through every operation: the instruction stream, the label symbols, the
  register pool and the memory-reference heap.
* The pure virtual steps `generateLoop`, `generateRemainder` and
  `generateDependencies` are parameters: arbitrary state transformers that may
  fail to return.
* `generate` additionally reports the list of virtual steps it invoked, in
  order of invocation.
-/

namespace OpMemToMem

/-! ## Collaborator objects -/

/-- Address of a `TR::Register` object (a `TR::RegisterPair` is a register too). -/
abbrev Register := Nat

/-- Address of a `TR::Node` object. -/
abbrev Node := Nat

/-- Address of a `TR::LabelSymbol` object. -/
abbrev LabelSymbol := Nat

/-- Address of a `TR::RegisterDependencyConditions` object. -/
abbrev DependencyConditions := Nat

/-- Address of a `TR::MemoryReference` object: its index in the heap of the code generator. -/
abbrev MemRefPtr := Nat

/-- Address of a `TR::Instruction` object. -/
abbrev InstrPtr := Nat

/-- The values of `TR::InstOpCode::Mnemonic` the header names, and all the others. -/
inductive Mnemonic where
  | BAD
  | ASSOCREGS
  | LABEL
  | MVC
  | CLC
  | other (code : Nat)
  deriving DecidableEq, Repr

/-- Modelled from the spec: `TR::Instruction` (codegen/Instruction.hpp is not part of the
sources). "Instructions are opaque values carrying opcode, operand list, and an optional
attached dependency descriptor"; the operand kept here is the label of a label instruction. -/
structure Instruction where
  addr : InstrPtr
  opcode : Mnemonic
  node : Option Node
  label : Option LabelSymbol
  conditions : Option DependencyConditions
  deriving DecidableEq, Repr

/-- Modelled from the spec: `TR::MemoryReference` (codegen/MemoryReference.hpp is not part of
the sources), an "address descriptor (base register + displacement)"; a descriptor built
from an operand node records the nodes it was built from. -/
structure MemoryReference where
  baseRegister : Option Register
  rootNode : Option Node
  node : Option Node
  offset : Int
  deriving DecidableEq, Repr

/-- Modelled from the spec: the calls received by the register pool, "allocate() ->
register-handle, allocateConsecutivePair(a, b) -> pair-handle, release(handle)", as
events in the order they were made. -/
inductive PoolEvent where
  | allocateRegister (r : Register)
  | allocateConsecutiveRegisterPair (pair : Register) (a b : Option Register)
  | stopUsingRegister (r : Option Register)
  deriving DecidableEq, Repr

/-- Modelled from the spec: the part of `TR::CodeGenerator` the header uses
(codegen/CodeGenerator.hpp is not part of the sources): the instruction stream in program
order (its last element is the append instruction), the number of instruction objects and of
label symbols created so far, the labels flagged as start and end of internal control flow,
the calls made to the register pool, the number of registers created so far, the heap of
memory references and the number of trace messages written. -/
structure CodeGenerator where
  instructions : List Instruction
  instrCount : Nat
  labelCount : Nat
  startInternalControlFlow : List LabelSymbol
  endInternalControlFlow : List LabelSymbol
  pool : List PoolEvent
  regCount : Nat
  memRefs : List MemoryReference
  traceCount : Nat
  deriving DecidableEq, Repr

/-- Modelled from the spec: `cg->getAppendInstruction()`, the last instruction of the stream
(`NULL` when the stream is empty). -/
def getAppendInstruction (cg : CodeGenerator) : Option InstrPtr :=
  cg.instructions.getLast?.map (fun i => i.addr)

/-- Modelled from the spec: `i->getNext()` for the instruction at address `p`. The outer
`none` is a dereference of a pointer to no instruction of the stream; `some none` is a
`NULL` successor. -/
def getNext : List Instruction → InstrPtr → Option (Option InstrPtr)
  | [], _ => none
  | x :: rest, p =>
    if x.addr = p then some (rest.head?.map (fun i => i.addr)) else getNext rest p

/-- Worker of `getPrev`: `prev` is the address of the instruction before the list. -/
def getPrevFrom (prev : Option InstrPtr) : List Instruction → InstrPtr → Option (Option InstrPtr)
  | [], _ => none
  | x :: rest, p => if x.addr = p then some prev else getPrevFrom (some x.addr) rest p

/-- Modelled from the spec: `i->getPrev()` for the instruction at address `p`; the outer
`none` is a dereference of a pointer to no instruction of the stream. -/
def getPrev (s : List Instruction) (p : InstrPtr) : Option (Option InstrPtr) :=
  getPrevFrom none s p

/-- Modelled from the spec: `i->getOpCodeValue()` for the instruction at address `p`. -/
def getOpCodeValue : List Instruction → InstrPtr → Option Mnemonic
  | [], _ => none
  | x :: rest, p => if x.addr = p then some x.opcode else getOpCodeValue rest p

/-- Modelled from the spec: `i->setDependencyConditions(d)` for the instruction at address
`p`: the instruction now carries the descriptor `d`. -/
def setDependencyConditions :
    List Instruction → InstrPtr → DependencyConditions → Option (List Instruction)
  | [], _, _ => none
  | x :: rest, p, d =>
    if x.addr = p then some ({ x with conditions := some d } :: rest)
    else (setDependencyConditions rest p d).map (fun r => x :: r)

/-- Modelled from the spec: the "append-after-cursor primitive": link the new instruction
`n` right after the instruction at address `p`. -/
def insertAfter : List Instruction → InstrPtr → Instruction → Option (List Instruction)
  | [], _, _ => none
  | x :: rest, p, n =>
    if x.addr = p then some (x :: n :: rest) else (insertAfter rest p n).map (fun r => x :: r)

/-- Modelled from the spec: `generateLabelSymbol(cg)`, `newLabel()`: a label symbol that did
not exist before. -/
def generateLabelSymbol (cg : CodeGenerator) : LabelSymbol × CodeGenerator :=
  (cg.labelCount, { cg with labelCount := cg.labelCount + 1 })

/-- Modelled from the spec: `generateS390LabelInstruction(cg, op, node, label, cond, preced)`
(z/codegen/S390GenerateInstructions.hpp is not part of the sources): construct a new label
instruction for `label` that carries the dependency conditions `cond` (none for the overload
without `cond`) and link it right after `preced`; with a `NULL` `preced` it is appended at
the end of the stream. Returns the address of the new instruction. -/
def generateS390LabelInstruction (cg : CodeGenerator) (op : Mnemonic) (node : Option Node)
    (label : LabelSymbol) (cond : Option DependencyConditions) (preced : Option InstrPtr) :
    Option (InstrPtr × CodeGenerator) :=
  let n : Instruction :=
    { addr := cg.instrCount, opcode := op, node := node, label := some label, conditions := cond }
  match preced with
  | none =>
    some (n.addr, { cg with instructions := cg.instructions ++ [n], instrCount := cg.instrCount + 1 })
  | some p =>
    (insertAfter cg.instructions p n).map
      (fun s => (n.addr, { cg with instructions := s, instrCount := cg.instrCount + 1 }))

/-- Modelled from the spec: `label->setStartInternalControlFlow()`, `markRegionStart`. -/
def setStartInternalControlFlow (cg : CodeGenerator) (l : LabelSymbol) : CodeGenerator :=
  { cg with startInternalControlFlow := cg.startInternalControlFlow ++ [l] }

/-- Modelled from the spec: `label->setEndInternalControlFlow()`, `markRegionEnd`. -/
def setEndInternalControlFlow (cg : CodeGenerator) (l : LabelSymbol) : CodeGenerator :=
  { cg with endInternalControlFlow := cg.endInternalControlFlow ++ [l] }

/-- Modelled from the spec: `cg->stopUsingRegister(reg)`, the pool's `release(handle)`. -/
def stopUsingRegister (cg : CodeGenerator) (r : Option Register) : CodeGenerator :=
  { cg with pool := cg.pool ++ [PoolEvent.stopUsingRegister r] }

/-- Modelled from the spec: `cg->allocateRegister()`, the pool's `allocate()`: a register
that did not exist before. -/
def allocateRegister (cg : CodeGenerator) : Register × CodeGenerator :=
  (cg.regCount,
    { cg with regCount := cg.regCount + 1,
              pool := cg.pool ++ [PoolEvent.allocateRegister cg.regCount] })

/-- Modelled from the spec: `cg->allocateConsecutiveRegisterPair(a, b)`, the pool's
`allocateConsecutivePair(a, b)`: a pair handle that did not exist before. -/
def allocateConsecutiveRegisterPair (cg : CodeGenerator) (a b : Option Register) :
    Register × CodeGenerator :=
  (cg.regCount,
    { cg with regCount := cg.regCount + 1,
              pool := cg.pool ++ [PoolEvent.allocateConsecutiveRegisterPair cg.regCount a b] })

/-- Modelled from the spec: `traceMsg(comp, ...)`: one more message in the trace log. -/
def traceMsg (cg : CodeGenerator) : CodeGenerator :=
  { cg with traceCount := cg.traceCount + 1 }

/-- Modelled from the spec: `new (heap) TR::MemoryReference(...)`: the new object lies at an
address no earlier descriptor has. -/
def newMemoryReference (cg : CodeGenerator) (mr : MemoryReference) : MemRefPtr × CodeGenerator :=
  (cg.memRefs.length, { cg with memRefs := cg.memRefs ++ [mr] })

/-- Modelled from the spec: `generateS390MemoryReference(cg, rootNode, node, offset, true)`:
`build` a descriptor from an operand node. -/
def generateS390MemoryReferenceFromNode (cg : CodeGenerator) (rootNode node : Option Node)
    (offset : Int) : MemRefPtr × CodeGenerator :=
  newMemoryReference cg { baseRegister := none, rootNode := rootNode, node := node, offset := offset }

/-- Modelled from the spec: `generateS390MemoryReference(*mr, n, cg)`: "rebuilding" a
descriptor, a new descriptor that is a copy of the one at `mr` displaced by `n`. The result
is `none` when `mr` is not the address of a descriptor. -/
def generateS390MemoryReferenceCopy (cg : CodeGenerator) (mr : MemRefPtr) (n : Int) :
    Option (MemRefPtr × CodeGenerator) :=
  (cg.memRefs.get? mr).map (fun m => newMemoryReference cg { m with offset := m.offset + n })

/-! ## MemToMemMacroOp -/

/-- The data members of `MemToMemMacroOp` (lines 224-243); `_cg` is the code generator state
that is threaded through the operations. -/
structure MemToMemMacroOp where
  _lenNode : Option Node
  _rootNode : Option Node
  _srcNode : Option Node
  _dstNode : Option Node
  _srcReg : Option Register
  _dstReg : Option Register
  _srcRegTemp : Option Register
  _dstRegTemp : Option Register
  _itersReg : Option Register
  _tmpReg : Option Register
  _litReg : Option Register
  _srcMR : Option MemRefPtr
  _dstMR : Option MemRefPtr
  _EXTargetLabel : Option LabelSymbol
  _offset : Int
  _cursor : Option InstrPtr
  _startControlFlow : Option InstrPtr
  _useEXForRemainder : Bool
  _inRemainder : Bool
  deriving DecidableEq, Repr

/-- The state a member function of a macro operation works on: the members of the base
class, the code generator, and the members `σ` of the derived class. -/
structure World (σ : Type) where
  op : MemToMemMacroOp
  cg : CodeGenerator
  derived : σ

/-- The three pure virtual steps (lines 179-181). A step may change the operation and the
code generator; `none` is a step that does not return (it aborts the compilation). -/
structure Strategy (σ : Type) where
  generateLoop : World σ → Option (Option InstrPtr × World σ)
  generateRemainder : World σ → Option (Option InstrPtr × World σ)
  generateDependencies : World σ → Option (Option DependencyConditions × World σ)

/-- The virtual steps of a strategy. -/
inductive Step where
  | generateLoop
  | generateRemainder
  | generateDependencies
  deriving DecidableEq, Repr

/-- How a call of `generate` ends, with the virtual steps it invoked, in order.
`returned` carries the returned cursor and the final state. `assertionFailed` is a failed
`TR_ASSERT`, with the state at that moment. `stepAborted` is a virtual step that did not
return. `invalidDereference` is a member access through `NULL` or through a pointer to no
instruction of the stream. -/
inductive Outcome (σ : Type) where
  | returned (cursor : Option InstrPtr) (w : World σ) (calls : List Step)
  | assertionFailed (w : World σ) (calls : List Step)
  | stepAborted (calls : List Step)
  | invalidDereference (calls : List Step)

/-- The virtual steps a call invoked, in order. -/
def Outcome.calls {σ : Type} : Outcome σ → List Step
  | .returned _ _ cs => cs
  | .assertionFailed _ cs => cs
  | .stepAborted cs => cs
  | .invalidDereference cs => cs

/-- Assignment to the member `_cursor`. -/
def World.setCursor {σ : Type} (w : World σ) (c : Option InstrPtr) : World σ :=
  { w with op := { w.op with _cursor := c } }

/-- Assignment to the member `_startControlFlow`. -/
def World.setStartControlFlow {σ : Type} (w : World σ) (c : Option InstrPtr) : World σ :=
  { w with op := { w.op with _startControlFlow := c } }

/-- Replacement of the instruction stream of the code generator. -/
def World.setInstructions {σ : Type} (w : World σ) (s : List Instruction) : World σ :=
  { w with cg := { w.cg with instructions := s } }

/-- Lines 61-70 of `generate`: the arguments are stored in the members and the temporaries
are reset. -/
def initMembers {σ : Type} (w : World σ) (dstReg srcReg tmpReg : Option Register)
    (offset : Int) (cursor : Option InstrPtr) (dstMR srcMR : Option MemRefPtr) : World σ :=
  { w with op :=
      { w.op with
        _dstReg := dstReg, _srcReg := srcReg, _tmpReg := tmpReg, _offset := offset,
        _cursor := cursor, _dstMR := dstMR, _srcMR := srcMR,
        _srcRegTemp := none, _dstRegTemp := none, _litReg := none } }

/-- Lines 60 and 73 of `generate`: `cursorBefore` is the cursor argument, or the append
instruction when the argument is `NULL`. -/
def cursorBeforeOf (cg : CodeGenerator) (cursor : Option InstrPtr) : Option InstrPtr :=
  if cursor = none then getAppendInstruction cg else cursor

/-- Lines 86-90 of `generate`: when `_startControlFlow` is `NULL` it becomes the instruction
after `cursorBefore`, or the one after that when the former is an `ASSOCREGS`. -/
def resolveStartControlFlow {σ : Type} (w : World σ) (cursorBefore : Option InstrPtr) :
    Option (World σ) :=
  if w.op._startControlFlow = none then do
    let cb ← cursorBefore
    let start ← getNext w.cg.instructions cb
    let s ← start
    let op ← getOpCodeValue w.cg.instructions s
    if op = Mnemonic.ASSOCREGS then do
      let next ← getNext w.cg.instructions s
      pure (w.setStartControlFlow next)
    else
      pure (w.setStartControlFlow start)
  else
    pure w

/-- Lines 93-100 of `generate`: two new labels; the label instruction of the first one takes
`dependencies` and is linked after `_startControlFlow->getPrev()`, the label instruction of
the second one is linked after `_cursor->getPrev()`. -/
def insertRegionMarkers {σ : Type} (w : World σ) (dependencies : DependencyConditions) :
    Option (World σ) := do
  let (cFlowRegionStart, cg1) := generateLabelSymbol w.cg
  let (cFlowRegionEnd, cg2) := generateLabelSymbol cg1
  let start ← w.op._startControlFlow
  let startPrev ← getPrev cg2.instructions start
  let (_, cg3) ← generateS390LabelInstruction cg2 Mnemonic.LABEL w.op._rootNode
    cFlowRegionStart (some dependencies) startPrev
  let cg4 := setStartInternalControlFlow cg3 cFlowRegionStart
  let cursor ← w.op._cursor
  let cursorPrev ← getPrev cg4.instructions cursor
  let (_, cg5) ← generateS390LabelInstruction cg4 Mnemonic.LABEL w.op._rootNode
    cFlowRegionEnd none cursorPrev
  pure { w with cg := setEndInternalControlFlow cg5 cFlowRegionEnd }

/-- Lines 82-102 of `generate`: with non-null `dependencies`, attach them to `_cursor`,
resolve `_startControlFlow`, and insert the region markers when `_startControlFlow` is not
`_cursor`. `none` is an invalid dereference. -/
def attachDependencies {σ : Type} (w : World σ) (cursorBefore : Option InstrPtr)
    (dependencies : Option DependencyConditions) : Option (World σ) :=
  match dependencies with
  | none => some w
  | some d => do
    let cursor ← w.op._cursor
    let s ← setDependencyConditions w.cg.instructions cursor d
    let w1 ← resolveStartControlFlow (w.setInstructions s) cursorBefore
    if w1.op._startControlFlow ≠ w1.op._cursor then insertRegionMarkers w1 d else pure w1

/-- Lines 105-108 of `generate`: each temporary that is set is released. -/
def releaseTemps {σ : Type} (w : World σ) : World σ :=
  let cg1 := if w.op._srcRegTemp ≠ none then stopUsingRegister w.cg w.op._srcRegTemp else w.cg
  let cg2 := if w.op._dstRegTemp ≠ none then stopUsingRegister cg1 w.op._dstRegTemp else cg1
  { w with cg := cg2 }

/-- The seven-argument `MemToMemMacroOp::generate` (lines 50-111). `MAXDISP` is a constant
of the code generator headers, which are not part of the sources.
Modelled from the spec: `TR_ASSERT` (infra/Assert.hpp is not part of the sources), whose
failure is a fatal contract violation that aborts the compilation. -/
def MemToMemMacroOp.generate {σ : Type} (MAXDISP : Int) (V : Strategy σ) (w : World σ)
    (dstReg srcReg tmpReg : Option Register) (offset : Int) (cursor : Option InstrPtr)
    (dstMR srcMR : Option MemRefPtr) : Outcome σ :=
  if ¬ offset ≤ MAXDISP then Outcome.assertionFailed w []
  else
    let w0 := initMembers w dstReg srcReg tmpReg offset cursor dstMR srcMR
    let cursorBefore := cursorBeforeOf w0.cg cursor
    match V.generateLoop w0 with
    | none => Outcome.stepAborted [Step.generateLoop]
    | some (c1, w1) =>
      match V.generateRemainder (w1.setCursor c1) with
      | none => Outcome.stepAborted [Step.generateLoop, Step.generateRemainder]
      | some (c2, w2) =>
        let w2 := w2.setCursor c2
        if w2.op._cursor ≠ none ∧ cursorBefore ≠ w2.op._cursor then
          match V.generateDependencies w2 with
          | none =>
            Outcome.stepAborted
              [Step.generateLoop, Step.generateRemainder, Step.generateDependencies]
          | some (dependencies, w3) =>
            match attachDependencies w3 cursorBefore dependencies with
            | none =>
              Outcome.invalidDereference
                [Step.generateLoop, Step.generateRemainder, Step.generateDependencies]
            | some w4 =>
              Outcome.returned w4.op._cursor (releaseTemps w4)
                [Step.generateLoop, Step.generateRemainder, Step.generateDependencies]
        else
          Outcome.returned w2.op._cursor (releaseTemps w2)
            [Step.generateLoop, Step.generateRemainder]

/-! ## MemToMemConstLenMacroOp -/

/-- The data members `MemToMemConstLenMacroOp` adds to its base class (lines 287-294). -/
structure MemToMemConstLenMacroOp where
  base : MemToMemMacroOp
  _length : Int
  _maxCopies : Int
  _opcode : Mnemonic
  _needsLoop : Bool
  _inNestedICF : Bool
  _nestedICFDeps : Option DependencyConditions
  _needDep : Bool
  deriving DecidableEq, Repr

/-- The constructor of `MemToMemMacroOp` (lines 173-177). `_srcRegTemp` and `_dstRegTemp`
are not in its initialiser list; `generate` assigns them before it reads them. -/
def MemToMemMacroOp.construct (rootNode dstNode srcNode lenNode : Option Node)
    (itersReg : Option Register) : MemToMemMacroOp :=
  { _lenNode := lenNode, _rootNode := rootNode, _srcNode := srcNode, _dstNode := dstNode,
    _srcReg := none, _dstReg := none, _srcRegTemp := none, _dstRegTemp := none,
    _itersReg := itersReg, _tmpReg := none, _litReg := none, _srcMR := none, _dstMR := none,
    _EXTargetLabel := none, _offset := 0, _cursor := none, _startControlFlow := none,
    _useEXForRemainder := false, _inRemainder := false }

/-- The conversion `(uint64_t)length` of an `int64_t`. -/
def toUInt64 (length : Int) : Nat := (length % 2 ^ 64).toNat

/-- The constructor of `MemToMemConstLenMacroOp` (lines 261-270); `length` is an `int64_t`. -/
def MemToMemConstLenMacroOp.construct (rootNode dstNode srcNode : Option Node) (length : Int)
    (itersReg : Option Register) (op : Mnemonic) (inNestedICF : Bool) :
    MemToMemConstLenMacroOp :=
  let _maxCopies : Int := 16
  let len : Nat := toUInt64 length
  let largeCopies : Nat := if len = 0 then 0 else (len - 1) / 256
  { base := MemToMemMacroOp.construct rootNode dstNode srcNode none itersReg,
    _length := length, _maxCopies := _maxCopies, _opcode := op, _needDep := true,
    _inNestedICF := inNestedICF, _nestedICFDeps := none,
    _needsLoop := !(decide (largeCopies < toUInt64 _maxCopies)) }

/-- The accessor `needsLoop()` (line 254). -/
def MemToMemConstLenMacroOp.needsLoop (o : MemToMemConstLenMacroOp) : Bool := o._needsLoop

/-! ## Memory references of the base class -/

/-- The member function `generateSrcMemRef(offset)` (lines 186-204). `none` is the
dereference `*_srcMR` of a pointer to no descriptor. -/
def MemToMemMacroOp.generateSrcMemRef {σ : Type} (w : World σ) (offset : Int) :
    Option (World σ) :=
  match w.op._srcMR with
  | none =>
    match w.op._srcReg with
    | some r =>
      let (mr, cg) := newMemoryReference w.cg
        { baseRegister := some r, rootNode := none, node := none, offset := offset }
      some { w with op := { w.op with _srcMR := some mr }, cg := cg }
    | none =>
      let (mr, cg) := generateS390MemoryReferenceFromNode w.cg w.op._rootNode w.op._srcNode offset
      some { w with op := { w.op with _srcMR := some mr }, cg := cg }
  | some old =>
    -- Ensure we don't reuse a memref in two different instructions.
    (generateS390MemoryReferenceCopy w.cg old 0).map
      (fun r => { w with op := { w.op with _srcMR := some r.1 }, cg := r.2 })

/-- The member function `generateDstMemRef(offset)` (lines 205-223). -/
def MemToMemMacroOp.generateDstMemRef {σ : Type} (w : World σ) (offset : Int) :
    Option (World σ) :=
  match w.op._dstMR with
  | none =>
    match w.op._dstReg with
    | some r =>
      let (mr, cg) := newMemoryReference w.cg
        { baseRegister := some r, rootNode := none, node := none, offset := offset }
      some { w with op := { w.op with _dstMR := some mr }, cg := cg }
    | none =>
      let (mr, cg) := generateS390MemoryReferenceFromNode w.cg w.op._rootNode w.op._dstNode offset
      some { w with op := { w.op with _dstMR := some mr }, cg := cg }
  | some old =>
    -- Ensure we don't reuse a memref in two different instructions.
    (generateS390MemoryReferenceCopy w.cg old 0).map
      (fun r => { w with op := { w.op with _dstMR := some r.1 }, cg := r.2 })

/-! ## MemToMemTypedMacroOp -/

/-- The data members of `MemToMemTypedMacroOp` (lines 554-567). -/
structure MemToMemTypedMacroOp where
  _lenNode : Option Node
  _rootNode : Option Node
  _srcNode : Option Node
  _dstNode : Option Node
  _bxhReg : Option Register
  _srcReg : Option Register
  _startReg : Option Register
  _endReg : Option Register
  _strideReg : Option Register
  _destType : Nat
  _applyDepLocally : Bool
  _isForward : Bool
  _macroDependencies : Option DependencyConditions
  deriving DecidableEq, Repr

/-- The state a member function of a typed macro operation works on. -/
structure TypedWorld (σ : Type) where
  op : MemToMemTypedMacroOp
  cg : CodeGenerator
  derived : σ

/-- How a call of the typed `generate` ends, with the virtual steps it invoked. -/
inductive TypedOutcome (σ : Type) where
  | returned (cursor : Option InstrPtr) (w : TypedWorld σ) (calls : List Step)
  | stepAborted (calls : List Step)

/-- The four-argument `MemToMemTypedMacroOp::generate` (lines 523-537); the pure virtual
`generateLoop` is a parameter. -/
def MemToMemTypedMacroOp.generate {σ : Type}
    (generateLoop : TypedWorld σ → Option (Option InstrPtr × TypedWorld σ))
    (w : TypedWorld σ) (dstReg srcReg strideReg : Option Register) (applyDepLocally : Bool) :
    TypedOutcome σ :=
  let w1 : TypedWorld σ :=
    { w with op := { w.op with _srcReg := srcReg, _startReg := dstReg, _strideReg := strideReg,
                               _applyDepLocally := applyDepLocally } }
  let (endReg, cg1) := allocateRegister w1.cg
  let w2 : TypedWorld σ := { w1 with op := { w1.op with _endReg := some endReg }, cg := cg1 }
  let (bxhReg, cg2) := allocateConsecutiveRegisterPair w2.cg w2.op._startReg w2.op._strideReg
  let w3 : TypedWorld σ := { w2 with op := { w2.op with _bxhReg := some bxhReg }, cg := cg2 }
  match generateLoop w3 with
  | none => TypedOutcome.stepAborted [Step.generateLoop]
  | some (cursor, w4) =>
    let cg5 := stopUsingRegister w4.cg w4.op._endReg
    let cg6 := stopUsingRegister cg5 w4.op._bxhReg
    TypedOutcome.returned cursor { w4 with cg := cg6 } [Step.generateLoop]

/-- The state in which the typed `generate` invokes `generateLoop` (lines 526-532). -/
def MemToMemTypedMacroOp.beforeLoop {σ : Type} (w : TypedWorld σ)
    (dstReg srcReg strideReg : Option Register) (applyDepLocally : Bool) : TypedWorld σ :=
  { w with
    op := { w.op with _srcReg := srcReg, _startReg := dstReg, _strideReg := strideReg,
                      _applyDepLocally := applyDepLocally,
                      _endReg := some w.cg.regCount, _bxhReg := some (w.cg.regCount + 1) },
    cg := { w.cg with
            regCount := w.cg.regCount + 2,
            pool := w.cg.pool ++
              [PoolEvent.allocateRegister w.cg.regCount,
               PoolEvent.allocateConsecutiveRegisterPair (w.cg.regCount + 1) dstReg strideReg] } }

/-- Whether a pool event is an allocation. -/
def PoolEvent.isAllocation : PoolEvent → Bool
  | .allocateRegister _ => true
  | .allocateConsecutiveRegisterPair _ _ _ => true
  | .stopUsingRegister _ => false

/-- Whether a pool event is a release. -/
def PoolEvent.isRelease : PoolEvent → Bool
  | .stopUsingRegister _ => true
  | _ => false

/-! ## MemCpyAtomicMacroOp -/

/-- The data members of `MemCpyAtomicMacroOp` (lines 713-728) that `cleanUpReg` reads,
with `_isForward` of its base class `MemToMemTypedMacroOp`. -/
structure MemCpyAtomicMacroOp where
  _isForward : Bool
  _unroll : Bool
  _trace : Bool
  _constLength : Int
  _unrollFactor : Int
  _workReg : Option Register
  _alignedReg : Option Register
  _workReg2 : Option Register
  _workReg3 : Option Register
  _workReg4 : Option Register
  _workReg5 : Option Register
  _workReg6 : Option Register
  _workReg7 : Option Register
  _workReg8 : Option Register
  deriving DecidableEq, Repr

/-- A C++ `switch (v)` whose cases have no `break` and that has no `default`: control
enters at the first case labelled `v` and falls through all the cases after it; when no
label is `v` nothing is executed. -/
def switchFallThrough (cases : List (Int × (CodeGenerator → CodeGenerator))) (v : Int)
    (cg : CodeGenerator) : CodeGenerator :=
  ((cases.dropWhile (fun c => c.1 != v)).map (fun c => c.2)).foldl (fun s f => f s) cg

/-- The member function `MemCpyAtomicMacroOp::cleanUpReg` (lines 675-705). -/
def MemCpyAtomicMacroOp.cleanUpReg (o : MemCpyAtomicMacroOp) (cg : CodeGenerator) :
    CodeGenerator :=
  let cg0 := if o._trace then traceMsg cg else cg
  let cg1 := stopUsingRegister cg0 o._workReg
  let cg2 := stopUsingRegister cg1 o._alignedReg
  if o._unroll && o._isForward then
    if o._unrollFactor ≠ 0 then
      switchFallThrough
        [(8, fun s => stopUsingRegister s o._workReg8),
         (7, fun s => stopUsingRegister s o._workReg7),
         (6, fun s => stopUsingRegister s o._workReg6),
         (5, fun s => stopUsingRegister s o._workReg5),
         (4, fun s => stopUsingRegister s o._workReg4),
         (3, fun s => stopUsingRegister s o._workReg3),
         (2, fun s => stopUsingRegister s o._workReg2)]
        o._unrollFactor cg2
    else cg2
  else cg2

/-- The scratch register `_workReg`, `_workReg2`, ..., `_workReg8` of index `j`. -/
def MemCpyAtomicMacroOp.workReg (o : MemCpyAtomicMacroOp) (j : Nat) : Option Register :=
  match j with
  | 1 => o._workReg
  | 2 => o._workReg2
  | 3 => o._workReg3
  | 4 => o._workReg4
  | 5 => o._workReg5
  | 6 => o._workReg6
  | 7 => o._workReg7
  | 8 => o._workReg8
  | _ => none

/-! ## Fixtures

A concrete code generator and a concrete strategy on which the operations are evaluated. -/

/-- An instruction that is neither a label nor an `ASSOCREGS`, without dependencies. -/
def plainInstruction (a : InstrPtr) (op : Mnemonic) : Instruction :=
  { addr := a, opcode := op, node := none, label := none, conditions := none }

/-- A code generator whose stream holds one instruction, at address 0. -/
def demoCG : CodeGenerator :=
  { instructions := [plainInstruction 0 (Mnemonic.other 0)], instrCount := 1, labelCount := 0,
    startInternalControlFlow := [], endInternalControlFlow := [], pool := [], regCount := 0,
    memRefs := [], traceCount := 0 }

/-- A copy operation right after its construction, with `demoCG`. -/
def demoWorld : World Unit :=
  { op := MemToMemMacroOp.construct (some 1) (some 2) (some 3) none none, cg := demoCG,
    derived := () }

/-- Append the instructions `is` at the end of the stream. -/
def emit {σ : Type} (w : World σ) (is : List Instruction) : World σ :=
  { w with cg := { w.cg with instructions := w.cg.instructions ++ is,
                             instrCount := w.cg.instrCount + is.length } }

/-- A strategy that emits a two-instruction loop and a one-instruction remainder, takes a
temporary for the source address and has the dependency descriptor 9. -/
def demoStrategy : Strategy Unit :=
  { generateLoop := fun w =>
      let r := w.cg.regCount
      let w1 := emit w [plainInstruction w.cg.instrCount Mnemonic.MVC,
                        plainInstruction (w.cg.instrCount + 1) (Mnemonic.other 1)]
      some (some (w.cg.instrCount + 1),
        { w1 with op := { w1.op with _srcRegTemp := some r },
                  cg := { w1.cg with regCount := r + 1,
                                     pool := w1.cg.pool ++ [PoolEvent.allocateRegister r] } }),
    generateRemainder := fun w =>
      some (some w.cg.instrCount, emit w [plainInstruction w.cg.instrCount Mnemonic.MVC]),
    generateDependencies := fun w => some (some 9, w) }

/-- A strategy of a zero-length operation: no step emits anything. -/
def idleStrategy : Strategy Unit :=
  { generateLoop := fun w => some (w.op._cursor, w),
    generateRemainder := fun w => some (w.op._cursor, w),
    generateDependencies := fun w => some (some 9, w) }

/-- The call `generate(dstReg = 10, srcReg = 11, NULL, 0, NULL)` of the demo strategy, with
`MAXDISP` 4096. -/
def demoRun : Outcome Unit :=
  MemToMemMacroOp.generate 4096 demoStrategy demoWorld (some 10) (some 11) none 0 none none none

/-- A strategy whose loop emits an `ASSOCREGS` followed by two instructions, whose
remainder emits nothing, and that has the dependency descriptor 7. -/
def assocStrategy : Strategy Unit :=
  { generateLoop := fun w =>
      let a := w.cg.instrCount
      some (some (a + 2),
        emit w [plainInstruction a Mnemonic.ASSOCREGS, plainInstruction (a + 1) Mnemonic.MVC,
                plainInstruction (a + 2) (Mnemonic.other 1)]),
    generateRemainder := fun w => some (w.op._cursor, w),
    generateDependencies := fun w => some (some 7, w) }

/-- The call `generate(dstReg = 10, srcReg = 11, NULL, 0, cursor = 0)` of the strategy
`assocStrategy`, with `MAXDISP` 4096. -/
def assocRun : Outcome Unit :=
  MemToMemMacroOp.generate 4096 assocStrategy demoWorld (some 10) (some 11) none 0 (some 0)
    none none

/-- A typed operation before its first `generate`, with `demoCG`. -/
def demoTypedWorld : TypedWorld Unit :=
  { op := { _lenNode := none, _rootNode := some 1, _srcNode := some 3, _dstNode := some 2,
            _bxhReg := none, _srcReg := none, _startReg := none, _endReg := none,
            _strideReg := none, _destType := 0, _applyDepLocally := false, _isForward := true,
            _macroDependencies := none },
    cg := demoCG, derived := () }

/-- A typed loop that takes and releases a temporary of its own and emits one instruction. -/
def demoTypedLoop (w : TypedWorld Unit) : Option (Option InstrPtr × TypedWorld Unit) :=
  let r := w.cg.regCount
  some (some w.cg.instrCount,
    { w with cg := { w.cg with
        instructions := w.cg.instructions ++ [plainInstruction w.cg.instrCount Mnemonic.MVC],
        instrCount := w.cg.instrCount + 1,
        regCount := r + 1,
        pool := w.cg.pool ++
          [PoolEvent.allocateRegister r, PoolEvent.stopUsingRegister (some r)] } })

/-- An atomic copy unrolled four times in forward direction, with the scratch registers
20, 21, ..., 27 and the aligned register 30. -/
def demoAtomic : MemCpyAtomicMacroOp :=
  { _isForward := true, _unroll := true, _trace := false, _constLength := -1,
    _unrollFactor := 4, _workReg := some 20, _alignedReg := some 30, _workReg2 := some 21,
    _workReg3 := some 22, _workReg4 := some 23, _workReg5 := some 24, _workReg6 := some 25,
    _workReg7 := some 26, _workReg8 := some 27 }

/-- The descriptor a call of `generateSrcMemRef(offset)` or `generateDstMemRef(offset)`
builds, in the words of the claim: with no descriptor held it is built from the base
register and the offset, or from the operand node when there is no base register; with a
descriptor held it is a copy of that one. -/
def builtDescriptor (heap : List MemoryReference) (held : Option MemRefPtr)
    (reg : Option Register) (rootNode node : Option Node) (offset : Int) :
    Option MemoryReference :=
  match held with
  | some old => (heap.get? old).map (fun m => { m with offset := m.offset + 0 })
  | none =>
    match reg with
    | some r => some { baseRegister := some r, rootNode := none, node := none, offset := offset }
    | none => some { baseRegister := none, rootNode := rootNode, node := node, offset := offset }

/-- A world that holds no memory reference and has the source register 11. -/
def demoMemRefWorld : World Unit :=
  { demoWorld with op := { demoWorld.op with _srcReg := some 11 } }

/-- The final instruction stream of an outcome (empty when the call did not return). -/
def Outcome.instructions {σ : Type} : Outcome σ → List Instruction
  | .returned _ w _ => w.cg.instructions
  | _ => []

/-! ## The instructions `generate` creates -/

/-- The label instruction that lines 93 and 96 create in the state `w`: a new `LABEL`
instruction for a new label symbol, constructed with the dependency conditions `d`. -/
def regionStartInstruction {σ : Type} (w : World σ) (d : DependencyConditions) : Instruction :=
  { addr := w.cg.instrCount, opcode := Mnemonic.LABEL, node := w.op._rootNode,
    label := some w.cg.labelCount, conditions := some d }

/-- The label instruction that lines 94 and 99 create in the state `w`, after the one of
lines 93 and 96: a new `LABEL` instruction for a second new label symbol, without
dependency conditions. -/
def regionEndInstruction {σ : Type} (w : World σ) : Instruction :=
  { addr := w.cg.instrCount + 1, opcode := Mnemonic.LABEL, node := w.op._rootNode,
    label := some (w.cg.labelCount + 1), conditions := none }

/-- The instruction `c` once `setDependencyConditions(d)` was called on it. -/
def withConditions (c : Instruction) (d : DependencyConditions) : Instruction :=
  { c with conditions := some d }

/-! ## The dependencies for internal control flow of a constant-length operation -/

/-- How a call of an accessor that begins with a `TR_ASSERT` ends.
Modelled from the spec: `TR_ASSERT` (infra/Assert.hpp is not part of the sources), whose
failure is a fatal contract violation. -/
inductive Asserted (α : Type) where
  | returned (a : α)
  | assertionFailed
  deriving DecidableEq, Repr

/-- The accessor `getDependenciesForICF()` (lines 255-259). -/
def MemToMemConstLenMacroOp.getDependenciesForICF (o : MemToMemConstLenMacroOp) :
    Asserted (Option DependencyConditions) :=
  if o._inNestedICF then Asserted.returned o._nestedICFDeps else Asserted.assertionFailed

/-- The first constructor of `MemCpyConstLenMacroOp` (lines 400-402), the only
constant-length variant whose constructor takes `inNestedICF`. -/
def MemCpyConstLenMacroOp.construct (rootNode dstNode srcNode : Option Node) (length : Int)
    (itersReg : Option Register) (inNestedICF : Bool) : MemToMemConstLenMacroOp :=
  MemToMemConstLenMacroOp.construct rootNode dstNode srcNode length itersReg Mnemonic.MVC
    inNestedICF

/-- The first constructor of `MemClearConstLenMacroOp` (lines 340-342): `itersReg`, `op`
and `inNestedICF` take their defaults. -/
def MemClearConstLenMacroOp.construct (rootNode dstNode : Option Node) (length : Int) :
    MemToMemConstLenMacroOp :=
  MemToMemConstLenMacroOp.construct rootNode dstNode dstNode length none Mnemonic.BAD false

/-! ## The kind of an operation -/

/-- The enumeration `MemToMemMacroOp::Kind` (lines 113-122). -/
inductive Kind where
  | IsNotExtended
  | IsMemInit
  | IsMemClear
  | IsMemCmp
  | IsMemCpy
  | IsBitOpMem
  | numKinds
  deriving DecidableEq, Repr

/-- The virtual `getKind()` of `MemToMemMacroOp` (line 124). -/
def MemToMemMacroOp.getKind : Kind := Kind.IsNotExtended

/-- The class `MemToMemConstLenMacroOp` (lines 251-296) declares no `getKind()`: it
inherits the one of `MemToMemMacroOp`. -/
def MemToMemConstLenMacroOp.getKind : Kind := MemToMemMacroOp.getKind

/-- The class `MemToMemVarLenMacroOp` (lines 298-315) declares no `getKind()`. -/
def MemToMemVarLenMacroOp.getKind : Kind := MemToMemMacroOp.getKind

/-- The class `MemInitConstLenMacroOp` (lines 317-335) declares no `getKind()`. -/
def MemInitConstLenMacroOp.getKind : Kind := MemToMemConstLenMacroOp.getKind

/-- The class `MemClearConstLenMacroOp` (lines 337-350) declares no `getKind()`. -/
def MemClearConstLenMacroOp.getKind : Kind := MemToMemConstLenMacroOp.getKind

/-- The class `MemCmpConstLenMacroOp` (lines 352-377) declares no `getKind()`. -/
def MemCmpConstLenMacroOp.getKind : Kind := MemToMemConstLenMacroOp.getKind

/-- The class `MemCmpConstLenSignMacroOp` (lines 379-395) declares no `getKind()`: it
inherits the one of `MemCmpConstLenMacroOp`. -/
def MemCmpConstLenSignMacroOp.getKind : Kind := MemCmpConstLenMacroOp.getKind

/-- The class `MemCpyConstLenMacroOp` (lines 397-409) declares no `getKind()`. -/
def MemCpyConstLenMacroOp.getKind : Kind := MemToMemConstLenMacroOp.getKind

/-- The class `BitOpMemConstLenMacroOp` (lines 411-423) declares no `getKind()`. -/
def BitOpMemConstLenMacroOp.getKind : Kind := MemToMemConstLenMacroOp.getKind

/-- The override of `getKind()` in `MemInitVarLenMacroOp` (line 441). -/
def MemInitVarLenMacroOp.getKind : Kind := Kind.IsMemInit

/-- The override of `getKind()` in `MemClearVarLenMacroOp` (line 463). -/
def MemClearVarLenMacroOp.getKind : Kind := Kind.IsMemClear

/-- The override of `getKind()` in `MemCmpVarLenMacroOp` (line 492). -/
def MemCmpVarLenMacroOp.getKind : Kind := Kind.IsMemCmp

/-- The override of `getKind()` in `MemCmpVarLenSignMacroOp` (line 514). -/
def MemCmpVarLenSignMacroOp.getKind : Kind := Kind.IsMemCmp

/-- The override of `getKind()` in `MemCpyVarLenMacroOp` (line 583). -/
def MemCpyVarLenMacroOp.getKind : Kind := Kind.IsMemCpy

/-- The override of `getKind()` in `BitOpMemVarLenMacroOp` (line 598). -/
def BitOpMemVarLenMacroOp.getKind : Kind := Kind.IsBitOpMem

/-- The concrete classes of the header that derive from `MemToMemMacroOp`, the class that
declares `getKind()`. -/
inductive Variant where
  | MemInitConstLenMacroOp
  | MemClearConstLenMacroOp
  | MemCmpConstLenMacroOp
  | MemCmpConstLenSignMacroOp
  | MemCpyConstLenMacroOp
  | BitOpMemConstLenMacroOp
  | MemInitVarLenMacroOp
  | MemClearVarLenMacroOp
  | MemCmpVarLenMacroOp
  | MemCmpVarLenSignMacroOp
  | MemCpyVarLenMacroOp
  | BitOpMemVarLenMacroOp
  deriving DecidableEq, Repr

/-- The call `op->getKind()` on an object whose class is `v`: the final overrider. -/
def Variant.getKind : Variant → Kind
  | .MemInitConstLenMacroOp => MemInitConstLenMacroOp.getKind
  | .MemClearConstLenMacroOp => MemClearConstLenMacroOp.getKind
  | .MemCmpConstLenMacroOp => MemCmpConstLenMacroOp.getKind
  | .MemCmpConstLenSignMacroOp => MemCmpConstLenSignMacroOp.getKind
  | .MemCpyConstLenMacroOp => MemCpyConstLenMacroOp.getKind
  | .BitOpMemConstLenMacroOp => BitOpMemConstLenMacroOp.getKind
  | .MemInitVarLenMacroOp => MemInitVarLenMacroOp.getKind
  | .MemClearVarLenMacroOp => MemClearVarLenMacroOp.getKind
  | .MemCmpVarLenMacroOp => MemCmpVarLenMacroOp.getKind
  | .MemCmpVarLenSignMacroOp => MemCmpVarLenSignMacroOp.getKind
  | .MemCpyVarLenMacroOp => MemCpyVarLenMacroOp.getKind
  | .BitOpMemVarLenMacroOp => BitOpMemVarLenMacroOp.getKind

/-- Whether the class derives from `MemToMemConstLenMacroOp` (else it derives from
`MemToMemVarLenMacroOp`). -/
def Variant.isConstLen : Variant → Bool
  | .MemInitConstLenMacroOp => true
  | .MemClearConstLenMacroOp => true
  | .MemCmpConstLenMacroOp => true
  | .MemCmpConstLenSignMacroOp => true
  | .MemCpyConstLenMacroOp => true
  | .BitOpMemConstLenMacroOp => true
  | _ => false

/-- The kinds of operation of the spec. -/
inductive Operation where
  | init
  | clear
  | compare
  | copy
  | bitwiseOp
  deriving DecidableEq, Repr

/-- The operation a class performs, as its name says; a signed compare is a compare. -/
def Variant.operation : Variant → Operation
  | .MemInitConstLenMacroOp => Operation.init
  | .MemClearConstLenMacroOp => Operation.clear
  | .MemCmpConstLenMacroOp => Operation.compare
  | .MemCmpConstLenSignMacroOp => Operation.compare
  | .MemCpyConstLenMacroOp => Operation.copy
  | .BitOpMemConstLenMacroOp => Operation.bitwiseOp
  | .MemInitVarLenMacroOp => Operation.init
  | .MemClearVarLenMacroOp => Operation.clear
  | .MemCmpVarLenMacroOp => Operation.compare
  | .MemCmpVarLenSignMacroOp => Operation.compare
  | .MemCpyVarLenMacroOp => Operation.copy
  | .BitOpMemVarLenMacroOp => Operation.bitwiseOp

/-- The tag of an operation, in the words of the claim: initialize is `IsMemInit`, clear
is `IsMemClear`, compare is `IsMemCmp`, copy is `IsMemCpy`, bitwise-op is `IsBitOpMem`. -/
def Operation.tag : Operation → Kind
  | .init => Kind.IsMemInit
  | .clear => Kind.IsMemClear
  | .compare => Kind.IsMemCmp
  | .copy => Kind.IsMemCpy
  | .bitwiseOp => Kind.IsBitOpMem

/-! ## The convenience overloads of `generate` -/

/-- The overload `generate(dstReg, srcReg)` (lines 126-129); the call in its body omits
`dstMR` and `srcMR`, which take their default `NULL`. -/
def MemToMemMacroOp.generateDstSrc {σ : Type} (MAXDISP : Int) (V : Strategy σ) (w : World σ)
    (dstReg srcReg : Option Register) : Outcome σ :=
  MemToMemMacroOp.generate MAXDISP V w dstReg srcReg none 0 none none none

/-- The overload `generate(dstReg)` (lines 131-134). -/
def MemToMemMacroOp.generateDst {σ : Type} (MAXDISP : Int) (V : Strategy σ) (w : World σ)
    (dstReg : Option Register) : Outcome σ :=
  MemToMemMacroOp.generate MAXDISP V w dstReg dstReg none 0 none none none

/-- The overload `generate(dstReg, srcReg, tmpReg, itersReg, offset, cursor)`
(lines 136-140): `_itersReg` is assigned before the call. -/
def MemToMemMacroOp.generateIters {σ : Type} (MAXDISP : Int) (V : Strategy σ) (w : World σ)
    (dstReg srcReg tmpReg itersReg : Option Register) (offset : Int)
    (cursor : Option InstrPtr) : Outcome σ :=
  let w1 : World σ := { w with op := { w.op with _itersReg := itersReg } }
  MemToMemMacroOp.generate MAXDISP V w1 dstReg srcReg tmpReg offset cursor none none

/-- The overload `generate(dstMR, srcMR)` (lines 142-145). -/
def MemToMemMacroOp.generateMemRefs {σ : Type} (MAXDISP : Int) (V : Strategy σ)
    (w : World σ) (dstMR srcMR : Option MemRefPtr) : Outcome σ :=
  MemToMemMacroOp.generate MAXDISP V w none none none 0 none dstMR srcMR

/-- The overload `generate(dstMR)` (lines 147-150). -/
def MemToMemMacroOp.generateMemRef {σ : Type} (MAXDISP : Int) (V : Strategy σ)
    (w : World σ) (dstMR : Option MemRefPtr) : Outcome σ :=
  MemToMemMacroOp.generate MAXDISP V w none none none 0 none dstMR dstMR

/-- The overload `generate(dstReg, strideReg, applyDepLocally)` of `MemToMemTypedMacroOp`
(lines 539-542). -/
def MemToMemTypedMacroOp.generateDstStride {σ : Type}
    (generateLoop : TypedWorld σ → Option (Option InstrPtr × TypedWorld σ))
    (w : TypedWorld σ) (dstReg strideReg : Option Register) (applyDepLocally : Bool) :
    TypedOutcome σ :=
  MemToMemTypedMacroOp.generate generateLoop w dstReg dstReg strideReg applyDepLocally

/-- The seven-argument form the claim compares an overload with: the call
`generate(dstReg, srcReg, tmpReg, offset, cursor, dstMR, srcMR)` on the state `w`. -/
def sevenArgumentForm {σ : Type} (MAXDISP : Int) (V : Strategy σ) (w : World σ)
    (dstReg srcReg tmpReg : Option Register) (offset : Int) (cursor : Option InstrPtr)
    (dstMR srcMR : Option MemRefPtr) : Outcome σ :=
  MemToMemMacroOp.generate MAXDISP V w dstReg srcReg tmpReg offset cursor dstMR srcMR

/-! ## The straight-line plan of a constant-length operation -/

/-- Modelled from the spec: the plan of a constant-length operation that needs no loop
(`generateLoop` and `generateRemainder` of `MemToMemConstLenMacroOp` are not part of the
sources): "emit `ceil(L/C)` straight-line instructions at increasing offsets, each
transferring `min(C, remaining)` bytes". An entry is the offset of a chunk relative to the
base and its length. -/
def straightLinePlan (C L : Nat) : List (Nat × Nat) :=
  (List.range ((L + C - 1) / C)).map (fun i => (C * i, min C (L - C * i)))

/-! ## More fixtures -/

/-- The final state of a call that returned. -/
def Outcome.world? {σ : Type} : Outcome σ → Option (World σ)
  | .returned _ w _ => some w
  | _ => none

/-- A strategy that emits a single `MVC` and has the dependency descriptor 9. -/
def singleStrategy : Strategy Unit :=
  { generateLoop := fun w =>
      some (some w.cg.instrCount, emit w [plainInstruction w.cg.instrCount Mnemonic.MVC]),
    generateRemainder := fun w => some (w.op._cursor, w),
    generateDependencies := fun w => some (some 9, w) }

/-- A first call of `generate` on an operation right after its construction that emits a
single instruction. -/
def singleRun : Outcome Unit :=
  MemToMemMacroOp.generate 4096 singleStrategy demoWorld (some 10) (some 11) none 0 none
    none none

/-- A second call of `generate` on the operation of the demo run, in the state the demo
run left; this call emits a single instruction. -/
def secondRun : Outcome Unit :=
  match demoRun with
  | .returned _ w _ =>
    MemToMemMacroOp.generate 4096 singleStrategy w (some 10) (some 11) none 0 none none none
  | o => o

/-- A strategy whose only emitted instruction is an `ASSOCREGS`, with the dependency
descriptor 9. -/
def loneAssocStrategy : Strategy Unit :=
  { generateLoop := fun w =>
      some (some w.cg.instrCount,
        emit w [plainInstruction w.cg.instrCount Mnemonic.ASSOCREGS]),
    generateRemainder := fun w => some (w.op._cursor, w),
    generateDependencies := fun w => some (some 9, w) }

/-- The call `generate(dstReg = 10, srcReg = 11, NULL, 0, NULL)` of `loneAssocStrategy`. -/
def loneAssocRun : Outcome Unit :=
  MemToMemMacroOp.generate 4096 loneAssocStrategy demoWorld (some 10) (some 11) none 0 none
    none none

/-- The state the three steps of `loneAssocStrategy` leave in the call `loneAssocRun`. -/
def loneAssocSteps : Option (World Unit) := do
  let (c1, w1) ← loneAssocStrategy.generateLoop
    (initMembers demoWorld (some 10) (some 11) none 0 none none none)
  let (c2, w2) ← loneAssocStrategy.generateRemainder (w1.setCursor c1)
  let (_, w3) ← loneAssocStrategy.generateDependencies (w2.setCursor c2)
  pure w3

/-- A typed loop that emits one instruction and overwrites the member `_endReg` with the
register 99. -/
def overwritingTypedLoop (w : TypedWorld Unit) : Option (Option InstrPtr × TypedWorld Unit) :=
  some (some w.cg.instrCount,
    { w with
      op := { w.op with _endReg := some 99 },
      cg := { w.cg with
        instructions := w.cg.instructions ++ [plainInstruction w.cg.instrCount Mnemonic.MVC],
        instrCount := w.cg.instrCount + 1 } })

/-- A strategy like `demoStrategy` whose `generateDependencies` has no descriptor and
assigns the instruction at address 1 to the member `_cursor`. -/
def cursorMovingStrategy : Strategy Unit :=
  { demoStrategy with generateDependencies := fun w => some (none, w.setCursor (some 1)) }

/-! ## Strategies that record their invocations -/

/-- The state `w` with a log of step invocations kept beside the members of the derived
class. -/
def World.withLog {σ : Type} (w : World σ) (l : List Step) : World (σ × List Step) :=
  { op := w.op, cg := w.cg, derived := (w.derived, l) }

/-- The state without the log. -/
def World.unlogged {σ : Type} (w : World (σ × List Step)) : World σ :=
  { op := w.op, cg := w.cg, derived := w.derived.1 }

/-- The strategy `V` with a recorder: each step works as the step of `V` does and, when it
returns, has added its own name at the end of the log. The log is written by the steps
only. -/
def Strategy.logged {σ : Type} (V : Strategy σ) : Strategy (σ × List Step) :=
  { generateLoop := fun w =>
      (V.generateLoop w.unlogged).map
        (fun r => (r.1, r.2.withLog (w.derived.2 ++ [Step.generateLoop]))),
    generateRemainder := fun w =>
      (V.generateRemainder w.unlogged).map
        (fun r => (r.1, r.2.withLog (w.derived.2 ++ [Step.generateRemainder]))),
    generateDependencies := fun w =>
      (V.generateDependencies w.unlogged).map
        (fun r => (r.1, r.2.withLog (w.derived.2 ++ [Step.generateDependencies]))) }

/-! ## Claim C1 -/

/-- C1: for every constant length `0 ≤ L` (an `int64_t`) given to the constructor of a
constant-length operation, `needsLoop()` is true exactly when `(L - 1) / 256 ≥ 16`, that is
exactly when `L ≥ 4097`; it is false for `L = 0` and for `1 ≤ L ≤ 4096`. -/
theorem needsLoop_iff (rootNode dstNode srcNode : Option Node) (itersReg : Option Register)
    (op : Mnemonic) (inNestedICF : Bool) (L : Int) (h0 : 0 ≤ L) (h63 : L < 2 ^ 63) :
    ((MemToMemConstLenMacroOp.construct rootNode dstNode srcNode L itersReg op
        inNestedICF).needsLoop = true ↔ 16 ≤ (L - 1) / 256) ∧
    ((MemToMemConstLenMacroOp.construct rootNode dstNode srcNode L itersReg op
        inNestedICF).needsLoop = true ↔ 16 ≤ Int.tdiv (L - 1) 256) ∧
    ((MemToMemConstLenMacroOp.construct rootNode dstNode srcNode L itersReg op
        inNestedICF).needsLoop = true ↔ 4097 ≤ L) ∧
    ((L = 0 ∨ (1 ≤ L ∧ L ≤ 4096)) →
      (MemToMemConstLenMacroOp.construct rootNode dstNode srcNode L itersReg op
        inNestedICF).needsLoop = false) := by
  have hmod : L % 2 ^ 64 = L := Int.emod_eq_of_lt h0 (by omega)
  have h16 : ((16 : Int) % 2 ^ 64).toNat = 16 := by decide
  obtain ⟨n, rfl⟩ := Int.eq_ofNat_of_zero_le h0
  have hn : n < 2 ^ 63 := by exact_mod_cast h63
  have htdiv : Int.tdiv ((n : Int) - 1) 256 = ((n : Int) - 1) / 256 ∨ n = 0 := by
    rcases Nat.eq_zero_or_pos n with h | h
    · exact Or.inr h
    · left
      obtain ⟨m, rfl⟩ : ∃ m, n = m + 1 := ⟨n - 1, by omega⟩
      have : ((m + 1 : Nat) : Int) - 1 = (m : Int) := by push_cast; ring
      rw [this]
      rfl
  simp only [MemToMemConstLenMacroOp.needsLoop, MemToMemConstLenMacroOp.construct, toUInt64,
    hmod, h16, Int.toNat_ofNat]
  rcases htdiv with h | h
  · rw [h]
    by_cases hz : n = 0
    · subst hz; simp
    · simp only [hz, if_false, Bool.not_eq_true', decide_eq_false_iff_not, Nat.not_lt,
        Bool.not_eq_false', decide_eq_true_eq]
      omega
  · subst h
    simp
    decide

/-- Witness of `needsLoop_iff` at the length 300 of the spec's scenario. -/
theorem needsLoop_iff_witness :
    (0 : Int) ≤ 300 ∧ (300 : Int) < 2 ^ 63 ∧
    (MemToMemConstLenMacroOp.construct (some 1) (some 2) (some 3) 300 none Mnemonic.MVC
      false).needsLoop = false :=
  ⟨by decide, by decide,
    (needsLoop_iff (some 1) (some 2) (some 3) none Mnemonic.MVC false 300 (by decide)
      (by decide)).2.2.2 (Or.inr ⟨by decide, by decide⟩)⟩

/-! ## The instruction stream primitives on a stream of known shape -/

theorem getNext_append (A : List Instruction) (x : Instruction) (B : List Instruction)
    (h : ∀ y ∈ A, y.addr ≠ x.addr) :
    getNext (A ++ x :: B) x.addr = some (B.head?.map (fun i => i.addr)) := by
  induction A with
  | nil => simp [getNext]
  | cons a A ih =>
    have ha : a.addr ≠ x.addr := h a (List.mem_cons_self _ _)
    simp only [List.cons_append, getNext, if_neg ha]
    exact ih (fun y hy => h y (List.mem_cons_of_mem _ hy))

theorem getPrevFrom_append (prev : Option InstrPtr) (A : List Instruction) (a x : Instruction)
    (B : List Instruction) (h : ∀ y ∈ A ++ [a], y.addr ≠ x.addr) :
    getPrevFrom prev (A ++ a :: x :: B) x.addr = some (some a.addr) := by
  induction A generalizing prev with
  | nil =>
    have ha : a.addr ≠ x.addr := h a (by simp)
    simp [getPrevFrom, ha]
  | cons b A ih =>
    have hb : b.addr ≠ x.addr := h b (by simp)
    simp only [List.cons_append, getPrevFrom, if_neg hb]
    exact ih _ (fun y hy => h y (by simp at hy ⊢; tauto))

theorem getPrev_append (A : List Instruction) (a x : Instruction) (B : List Instruction)
    (h : ∀ y ∈ A ++ [a], y.addr ≠ x.addr) :
    getPrev (A ++ a :: x :: B) x.addr = some (some a.addr) :=
  getPrevFrom_append none A a x B h

theorem getOpCodeValue_append (A : List Instruction) (x : Instruction) (B : List Instruction)
    (h : ∀ y ∈ A, y.addr ≠ x.addr) :
    getOpCodeValue (A ++ x :: B) x.addr = some x.opcode := by
  induction A with
  | nil => simp [getOpCodeValue]
  | cons a A ih =>
    have ha : a.addr ≠ x.addr := h a (List.mem_cons_self _ _)
    simp only [List.cons_append, getOpCodeValue, if_neg ha]
    exact ih (fun y hy => h y (List.mem_cons_of_mem _ hy))

theorem setDependencyConditions_append (A : List Instruction) (x : Instruction)
    (B : List Instruction) (d : DependencyConditions) (h : ∀ y ∈ A, y.addr ≠ x.addr) :
    setDependencyConditions (A ++ x :: B) x.addr d =
      some (A ++ { x with conditions := some d } :: B) := by
  induction A with
  | nil => simp [setDependencyConditions]
  | cons a A ih =>
    have ha : a.addr ≠ x.addr := h a (List.mem_cons_self _ _)
    have h2 := ih (fun y hy => h y (List.mem_cons_of_mem _ hy))
    simp [setDependencyConditions, ha, h2]

theorem insertAfter_append (A : List Instruction) (x : Instruction) (B : List Instruction)
    (n : Instruction) (h : ∀ y ∈ A, y.addr ≠ x.addr) :
    insertAfter (A ++ x :: B) x.addr n = some (A ++ x :: n :: B) := by
  induction A with
  | nil => simp [insertAfter]
  | cons a A ih =>
    have ha : a.addr ≠ x.addr := h a (List.mem_cons_self _ _)
    have h2 := ih (fun y hy => h y (List.mem_cons_of_mem _ hy))
    simp [insertAfter, ha, h2]

/-- A label instruction linked after the predecessor of `x` lands right before `x`. -/
theorem labelInstruction_before (cg : CodeGenerator) (A : List Instruction)
    (a x : Instruction) (B : List Instruction) (op : Mnemonic) (node : Option Node)
    (l : LabelSymbol) (cond : Option DependencyConditions)
    (hs : cg.instructions = A ++ a :: x :: B)
    (hx : ∀ y ∈ A ++ [a], y.addr ≠ x.addr) (ha : ∀ y ∈ A, y.addr ≠ a.addr) :
    getPrev cg.instructions x.addr = some (some a.addr) ∧
    generateS390LabelInstruction cg op node l cond (some a.addr) =
      some (cg.instrCount,
        { cg with
          instructions := A ++ a ::
            { addr := cg.instrCount, opcode := op, node := node, label := some l,
              conditions := cond } :: x :: B,
          instrCount := cg.instrCount + 1 }) := by
  constructor
  · rw [hs]; exact getPrev_append A a x B hx
  · simp only [generateS390LabelInstruction, hs]
    rw [insertAfter_append A a (x :: B) _ ha]
    rfl

theorem addr_ne_of_nodup (A : List Instruction) (x : Instruction) (B : List Instruction)
    (h : ((A ++ x :: B).map (fun i => i.addr)).Nodup) : ∀ y ∈ A, y.addr ≠ x.addr := by
  intro y hy heq
  rw [List.map_append, List.nodup_append] at h
  exact h.2.2 (List.mem_map_of_mem _ hy) (by simp [heq])

theorem setStartControlFlow_self {σ : Type} (w : World σ) (a : Option InstrPtr)
    (h : w.op._startControlFlow = a) : w.setStartControlFlow a = w := by
  cases w with
  | mk op cg derived =>
    cases op
    simp only [World.setStartControlFlow] at h ⊢
    subst h
    rfl

/-- Lines 86-90 on a stream in which `first` follows `p`: `_startControlFlow` ends up at
`first` when it was there already, when it was `NULL` and `p` is `cursorBefore` and `first`
is no `ASSOCREGS`, and when it was `NULL` and `p` is an `ASSOCREGS` right after
`cursorBefore`. -/
theorem resolveStartControlFlow_shape {σ : Type} (w : World σ) (cb : Option InstrPtr)
    (P : List Instruction) (p first : Instruction) (R : List Instruction)
    (hs : w.cg.instructions = P ++ p :: first :: R)
    (hnd : (w.cg.instructions.map (fun i => i.addr)).Nodup)
    (hstart : w.op._startControlFlow = some first.addr ∨
      (w.op._startControlFlow = none ∧ cb = some p.addr ∧ first.opcode ≠ Mnemonic.ASSOCREGS) ∨
      (w.op._startControlFlow = none ∧ p.opcode = Mnemonic.ASSOCREGS ∧
        ∃ P0 b, P = P0 ++ [b] ∧ cb = some b.addr)) :
    resolveStartControlFlow w cb = some (w.setStartControlFlow (some first.addr)) := by
  rw [hs] at hnd
  have hp : ∀ y ∈ P, y.addr ≠ p.addr := addr_ne_of_nodup P p _ hnd
  have hf : ∀ y ∈ P ++ [p], y.addr ≠ first.addr := by
    have h2 : P ++ p :: first :: R = (P ++ [p]) ++ first :: R := by simp
    rw [h2] at hnd
    exact addr_ne_of_nodup _ _ _ hnd
  have hnext : getNext w.cg.instructions p.addr = some (some first.addr) := by
    rw [hs, getNext_append P p _ hp]; rfl
  have hop : getOpCodeValue w.cg.instructions first.addr = some first.opcode := by
    have h2 : P ++ p :: first :: R = (P ++ [p]) ++ first :: R := by simp
    rw [hs, h2, getOpCodeValue_append _ first R hf]
  rcases hstart with h | ⟨h0, hcb, hop1⟩ | ⟨h0, hop1, P0, b, hP, hcb⟩
  · rw [setStartControlFlow_self w _ h]
    simp [resolveStartControlFlow, h]
  · simp [resolveStartControlFlow, h0, hcb, hnext, hop, hop1]
  · subst hP
    have hb : ∀ y ∈ P0, y.addr ≠ b.addr := by
      have h2 : (P0 ++ [b]) ++ p :: first :: R = P0 ++ b :: (p :: first :: R) := by simp
      rw [h2] at hnd
      exact addr_ne_of_nodup _ _ _ hnd
    have hnextb : getNext w.cg.instructions b.addr = some (some p.addr) := by
      have h2 : (P0 ++ [b]) ++ p :: first :: R = P0 ++ b :: (p :: first :: R) := by simp
      rw [hs, h2, getNext_append P0 b _ hb]; rfl
    have hopp : getOpCodeValue w.cg.instructions p.addr = some p.opcode := by
      rw [hs, getOpCodeValue_append _ p _ hp]
    simp [resolveStartControlFlow, h0, hcb, hnextb, hopp, hop1, hnext]

theorem map_addr_withConditions (A : List Instruction) (c : Instruction)
    (B : List Instruction) (d : DependencyConditions) :
    (A ++ withConditions c d :: B).map (fun i => i.addr) =
      (A ++ c :: B).map (fun i => i.addr) := by
  simp [withConditions]

/-- Lines 82-102 when the region start is the final cursor: the dependencies are attached
and no marker is inserted. -/
theorem attachDependencies_single {σ : Type} (w : World σ) (cb : Option InstrPtr)
    (P : List Instruction) (p c : Instruction) (Q : List Instruction)
    (d : DependencyConditions)
    (hs : w.cg.instructions = P ++ p :: c :: Q)
    (hnd : (w.cg.instructions.map (fun i => i.addr)).Nodup)
    (hc : w.op._cursor = some c.addr)
    (hstart : w.op._startControlFlow = some c.addr ∨
      (w.op._startControlFlow = none ∧ cb = some p.addr ∧ c.opcode ≠ Mnemonic.ASSOCREGS) ∨
      (w.op._startControlFlow = none ∧ p.opcode = Mnemonic.ASSOCREGS ∧
        ∃ P0 b, P = P0 ++ [b] ∧ cb = some b.addr)) :
    attachDependencies w cb (some d) =
      some ((w.setInstructions (P ++ p :: withConditions c d :: Q)).setStartControlFlow
        (some c.addr)) := by
  have hnd0 := hnd
  rw [hs] at hnd0
  have e1 : P ++ p :: c :: Q = (P ++ [p]) ++ c :: Q := by simp
  have hcP : ∀ y ∈ P ++ [p], y.addr ≠ c.addr := by
    rw [e1] at hnd0; exact addr_ne_of_nodup _ _ _ hnd0
  have hset : setDependencyConditions w.cg.instructions c.addr d =
      some (P ++ p :: withConditions c d :: Q) := by
    rw [hs, e1, setDependencyConditions_append _ c Q d hcP]; simp [withConditions]
  have hres := resolveStartControlFlow_shape
    (w.setInstructions (P ++ p :: withConditions c d :: Q)) cb P p (withConditions c d) Q rfl
    (by
      show ((P ++ p :: withConditions c d :: Q).map (fun i => i.addr)).Nodup
      have := map_addr_withConditions (P ++ [p]) c Q d
      simp only [List.append_assoc, List.singleton_append] at this
      rw [this]; exact hnd0)
    hstart
  have hres2 : resolveStartControlFlow
      (w.setInstructions (P ++ p :: withConditions c d :: Q)) cb =
      some ((w.setInstructions (P ++ p :: withConditions c d :: Q)).setStartControlFlow
        (some c.addr)) := hres
  simp only [attachDependencies, hc, hset, Option.bind_eq_bind, Option.some_bind, hres2]
  simp [World.setStartControlFlow, World.setInstructions, hc]

/-- Lines 93-100 on a stream in which the region start `s` lies before the cursor `c`: the
start label instruction lands right before `s`, the end label instruction right before
`c`. -/
theorem insertRegionMarkers_span {σ : Type} (w : World σ)
    (P : List Instruction) (p s : Instruction) (M : List Instruction) (c : Instruction)
    (Q : List Instruction) (d : DependencyConditions)
    (hs : w.cg.instructions = P ++ p :: s :: (M ++ c :: Q))
    (hnd : (w.cg.instructions.map (fun i => i.addr)).Nodup)
    (hfresh : ∀ i ∈ w.cg.instructions, i.addr < w.cg.instrCount)
    (hc : w.op._cursor = some c.addr)
    (hst : w.op._startControlFlow = some s.addr) :
    insertRegionMarkers w d =
      some
        { w with
          cg := { w.cg with
            instructions := P ++ p :: regionStartInstruction w d :: s ::
              (M ++ regionEndInstruction w :: c :: Q),
            instrCount := w.cg.instrCount + 2,
            labelCount := w.cg.labelCount + 2,
            startInternalControlFlow := w.cg.startInternalControlFlow ++ [w.cg.labelCount],
            endInternalControlFlow := w.cg.endInternalControlFlow ++ [w.cg.labelCount + 1] } } := by
  obtain ⟨op, ⟨instrs, ic, lc, sicf, eicf, pool, rc, mrs, tc⟩, derived⟩ := w
  simp only at hs hnd hfresh hc hst
  subst hs
  have hpP : ∀ y ∈ P, y.addr ≠ p.addr := addr_ne_of_nodup P p _ hnd
  have hsP : ∀ y ∈ P ++ [p], y.addr ≠ s.addr := by
    have e2 : P ++ p :: s :: (M ++ c :: Q) = (P ++ [p]) ++ s :: (M ++ c :: Q) := by simp
    rw [e2] at hnd; exact addr_ne_of_nodup _ _ _ hnd
  have h1 := labelInstruction_before
    ⟨P ++ p :: s :: (M ++ c :: Q), ic, lc + 1 + 1, sicf, eicf, pool, rc, mrs, tc⟩
    P p s (M ++ c :: Q) Mnemonic.LABEL op._rootNode lc (some d) rfl hsP hpP
  simp only at h1
  -- the stream after the first label instruction
  obtain ⟨M0, m, hM⟩ : ∃ M0 m, s :: M = M0 ++ [m] := by
    rcases List.eq_nil_or_concat (s :: M) with h | ⟨M0, m, h⟩
    · simp at h
    · exact ⟨M0, m, by simpa using h⟩
  have e3 : ∀ n r : Instruction, P ++ p :: n :: s :: (M ++ r :: c :: Q) =
      (P ++ p :: n :: M0) ++ m :: r :: c :: Q := by
    intro n r
    have : s :: (M ++ r :: c :: Q) = M0 ++ m :: r :: c :: Q := by
      rw [← List.cons_append, hM]; simp
    simp [this]
  have e3b : ∀ n : Instruction, P ++ p :: n :: s :: (M ++ c :: Q) =
      (P ++ p :: n :: M0) ++ m :: c :: Q := by
    intro n
    have : s :: (M ++ c :: Q) = M0 ++ m :: c :: Q := by
      rw [← List.cons_append, hM]; simp
    simp [this]
  have hnd2 : ∀ n : Instruction, n.addr = ic →
      ((P ++ p :: n :: s :: (M ++ c :: Q)).map (fun i => i.addr)).Nodup := by
    intro n hn
    have hperm : (P ++ p :: n :: s :: (M ++ c :: Q)).Perm
        (n :: (P ++ p :: s :: (M ++ c :: Q))) := by
      have := @List.perm_middle _ n (P ++ [p]) (s :: (M ++ c :: Q))
      simpa using this
    rw [(hperm.map _).nodup_iff, List.map_cons, List.nodup_cons]
    refine ⟨?_, hnd⟩
    intro hmem
    obtain ⟨y, hy, hya⟩ := List.mem_map.1 hmem
    have hlt := hfresh y hy
    have hya2 : y.addr = n.addr := hya
    rw [hya2, hn] at hlt
    exact lt_irrefl _ hlt
  have hcA : ∀ n : Instruction, n.addr = ic →
      ∀ y ∈ (P ++ p :: n :: M0) ++ [m], y.addr ≠ c.addr := by
    intro n hn
    have e4 : P ++ p :: n :: s :: (M ++ c :: Q) = ((P ++ p :: n :: M0) ++ [m]) ++ c :: Q := by
      rw [e3b]; simp
    have := hnd2 n hn
    rw [e4] at this; exact addr_ne_of_nodup _ _ _ this
  have hmA : ∀ n : Instruction, n.addr = ic →
      ∀ y ∈ P ++ p :: n :: M0, y.addr ≠ m.addr := by
    intro n hn
    have := hnd2 n hn
    rw [e3b] at this; exact addr_ne_of_nodup _ _ _ this
  have h2 := labelInstruction_before
    ⟨(P ++ p :: ⟨ic, Mnemonic.LABEL, op._rootNode, some lc, some d⟩ :: M0) ++ m :: c :: Q,
      ic + 1, lc + 1 + 1, sicf ++ [lc], eicf, pool, rc, mrs, tc⟩
    (P ++ p :: ⟨ic, Mnemonic.LABEL, op._rootNode, some lc, some d⟩ :: M0) m c Q Mnemonic.LABEL
    op._rootNode (lc + 1) none rfl (hcA _ rfl) (hmA _ rfl)
  simp only at h2
  simp only [insertRegionMarkers, generateLabelSymbol, hst, hc, Option.bind_eq_bind,
    Option.some_bind, h1.1, h1.2, setStartInternalControlFlow, e3b, h2.1, h2.2,
    setEndInternalControlFlow, regionStartInstruction, regionEndInstruction, e3]
  rfl

/-- Lines 82-102 when the region start `s` lies before the final cursor `c`: the
dependencies are attached to `c`, the start label instruction lands right before `s` and
the end label instruction right before `c`. -/
theorem attachDependencies_span {σ : Type} (w : World σ) (cb : Option InstrPtr)
    (P : List Instruction) (p s : Instruction) (M : List Instruction) (c : Instruction)
    (Q : List Instruction) (d : DependencyConditions)
    (hs : w.cg.instructions = P ++ p :: s :: M ++ c :: Q)
    (hnd : (w.cg.instructions.map (fun i => i.addr)).Nodup)
    (hfresh : ∀ i ∈ w.cg.instructions, i.addr < w.cg.instrCount)
    (hc : w.op._cursor = some c.addr)
    (hstart : w.op._startControlFlow = some s.addr ∨
      (w.op._startControlFlow = none ∧ cb = some p.addr ∧ s.opcode ≠ Mnemonic.ASSOCREGS) ∨
      (w.op._startControlFlow = none ∧ p.opcode = Mnemonic.ASSOCREGS ∧
        ∃ P0 b, P = P0 ++ [b] ∧ cb = some b.addr)) :
    attachDependencies w cb (some d) =
      some
        { op := { w.op with _startControlFlow := some s.addr },
          cg := { w.cg with
            instructions := P ++ p :: regionStartInstruction w d :: s :: M ++
              regionEndInstruction w :: withConditions c d :: Q,
            instrCount := w.cg.instrCount + 2,
            labelCount := w.cg.labelCount + 2,
            startInternalControlFlow := w.cg.startInternalControlFlow ++ [w.cg.labelCount],
            endInternalControlFlow := w.cg.endInternalControlFlow ++ [w.cg.labelCount + 1] },
          derived := w.derived } := by
  have hnd0 := hnd
  rw [hs] at hnd0
  -- the stream after `setDependencyConditions`
  have e1 : P ++ p :: s :: M ++ c :: Q = (P ++ p :: s :: M) ++ c :: Q := by simp
  have hcP : ∀ y ∈ P ++ p :: s :: M, y.addr ≠ c.addr := by
    rw [e1] at hnd0; exact addr_ne_of_nodup _ _ _ hnd0
  have hset : setDependencyConditions w.cg.instructions c.addr d =
      some (P ++ p :: s :: (M ++ withConditions c d :: Q)) := by
    rw [hs, e1, setDependencyConditions_append _ c Q d hcP]; simp [withConditions]
  have hnd1 : ((P ++ p :: s :: (M ++ withConditions c d :: Q)).map (fun i => i.addr)).Nodup := by
    have := map_addr_withConditions (P ++ p :: s :: M) c Q d
    simp only [List.append_assoc, List.cons_append] at this hnd0 ⊢
    rw [this]; exact hnd0
  have hres : resolveStartControlFlow
      (w.setInstructions (P ++ p :: s :: (M ++ withConditions c d :: Q))) cb =
      some ((w.setInstructions (P ++ p :: s :: (M ++ withConditions c d :: Q))).setStartControlFlow
        (some s.addr)) :=
    resolveStartControlFlow_shape _ cb P p s (M ++ withConditions c d :: Q) rfl hnd1 hstart
  have hsc : s.addr ≠ c.addr := hcP s (by simp)
  have hpP : ∀ y ∈ P, y.addr ≠ p.addr := addr_ne_of_nodup P p _ hnd1
  have hsP : ∀ y ∈ P ++ [p], y.addr ≠ s.addr := by
    have e2 : P ++ p :: s :: (M ++ withConditions c d :: Q) =
        (P ++ [p]) ++ s :: (M ++ withConditions c d :: Q) := by simp
    rw [e2] at hnd1; exact addr_ne_of_nodup _ _ _ hnd1
  -- the stream after the first label instruction
  have hlt : ∀ y ∈ P ++ p :: s :: (M ++ withConditions c d :: Q),
      y.addr < w.cg.instrCount := by
    intro y hy
    simp only [List.mem_append, List.mem_cons] at hy
    rcases hy with h | h | h | h | h | h
    · exact hfresh y (by rw [hs]; simp [h])
    · exact hfresh y (by rw [hs]; simp [h])
    · exact hfresh y (by rw [hs]; simp [h])
    · exact hfresh y (by rw [hs]; simp [h])
    · have hcc : c.addr < w.cg.instrCount := hfresh c (by rw [hs]; simp)
      rw [h]; exact hcc
    · exact hfresh y (by rw [hs]; simp [h])
  have hmark := insertRegionMarkers_span
    ((w.setInstructions (P ++ p :: s :: (M ++ withConditions c d :: Q))).setStartControlFlow
      (some s.addr))
    P p s M (withConditions c d) Q d rfl hnd1 hlt hc rfl
  have hne : ((w.setInstructions
      (P ++ p :: s :: (M ++ withConditions c d :: Q))).setStartControlFlow
      (some s.addr)).op._startControlFlow ≠
      ((w.setInstructions (P ++ p :: s :: (M ++ withConditions c d :: Q))).setStartControlFlow
      (some s.addr)).op._cursor := by
    show some s.addr ≠ w.op._cursor
    rw [hc]
    intro h
    exact hsc (Option.some.inj h)
  simp only [attachDependencies, hc, hset, Option.bind_eq_bind, Option.some_bind, hres,
    if_pos hne, hmark]
  simp [World.setStartControlFlow, World.setInstructions, regionStartInstruction,
    regionEndInstruction, hc]

/-! ## The paths through `generate` -/

/-- The path of a cursor that did not advance: lines 81-102 are skipped. -/
theorem generate_not_advanced {σ : Type} (MAXDISP : Int) (V : Strategy σ) (w : World σ)
    (dstReg srcReg tmpReg : Option Register) (offset : Int) (cursor : Option InstrPtr)
    (dstMR srcMR : Option MemRefPtr) (c1 c2 : Option InstrPtr) (w1 w2 : World σ)
    (hoff : offset ≤ MAXDISP)
    (hL : V.generateLoop (initMembers w dstReg srcReg tmpReg offset cursor dstMR srcMR) =
      some (c1, w1))
    (hR : V.generateRemainder (w1.setCursor c1) = some (c2, w2))
    (hna : ¬ (c2 ≠ none ∧ cursorBeforeOf w.cg cursor ≠ c2)) :
    MemToMemMacroOp.generate MAXDISP V w dstReg srcReg tmpReg offset cursor dstMR srcMR =
      Outcome.returned c2 (releaseTemps (w2.setCursor c2))
        [Step.generateLoop, Step.generateRemainder] := by
  have hna2 : ¬ ((w2.setCursor c2).op._cursor ≠ none ∧
      cursorBeforeOf (initMembers w dstReg srcReg tmpReg offset cursor dstMR srcMR).cg cursor ≠
        (w2.setCursor c2).op._cursor) := hna
  simp only [MemToMemMacroOp.generate, not_not.2 hoff, if_false, hL, hR, if_neg hna2]
  rfl

/-- The path of a cursor that advanced: `generateDependencies` is invoked and lines 82-102
run on its result. -/
theorem generate_advanced {σ : Type} (MAXDISP : Int) (V : Strategy σ) (w : World σ)
    (dstReg srcReg tmpReg : Option Register) (offset : Int) (cursor : Option InstrPtr)
    (dstMR srcMR : Option MemRefPtr) (c1 c2 : Option InstrPtr) (w1 w2 : World σ)
    (dd : Option DependencyConditions) (w3 : World σ)
    (hoff : offset ≤ MAXDISP)
    (hL : V.generateLoop (initMembers w dstReg srcReg tmpReg offset cursor dstMR srcMR) =
      some (c1, w1))
    (hR : V.generateRemainder (w1.setCursor c1) = some (c2, w2))
    (hadv : c2 ≠ none ∧ cursorBeforeOf w.cg cursor ≠ c2)
    (hD : V.generateDependencies (w2.setCursor c2) = some (dd, w3)) :
    MemToMemMacroOp.generate MAXDISP V w dstReg srcReg tmpReg offset cursor dstMR srcMR =
      match attachDependencies w3 (cursorBeforeOf w.cg cursor) dd with
      | none =>
        Outcome.invalidDereference
          [Step.generateLoop, Step.generateRemainder, Step.generateDependencies]
      | some w4 =>
        Outcome.returned w4.op._cursor (releaseTemps w4)
          [Step.generateLoop, Step.generateRemainder, Step.generateDependencies] := by
  have hadv2 : (w2.setCursor c2).op._cursor ≠ none ∧
      cursorBeforeOf (initMembers w dstReg srcReg tmpReg offset cursor dstMR srcMR).cg cursor ≠
        (w2.setCursor c2).op._cursor := hadv
  simp only [MemToMemMacroOp.generate, not_not.2 hoff, if_false, hL, hR, if_pos hadv2, hD]
  rfl

/-- What lines 86-90 leave alone. -/
theorem resolveStartControlFlow_frame {σ : Type} (w w1 : World σ) (cb : Option InstrPtr)
    (h : resolveStartControlFlow w cb = some w1) :
    w1.cg = w.cg ∧ w1.op._cursor = w.op._cursor ∧ w1.op._srcRegTemp = w.op._srcRegTemp ∧
      w1.op._dstRegTemp = w.op._dstRegTemp := by
  unfold resolveStartControlFlow at h
  split at h
  · simp only [Option.bind_eq_bind, Option.bind_eq_some] at h
    obtain ⟨cb0, -, start, -, s0, -, op, -, h⟩ := h
    split at h
    · simp only [Option.bind_eq_some] at h
      obtain ⟨next, -, h⟩ := h
      simp only [Option.pure_def, Option.some.injEq] at h
      subst h
      simp [World.setStartControlFlow]
    · simp only [Option.pure_def, Option.some.injEq] at h
      subst h
      simp [World.setStartControlFlow]
  · simp only [Option.pure_def, Option.some.injEq] at h
    subst h
    simp

theorem generateS390LabelInstruction_pool (cg cg1 : CodeGenerator) (op : Mnemonic)
    (node : Option Node) (l : LabelSymbol) (cond : Option DependencyConditions)
    (preced : Option InstrPtr) (a : InstrPtr)
    (h : generateS390LabelInstruction cg op node l cond preced = some (a, cg1)) :
    cg1.pool = cg.pool := by
  unfold generateS390LabelInstruction at h
  cases preced with
  | none =>
    simp only [Option.some.injEq, Prod.mk.injEq] at h
    rw [← h.2]
  | some q =>
    simp only [Option.map_eq_some'] at h
    obtain ⟨s, -, h⟩ := h
    simp only [Prod.mk.injEq] at h
    rw [← h.2]

/-- What lines 93-100 leave alone. -/
theorem insertRegionMarkers_frame {σ : Type} (w w1 : World σ) (d : DependencyConditions)
    (h : insertRegionMarkers w d = some w1) :
    w1.op = w.op ∧ w1.cg.pool = w.cg.pool := by
  unfold insertRegionMarkers at h
  simp only [Option.bind_eq_bind, Option.bind_eq_some, generateLabelSymbol] at h
  obtain ⟨start, -, startPrev, -, ⟨a3, cg3⟩, h3, cursor, -, cursorPrev, -, ⟨a5, cg5⟩, h5, h⟩ := h
  simp only [Option.pure_def, Option.some.injEq] at h
  subst h
  have p3 := generateS390LabelInstruction_pool _ _ _ _ _ _ _ _ h3
  have p5 := generateS390LabelInstruction_pool _ _ _ _ _ _ _ _ h5
  refine ⟨rfl, ?_⟩
  simp only [setEndInternalControlFlow, p5, setStartInternalControlFlow, p3]

/-- What lines 82-102 leave alone: the cursor, the temporaries and the register pool. -/
theorem attachDependencies_frame {σ : Type} (w w4 : World σ) (cb : Option InstrPtr)
    (dd : Option DependencyConditions) (h : attachDependencies w cb dd = some w4) :
    w4.op._cursor = w.op._cursor ∧ w4.op._srcRegTemp = w.op._srcRegTemp ∧
      w4.op._dstRegTemp = w.op._dstRegTemp ∧ w4.cg.pool = w.cg.pool := by
  unfold attachDependencies at h
  cases dd with
  | none =>
    simp only [Option.some.injEq] at h
    subst h
    simp
  | some d =>
    simp only [Option.bind_eq_bind, Option.bind_eq_some] at h
    obtain ⟨cursor, -, s, -, w1, hres, h⟩ := h
    obtain ⟨f1, f2, f3, f4⟩ := resolveStartControlFlow_frame _ _ _ hres
    split at h
    · obtain ⟨g1, g2⟩ := insertRegionMarkers_frame _ _ _ h
      rw [g1, g2, f1, f2, f3, f4]
      simp [World.setInstructions]
    · simp only [Option.pure_def, Option.some.injEq] at h
      subst h
      rw [f1, f2, f3, f4]
      simp [World.setInstructions]

/-- Lines 105-108 change nothing but the register pool. -/
theorem releaseTemps_frame {σ : Type} (w : World σ) :
    (releaseTemps w).op = w.op ∧
    (releaseTemps w).cg.instructions = w.cg.instructions ∧
    (releaseTemps w).cg.instrCount = w.cg.instrCount ∧
    (releaseTemps w).cg.labelCount = w.cg.labelCount ∧
    (releaseTemps w).cg.startInternalControlFlow = w.cg.startInternalControlFlow ∧
    (releaseTemps w).cg.endInternalControlFlow = w.cg.endInternalControlFlow := by
  unfold releaseTemps
  cases h1 : w.op._srcRegTemp <;> cases h2 : w.op._dstRegTemp <;> simp [stopUsingRegister]

/-- Lines 105-108 release each temporary that is set, the source one first. -/
theorem releaseTemps_pool {σ : Type} (w : World σ) :
    (releaseTemps w).cg.pool =
      w.cg.pool ++ (w.op._srcRegTemp.toList ++ w.op._dstRegTemp.toList).map
        (fun r => PoolEvent.stopUsingRegister (some r)) := by
  unfold releaseTemps
  cases h1 : w.op._srcRegTemp <;> cases h2 : w.op._dstRegTemp <;> simp [stopUsingRegister]

/-- Lines 82-102 on a stream `P ++ p :: X ++ c :: Q` whose region start is the first
instruction of `X ++ [c]` and whose final cursor is `c`. -/
theorem attachDependencies_shape {σ : Type} (w : World σ) (cb : Option InstrPtr)
    (P : List Instruction) (p : Instruction) (X : List Instruction) (c first : Instruction)
    (Q : List Instruction) (d : DependencyConditions)
    (hs : w.cg.instructions = P ++ p :: X ++ c :: Q)
    (hnd : (w.cg.instructions.map (fun i => i.addr)).Nodup)
    (hfresh : ∀ i ∈ w.cg.instructions, i.addr < w.cg.instrCount)
    (hc : w.op._cursor = some c.addr)
    (hfirst : (X ++ [c]).head? = some first)
    (hstart : w.op._startControlFlow = some first.addr ∨
      (w.op._startControlFlow = none ∧ cb = some p.addr ∧
        first.opcode ≠ Mnemonic.ASSOCREGS) ∨
      (w.op._startControlFlow = none ∧ p.opcode = Mnemonic.ASSOCREGS ∧
        ∃ P0 b, P = P0 ++ [b] ∧ cb = some b.addr)) :
    ∃ w4 : World σ, attachDependencies w cb (some d) = some w4 ∧
      w4.op._cursor = some c.addr ∧
      w4.op._startControlFlow = some first.addr ∧
      w4.cg.labelCount = (if X = [] then w.cg.labelCount else w.cg.labelCount + 2) ∧
      w4.cg.startInternalControlFlow =
        (if X = [] then w.cg.startInternalControlFlow
         else w.cg.startInternalControlFlow ++ [w.cg.labelCount]) ∧
      w4.cg.endInternalControlFlow =
        (if X = [] then w.cg.endInternalControlFlow
         else w.cg.endInternalControlFlow ++ [w.cg.labelCount + 1]) ∧
      w4.cg.instructions =
        (if X = [] then P ++ p :: withConditions c d :: Q
         else P ++ p :: regionStartInstruction w d :: X ++
           regionEndInstruction w :: withConditions c d :: Q) := by
  cases X with
  | nil =>
    simp only [List.nil_append, List.head?_cons, Option.some.injEq] at hfirst
    subst hfirst
    have hs2 : w.cg.instructions = P ++ p :: c :: Q := by rw [hs]; simp
    refine ⟨_, attachDependencies_single w cb P p c Q d hs2 hnd hc hstart, ?_⟩
    simp [World.setStartControlFlow, World.setInstructions, hc]
  | cons s M =>
    simp only [List.cons_append, List.head?_cons, Option.some.injEq] at hfirst
    subst hfirst
    refine ⟨_, attachDependencies_span w cb P p s M c Q d hs hnd hfresh hc hstart, ?_⟩
    simp [hc]

/-! ## What lines 82-102 change on any stream -/

theorem setDependencyConditions_length (s s1 : List Instruction) (p : InstrPtr)
    (d : DependencyConditions) (h : setDependencyConditions s p d = some s1) :
    s1.length = s.length := by
  induction s generalizing s1 with
  | nil => simp [setDependencyConditions] at h
  | cons x rest ih =>
    simp only [setDependencyConditions] at h
    split at h
    · simp only [Option.some.injEq] at h
      subst h
      simp
    · simp only [Option.map_eq_some'] at h
      obtain ⟨r, hr, h⟩ := h
      subst h
      simp [ih r hr]

theorem insertAfter_effect (s s1 : List Instruction) (p : InstrPtr) (n : Instruction)
    (h : insertAfter s p n = some s1) :
    s1.length = s.length + 1 ∧ n ∈ s1 ∧ ∀ x ∈ s, x ∈ s1 := by
  induction s generalizing s1 with
  | nil => simp [insertAfter] at h
  | cons x rest ih =>
    simp only [insertAfter] at h
    split at h
    · simp only [Option.some.injEq] at h
      subst h
      refine ⟨by simp, by simp, ?_⟩
      intro y hy
      simp only [List.mem_cons] at hy ⊢
      tauto
    · simp only [Option.map_eq_some'] at h
      obtain ⟨r, hr, h⟩ := h
      subst h
      obtain ⟨i1, i2, i3⟩ := ih r hr
      refine ⟨by simp [i1], List.mem_cons_of_mem _ i2, ?_⟩
      intro y hy
      simp only [List.mem_cons] at hy ⊢
      rcases hy with hy | hy
      · exact Or.inl hy
      · exact Or.inr (i3 y hy)

/-- What a new label instruction changes in the code generator. -/
theorem generateS390LabelInstruction_effect (cg cg1 : CodeGenerator) (op : Mnemonic)
    (node : Option Node) (l : LabelSymbol) (cond : Option DependencyConditions)
    (preced : Option InstrPtr) (a : InstrPtr)
    (h : generateS390LabelInstruction cg op node l cond preced = some (a, cg1)) :
    cg1.instrCount = cg.instrCount + 1 ∧ cg1.labelCount = cg.labelCount ∧
    cg1.startInternalControlFlow = cg.startInternalControlFlow ∧
    cg1.endInternalControlFlow = cg.endInternalControlFlow ∧
    cg1.instructions.length = cg.instructions.length + 1 ∧
    ({ addr := cg.instrCount, opcode := op, node := node, label := some l,
       conditions := cond } : Instruction) ∈ cg1.instructions ∧
    ∀ x ∈ cg.instructions, x ∈ cg1.instructions := by
  unfold generateS390LabelInstruction at h
  cases preced with
  | none =>
    simp only [Option.some.injEq, Prod.mk.injEq] at h
    rw [← h.2]
    refine ⟨rfl, rfl, rfl, rfl, by simp, by simp, ?_⟩
    intro x hx
    simp [hx]
  | some q =>
    simp only [Option.map_eq_some'] at h
    obtain ⟨s, hs, h⟩ := h
    simp only [Prod.mk.injEq] at h
    rw [← h.2]
    obtain ⟨i1, i2, i3⟩ := insertAfter_effect _ _ _ _ hs
    exact ⟨rfl, rfl, rfl, rfl, i1, i2, i3⟩

/-- What lines 93-100 change: two new labels, two new label instructions. -/
theorem insertRegionMarkers_effect {σ : Type} (w w1 : World σ) (d : DependencyConditions)
    (h : insertRegionMarkers w d = some w1) :
    w1.op = w.op ∧
    w1.cg.labelCount = w.cg.labelCount + 2 ∧
    w1.cg.instrCount = w.cg.instrCount + 2 ∧
    w1.cg.instructions.length = w.cg.instructions.length + 2 ∧
    w1.cg.startInternalControlFlow = w.cg.startInternalControlFlow ++ [w.cg.labelCount] ∧
    w1.cg.endInternalControlFlow = w.cg.endInternalControlFlow ++ [w.cg.labelCount + 1] ∧
    regionStartInstruction w d ∈ w1.cg.instructions ∧
    regionEndInstruction w ∈ w1.cg.instructions := by
  unfold insertRegionMarkers at h
  simp only [Option.bind_eq_bind, Option.bind_eq_some, generateLabelSymbol] at h
  obtain ⟨start, -, startPrev, -, ⟨a3, cg3⟩, h3, cursor, -, cursorPrev, -, ⟨a5, cg5⟩, h5, h⟩ := h
  simp only [Option.pure_def, Option.some.injEq] at h
  subst h
  obtain ⟨e1, e2, e3, e4, e5, e6, -⟩ := generateS390LabelInstruction_effect _ _ _ _ _ _ _ _ h3
  obtain ⟨f1, f2, f3, f4, f5, f6, f7⟩ := generateS390LabelInstruction_effect _ _ _ _ _ _ _ _ h5
  simp only [setStartInternalControlFlow] at f1 f2 f3 f4 f5 f6 f7
  simp only at e1 e2 e3 e4 e5 e6
  refine ⟨rfl, ?_, ?_, ?_, ?_, ?_, ?_, ?_⟩
  · simp only [setEndInternalControlFlow, f2, e2]
  · simp only [setEndInternalControlFlow, f1, e1]
  · simp only [setEndInternalControlFlow, f5, e5]
  · simp only [setEndInternalControlFlow, f3, e3]
  · simp only [setEndInternalControlFlow, f4, e4]
  · simp only [setEndInternalControlFlow]
    exact f7 _ e6
  · simp only [setEndInternalControlFlow, regionEndInstruction]
    rw [e1] at f6
    exact f6

/-- Lines 86-90 change nothing but the member `_startControlFlow`. -/
theorem resolveStartControlFlow_eq {σ : Type} (w w1 : World σ) (cb : Option InstrPtr)
    (h : resolveStartControlFlow w cb = some w1) :
    w1 = w.setStartControlFlow w1.op._startControlFlow := by
  unfold resolveStartControlFlow at h
  split at h
  · simp only [Option.bind_eq_bind, Option.bind_eq_some] at h
    obtain ⟨cb0, -, start, -, s0, -, op, -, h⟩ := h
    split at h
    · simp only [Option.bind_eq_some] at h
      obtain ⟨next, -, h⟩ := h
      simp only [Option.pure_def, Option.some.injEq] at h
      subst h
      rfl
    · simp only [Option.pure_def, Option.some.injEq] at h
      subst h
      rfl
  · simp only [Option.pure_def, Option.some.injEq] at h
    subst h
    exact (setStartControlFlow_self w _ rfl).symm

/-- What lines 82-102 change: either no label and no instruction is created, or the
dependencies are not null, `_startControlFlow` is not `_cursor`, and two new labels and two
new label instructions are created. -/
theorem attachDependencies_effect {σ : Type} (w w4 : World σ) (cb : Option InstrPtr)
    (dd : Option DependencyConditions) (h : attachDependencies w cb dd = some w4) :
    (w4.cg.labelCount = w.cg.labelCount ∧ w4.cg.instrCount = w.cg.instrCount ∧
      w4.cg.instructions.length = w.cg.instructions.length ∧
      w4.cg.startInternalControlFlow = w.cg.startInternalControlFlow ∧
      w4.cg.endInternalControlFlow = w.cg.endInternalControlFlow) ∨
    ((∃ d, dd = some d ∧ regionStartInstruction w d ∈ w4.cg.instructions) ∧
      w4.op._startControlFlow ≠ w4.op._cursor ∧
      w4.cg.labelCount = w.cg.labelCount + 2 ∧ w4.cg.instrCount = w.cg.instrCount + 2 ∧
      w4.cg.instructions.length = w.cg.instructions.length + 2 ∧
      w4.cg.startInternalControlFlow = w.cg.startInternalControlFlow ++ [w.cg.labelCount] ∧
      w4.cg.endInternalControlFlow =
        w.cg.endInternalControlFlow ++ [w.cg.labelCount + 1] ∧
      regionEndInstruction w ∈ w4.cg.instructions) := by
  unfold attachDependencies at h
  cases dd with
  | none =>
    simp only [Option.some.injEq] at h
    subst h
    exact Or.inl ⟨rfl, rfl, rfl, rfl, rfl⟩
  | some d =>
    simp only [Option.bind_eq_bind, Option.bind_eq_some] at h
    obtain ⟨cursor, -, s, hset, w1, hres, h⟩ := h
    have hlen := setDependencyConditions_length _ _ _ _ hset
    have hw1 := resolveStartControlFlow_eq _ _ _ hres
    split at h
    · rename_i hne
      obtain ⟨g1, g2, g3, g4, g5, g6, g7, g8⟩ := insertRegionMarkers_effect _ _ _ h
      have r1 : regionStartInstruction w1 d = regionStartInstruction w d := by
        rw [hw1]; rfl
      have r2 : regionEndInstruction w1 = regionEndInstruction w := by
        rw [hw1]; rfl
      have c1 : w1.cg.labelCount = w.cg.labelCount := by rw [hw1]; rfl
      have c2 : w1.cg.instrCount = w.cg.instrCount := by rw [hw1]; rfl
      have c3 : w1.cg.instructions.length = w.cg.instructions.length := by
        rw [hw1]; exact hlen
      have c4 : w1.cg.startInternalControlFlow = w.cg.startInternalControlFlow := by
        rw [hw1]; rfl
      have c5 : w1.cg.endInternalControlFlow = w.cg.endInternalControlFlow := by
        rw [hw1]; rfl
      right
      refine ⟨⟨d, rfl, by rw [← r1]; exact g7⟩, by rw [g1]; exact hne, ?_, ?_, ?_, ?_, ?_, ?_⟩
      · rw [g2, c1]
      · rw [g3, c2]
      · rw [g4, c3]
      · rw [g5, c4, c1]
      · rw [g6, c5, c1]
      · rw [← r2]; exact g8
    · simp only [Option.pure_def, Option.some.injEq] at h
      subst h
      left
      rw [hw1]
      exact ⟨rfl, rfl, hlen, rfl, rfl⟩

/-- The call `setDependencyConditions(d)` changes the first instruction with the given
address, and no other instruction. -/
theorem setDependencyConditions_split (s s1 : List Instruction) (p : InstrPtr)
    (d : DependencyConditions) (h : setDependencyConditions s p d = some s1) :
    ∃ A c B, s = A ++ c :: B ∧ c.addr = p ∧ (∀ y ∈ A, y.addr ≠ p) ∧
      s1 = A ++ withConditions c d :: B := by
  induction s generalizing s1 with
  | nil => simp [setDependencyConditions] at h
  | cons x rest ih =>
    simp only [setDependencyConditions] at h
    split at h
    · rename_i hx
      simp only [Option.some.injEq] at h
      exact ⟨[], x, rest, rfl, hx, by simp, by rw [← h]; rfl⟩
    · rename_i hx
      simp only [Option.map_eq_some'] at h
      obtain ⟨r, hr, h⟩ := h
      obtain ⟨A, c, B, e1, e2, e3, e4⟩ := ih r hr
      refine ⟨x :: A, c, B, by rw [e1]; rfl, e2, ?_, by rw [← h, e4]; rfl⟩
      intro y hy
      simp only [List.mem_cons] at hy
      rcases hy with hy | hy
      · rw [hy]; exact hx
      · exact e3 y hy

/-- Linking an instruction into the stream adds it and keeps the others in their order. -/
theorem insertAfter_perm (s s1 : List Instruction) (p : InstrPtr) (n : Instruction)
    (h : insertAfter s p n = some s1) : s1.Perm (n :: s) ∧ s.Sublist s1 := by
  induction s generalizing s1 with
  | nil => simp [insertAfter] at h
  | cons x rest ih =>
    simp only [insertAfter] at h
    split at h
    · simp only [Option.some.injEq] at h
      subst h
      exact ⟨List.Perm.swap n x rest, (List.sublist_cons_self n rest).cons₂ x⟩
    · simp only [Option.map_eq_some'] at h
      obtain ⟨r, hr, h⟩ := h
      subst h
      obtain ⟨i1, i2⟩ := ih r hr
      exact ⟨(i1.cons x).trans (List.Perm.swap n x rest), i2.cons₂ x⟩

/-- A new label instruction is added to the stream; the others keep their order. -/
theorem generateS390LabelInstruction_perm (cg cg1 : CodeGenerator) (op : Mnemonic)
    (node : Option Node) (l : LabelSymbol) (cond : Option DependencyConditions)
    (preced : Option InstrPtr) (a : InstrPtr)
    (h : generateS390LabelInstruction cg op node l cond preced = some (a, cg1)) :
    cg1.instructions.Perm
      (({ addr := cg.instrCount, opcode := op, node := node, label := some l,
          conditions := cond } : Instruction) :: cg.instructions) ∧
    cg.instructions.Sublist cg1.instructions := by
  unfold generateS390LabelInstruction at h
  cases preced with
  | none =>
    simp only [Option.some.injEq, Prod.mk.injEq] at h
    rw [← h.2]
    exact ⟨List.perm_append_singleton _ _, List.sublist_append_left _ _⟩
  | some q =>
    simp only [Option.map_eq_some'] at h
    obtain ⟨s, hs, h⟩ := h
    simp only [Prod.mk.injEq] at h
    rw [← h.2]
    exact insertAfter_perm _ _ _ _ hs

/-- Lines 93-100 add the two label instructions to the stream and keep the others in
their order. -/
theorem insertRegionMarkers_perm {σ : Type} (w w1 : World σ) (d : DependencyConditions)
    (h : insertRegionMarkers w d = some w1) :
    w1.cg.instructions.Perm
      (regionStartInstruction w d :: regionEndInstruction w :: w.cg.instructions) ∧
    w.cg.instructions.Sublist w1.cg.instructions := by
  unfold insertRegionMarkers at h
  simp only [Option.bind_eq_bind, Option.bind_eq_some, generateLabelSymbol] at h
  obtain ⟨start, -, startPrev, -, ⟨a3, cg3⟩, h3, cursor, -, cursorPrev, -, ⟨a5, cg5⟩, h5, h⟩ := h
  simp only [Option.pure_def, Option.some.injEq] at h
  subst h
  obtain ⟨e1, -⟩ := generateS390LabelInstruction_effect _ _ _ _ _ _ _ _ h3
  obtain ⟨p3, s3⟩ := generateS390LabelInstruction_perm _ _ _ _ _ _ _ _ h3
  obtain ⟨p5, s5⟩ := generateS390LabelInstruction_perm _ _ _ _ _ _ _ _ h5
  simp only [setStartInternalControlFlow] at p5 s5
  simp only at e1 p3 s3
  rw [e1] at p5
  refine ⟨?_, s3.trans s5⟩
  simp only [setEndInternalControlFlow]
  exact (p5.trans (p3.cons _)).trans (List.Perm.swap _ _ _)

/-- Lines 82-102 with a descriptor `d`, on any stream: `d` is attached to the instruction
`_cursor` refers to; then either nothing else changes in the stream, or the two label
instructions are added to it. -/
theorem attachDependencies_stream {σ : Type} (w w4 : World σ) (cb : Option InstrPtr)
    (d : DependencyConditions) (h : attachDependencies w cb (some d) = some w4) :
    ∃ A c B, w.cg.instructions = A ++ c :: B ∧ w.op._cursor = some c.addr ∧
      (∀ y ∈ A, y.addr ≠ c.addr) ∧
      ((w4.cg.labelCount = w.cg.labelCount ∧
          w4.cg.instructions = A ++ withConditions c d :: B) ∨
        (w4.cg.labelCount = w.cg.labelCount + 2 ∧
          w4.cg.instructions.Perm
            (regionStartInstruction w d :: regionEndInstruction w ::
              (A ++ withConditions c d :: B)) ∧
          (A ++ withConditions c d :: B).Sublist w4.cg.instructions)) := by
  unfold attachDependencies at h
  simp only [Option.bind_eq_bind, Option.bind_eq_some] at h
  obtain ⟨cursor, hcur, s, hset, w1, hres, h⟩ := h
  obtain ⟨A, c, B, e1, e2, e3, e4⟩ := setDependencyConditions_split _ _ _ _ hset
  have hw1 := resolveStartControlFlow_eq _ _ _ hres
  have hs1 : w1.cg.instructions = A ++ withConditions c d :: B := by
    rw [hw1, ← e4]; rfl
  have hl1 : w1.cg.labelCount = w.cg.labelCount := by rw [hw1]; rfl
  refine ⟨A, c, B, e1, by rw [hcur, e2], by rw [e2]; exact e3, ?_⟩
  split at h
  · have r1 : regionStartInstruction w1 d = regionStartInstruction w d := by
      rw [hw1]; rfl
    have r2 : regionEndInstruction w1 = regionEndInstruction w := by
      rw [hw1]; rfl
    obtain ⟨-, g2, -⟩ := insertRegionMarkers_effect _ _ _ h
    obtain ⟨q1, q2⟩ := insertRegionMarkers_perm _ _ _ h
    rw [r1, r2, hs1] at q1
    rw [hs1] at q2
    exact Or.inr ⟨by rw [g2, hl1], q1, q2⟩
  · simp only [Option.pure_def, Option.some.injEq] at h
    subst h
    exact Or.inl ⟨hl1, hs1⟩

/-! ## Claim C2 -/

/-- C2, as stated, fails: in the demo run the dependency descriptor 9 is carried by two
instructions of the final stream, the final cursor (the `MVC` at address 3) and the
region-start `LABEL` instruction at address 4 that `generate` created. -/
theorem dependencies_on_two_instructions :
    (demoRun.instructions.filter (fun i => decide (i.conditions = some 9))).map
      (fun i => (i.addr, i.opcode)) = [(4, Mnemonic.LABEL), (3, Mnemonic.MVC)] := by
  decide

/-- C2 (amended): for every call of `generate` that returns, with `wS` the state the last
invoked strategy step left and `dd` the descriptor `generateDependencies()` returned (none
when the cursor did not advance): when the cursor did not advance, `generateDependencies()`
is not invoked and the stream is as the steps left it; when `dd` is null the stream is as
the steps left it; and when `dd` is a descriptor `d`, the cursor advanced, `d` is attached
to the instruction `c` the returned cursor refers to, and the final stream consists of the
instructions of the stream the steps left, `c` now carrying `d`, in their order, and, when
region markers are inserted, of the two new label instructions, of which the region-start
one carries `d` and the region-end one carries none. So the instructions that carry `d`
are, besides those that carried it before, the final cursor and, with markers, the
region-start label instruction. -/
theorem dependencies_attached {σ : Type} (MAXDISP : Int) (V : Strategy σ) (w : World σ)
    (dstReg srcReg tmpReg : Option Register) (offset : Int) (cursor : Option InstrPtr)
    (dstMR srcMR : Option MemRefPtr) (c1 c2 : Option InstrPtr) (w1 w2 wS : World σ)
    (dd : Option DependencyConditions) (r : Option InstrPtr) (wf : World σ) (cs : List Step)
    (hoff : offset ≤ MAXDISP)
    (hL : V.generateLoop (initMembers w dstReg srcReg tmpReg offset cursor dstMR srcMR) =
      some (c1, w1))
    (hR : V.generateRemainder (w1.setCursor c1) = some (c2, w2))
    (hS : (¬ (c2 ≠ none ∧ cursorBeforeOf w.cg cursor ≠ c2) ∧ dd = none ∧
        wS = w2.setCursor c2) ∨
      ((c2 ≠ none ∧ cursorBeforeOf w.cg cursor ≠ c2) ∧
        V.generateDependencies (w2.setCursor c2) = some (dd, wS)))
    (hret : MemToMemMacroOp.generate MAXDISP V w dstReg srcReg tmpReg offset cursor dstMR
      srcMR = Outcome.returned r wf cs) :
    (¬ (c2 ≠ none ∧ cursorBeforeOf w.cg cursor ≠ c2) →
      cs = [Step.generateLoop, Step.generateRemainder] ∧
      wf.cg.instructions = w2.cg.instructions) ∧
    (dd = none → wf.cg.instructions = wS.cg.instructions) ∧
    (∀ d, dd = some d →
      (c2 ≠ none ∧ cursorBeforeOf w.cg cursor ≠ c2) ∧
      ∃ A c B, wS.cg.instructions = A ++ c :: B ∧ r = some c.addr ∧
        (∀ y ∈ A, y.addr ≠ c.addr) ∧
        (withConditions c d).conditions = some d ∧
        ((wf.cg.labelCount = wS.cg.labelCount ∧
            wf.cg.instructions = A ++ withConditions c d :: B ∧
            wf.cg.instructions.countP (fun i => decide (i.conditions = some d)) =
              (A ++ B).countP (fun i => decide (i.conditions = some d)) + 1) ∨
          (wf.cg.labelCount = wS.cg.labelCount + 2 ∧
            wf.cg.instructions.Perm
              (regionStartInstruction wS d :: regionEndInstruction wS ::
                (A ++ withConditions c d :: B)) ∧
            (A ++ withConditions c d :: B).Sublist wf.cg.instructions ∧
            (regionStartInstruction wS d).conditions = some d ∧
            (regionEndInstruction wS).conditions = none ∧
            wf.cg.instructions.countP (fun i => decide (i.conditions = some d)) =
              (A ++ B).countP (fun i => decide (i.conditions = some d)) + 2))) := by
  have hnot : ¬ (c2 ≠ none ∧ cursorBeforeOf w.cg cursor ≠ c2) →
      cs = [Step.generateLoop, Step.generateRemainder] ∧
      wf.cg.instructions = w2.cg.instructions := by
    intro hna
    rw [generate_not_advanced MAXDISP V w dstReg srcReg tmpReg offset cursor dstMR
      srcMR c1 c2 w1 w2 hoff hL hR hna] at hret
    simp only [Outcome.returned.injEq] at hret
    refine ⟨hret.2.2.symm, ?_⟩
    rw [← hret.2.1, (releaseTemps_frame _).2.1]
    rfl
  refine ⟨hnot, ?_, ?_⟩
  · intro hdd
    rcases hS with ⟨hna, -, hw⟩ | ⟨hadv, hD⟩
    · rw [(hnot hna).2, hw]
      rfl
    · subst hdd
      rw [generate_advanced MAXDISP V w dstReg srcReg tmpReg offset cursor dstMR srcMR
        c1 c2 w1 w2 none wS hoff hL hR hadv hD] at hret
      have hA : attachDependencies wS (cursorBeforeOf w.cg cursor) none = some wS := rfl
      rw [hA] at hret
      simp only [Outcome.returned.injEq] at hret
      rw [← hret.2.1, (releaseTemps_frame _).2.1]
  · intro d hdd
    rcases hS with ⟨-, hn, -⟩ | ⟨hadv, hD⟩
    · rw [hn] at hdd
      cases hdd
    · subst hdd
      refine ⟨hadv, ?_⟩
      rw [generate_advanced MAXDISP V w dstReg srcReg tmpReg offset cursor dstMR srcMR
        c1 c2 w1 w2 (some d) wS hoff hL hR hadv hD] at hret
      cases hA : attachDependencies wS (cursorBeforeOf w.cg cursor) (some d) with
      | none =>
        rw [hA] at hret
        cases hret
      | some w4 =>
        rw [hA] at hret
        simp only [Outcome.returned.injEq] at hret
        obtain ⟨er, ew, -⟩ := hret
        obtain ⟨-, f1, -, f3, -, -⟩ := releaseTemps_frame w4
        have hcur := (attachDependencies_frame wS w4 _ _ hA).1
        obtain ⟨A, c, B, e1, e2, e3, e4⟩ := attachDependencies_stream wS w4 _ d hA
        refine ⟨A, c, B, e1, by rw [← er, hcur, e2], e3, rfl, ?_⟩
        rw [← ew, f1, f3]
        rcases e4 with ⟨g1, g2⟩ | ⟨g1, g2, g3⟩
        · refine Or.inl ⟨g1, g2, ?_⟩
          rw [g2]
          simp [List.countP_append, List.countP_cons, withConditions]
          omega
        · refine Or.inr ⟨g1, g2, g3, rfl, rfl, ?_⟩
          rw [g2.countP_eq]
          simp [List.countP_append, List.countP_cons, withConditions, regionStartInstruction,
            regionEndInstruction]
          omega

/-- Witness of `dependencies_attached`: the demo run, whose span is the three instructions
at the addresses 1, 2 and 3 emitted after the instruction at address 0; the descriptor 9
is attached to the instruction at address 3, and the region-start label instruction at
address 4 carries it too. -/
theorem dependencies_attached_witness :
    ∃ wf : World Unit,
      demoRun = Outcome.returned (some 3) wf
        [Step.generateLoop, Step.generateRemainder, Step.generateDependencies] ∧
      wf.cg.instructions.map (fun i => (i.addr, i.opcode, i.conditions)) =
        [(0, Mnemonic.other 0, none), (4, Mnemonic.LABEL, some 9), (1, Mnemonic.MVC, none),
         (2, Mnemonic.other 1, none), (5, Mnemonic.LABEL, none), (3, Mnemonic.MVC, some 9)] ∧
      ∃ A c B,
        [plainInstruction 0 (Mnemonic.other 0), plainInstruction 1 Mnemonic.MVC,
          plainInstruction 2 (Mnemonic.other 1), plainInstruction 3 Mnemonic.MVC] =
          A ++ c :: B ∧
        some 3 = some c.addr ∧
        wf.cg.instructions.countP (fun i => decide (i.conditions = some 9)) =
          (A ++ B).countP (fun i => decide (i.conditions = some 9)) + 2 := by
  obtain ⟨-, A, c, B, h1, h2, -, -, h5⟩ := (dependencies_attached 4096 demoStrategy demoWorld
    (some 10) (some 11) none 0 none none none _ _ _ _ _ (some 9) _ _ _ (by decide) rfl rfl
    (Or.inr ⟨by decide, rfl⟩) rfl).2.2 9 rfl
  refine ⟨_, rfl, rfl, A, c, B, h1, h2, ?_⟩
  rcases h5 with ⟨g1, -⟩ | ⟨-, -, -, -, -, g6⟩
  · exact absurd g1 (by decide)
  · exact g6

/-! ## Where a label instruction lands on any stream -/

/-- The predecessor `getPrev` finds: the instruction is the first one with the address `q`,
and the predecessor is the instruction right before it (`prev` when there is none). -/
theorem getPrevFrom_split (prev : Option InstrPtr) (s : List Instruction) (q : InstrPtr)
    (pp : Option InstrPtr) (h : getPrevFrom prev s q = some pp) :
    ∃ A x B, s = A ++ x :: B ∧ x.addr = q ∧ (∀ y ∈ A, y.addr ≠ q) ∧
      ((A = [] ∧ pp = prev) ∨ (∃ A0 a, A = A0 ++ [a] ∧ pp = some a.addr)) := by
  induction s generalizing prev with
  | nil => simp [getPrevFrom] at h
  | cons y rest ih =>
    simp only [getPrevFrom] at h
    split at h
    · rename_i hy
      simp only [Option.some.injEq] at h
      exact ⟨[], y, rest, rfl, hy, by simp, Or.inl ⟨rfl, h.symm⟩⟩
    · rename_i hy
      obtain ⟨A, x, B, e1, e2, e3, e4⟩ := ih _ h
      refine ⟨y :: A, x, B, by rw [e1]; rfl, e2, ?_, Or.inr ?_⟩
      · intro z hz
        simp only [List.mem_cons] at hz
        rcases hz with hz | hz
        · rw [hz]; exact hy
        · exact e3 z hz
      · rcases e4 with ⟨hA, hp⟩ | ⟨A0, a, hA, hp⟩
        · exact ⟨[], y, by rw [hA]; rfl, hp⟩
        · exact ⟨y :: A0, a, by rw [hA]; rfl, hp⟩

theorem getPrev_split (s : List Instruction) (q : InstrPtr) (pp : Option InstrPtr)
    (h : getPrev s q = some pp) :
    ∃ A x B, s = A ++ x :: B ∧ x.addr = q ∧ (∀ y ∈ A, y.addr ≠ q) ∧
      ((A = [] ∧ pp = none) ∨ (∃ A0 a, A = A0 ++ [a] ∧ pp = some a.addr)) :=
  getPrevFrom_split none s q pp h

/-- A new label instruction keeps the addresses of the stream distinct and below the
number of instruction objects. -/
theorem generateS390LabelInstruction_wellformed (cg cg1 : CodeGenerator) (op : Mnemonic)
    (node : Option Node) (l : LabelSymbol) (cond : Option DependencyConditions)
    (preced : Option InstrPtr) (a : InstrPtr)
    (hnd : (cg.instructions.map (fun i => i.addr)).Nodup)
    (hfresh : ∀ i ∈ cg.instructions, i.addr < cg.instrCount)
    (h : generateS390LabelInstruction cg op node l cond preced = some (a, cg1)) :
    (cg1.instructions.map (fun i => i.addr)).Nodup ∧
    (∀ i ∈ cg1.instructions, i.addr < cg1.instrCount) := by
  obtain ⟨e1, -⟩ := generateS390LabelInstruction_effect _ _ _ _ _ _ _ _ h
  obtain ⟨p1, -⟩ := generateS390LabelInstruction_perm _ _ _ _ _ _ _ _ h
  constructor
  · rw [(p1.map _).nodup_iff, List.map_cons, List.nodup_cons]
    refine ⟨?_, hnd⟩
    intro hmem
    obtain ⟨y, hy, hya⟩ := List.mem_map.1 hmem
    have hlt := hfresh y hy
    have hya2 : y.addr = cg.instrCount := hya
    rw [hya2] at hlt
    exact lt_irrefl _ hlt
  · intro i hi
    rw [e1]
    rcases List.mem_cons.1 (p1.mem_iff.1 hi) with hi | hi
    · rw [hi]
      exact Nat.lt_succ_self _
    · exact Nat.lt_succ_of_lt (hfresh i hi)

/-- A label instruction linked after the predecessor of the instruction with the address
`q` lands right before that instruction, or at the end of the stream when that instruction
has no predecessor. -/
theorem labelInstruction_placed (cg cg1 : CodeGenerator) (op : Mnemonic)
    (node : Option Node) (l : LabelSymbol) (cond : Option DependencyConditions)
    (q : InstrPtr) (pp : Option InstrPtr) (a : InstrPtr)
    (hnd : (cg.instructions.map (fun i => i.addr)).Nodup)
    (hp : getPrev cg.instructions q = some pp)
    (h : generateS390LabelInstruction cg op node l cond pp = some (a, cg1)) :
    ∃ A x B, cg.instructions = A ++ x :: B ∧ x.addr = q ∧
      cg1.instructions =
        (if A = [] then A ++ x :: B ++ [Instruction.mk cg.instrCount op node (some l) cond]
         else A ++ Instruction.mk cg.instrCount op node (some l) cond :: x :: B) := by
  obtain ⟨A, x, B, e1, e2, -, e4⟩ := getPrev_split _ _ _ hp
  refine ⟨A, x, B, e1, e2, ?_⟩
  unfold generateS390LabelInstruction at h
  rcases e4 with ⟨hA, hpp⟩ | ⟨A0, a0, hA, hpp⟩
  · subst hpp
    simp only [Option.some.injEq, Prod.mk.injEq] at h
    rw [← h.2, if_pos hA, e1]
  · subst hpp
    subst hA
    have hne : A0 ++ [a0] ≠ [] := by simp
    rw [if_neg hne]
    have e1b : cg.instructions = A0 ++ a0 :: (x :: B) := by rw [e1]; simp
    have hA0 : ∀ y ∈ A0, y.addr ≠ a0.addr := by
      rw [e1b] at hnd
      exact addr_ne_of_nodup _ _ _ hnd
    simp only [e1b, insertAfter_append A0 a0 (x :: B) _ hA0, Option.map_some',
      Option.some.injEq, Prod.mk.injEq] at h
    rw [← h.2]
    simp

/-- Lines 93-100 on any stream of distinct instructions: the region-start label
instruction lands right before the region start `st` (at the end of the stream when `st`
has no predecessor), and then the region-end label instruction lands right before the
cursor `cu` (at the end of the stream when `cu` has no predecessor). -/
theorem insertRegionMarkers_placed {σ : Type} (w w1 : World σ) (d : DependencyConditions)
    (hnd : (w.cg.instructions.map (fun i => i.addr)).Nodup)
    (hfresh : ∀ i ∈ w.cg.instructions, i.addr < w.cg.instrCount)
    (h : insertRegionMarkers w d = some w1) :
    ∃ A st B A2 cu B2, w.op._startControlFlow = some st.addr ∧
      w.op._cursor = some cu.addr ∧
      w.cg.instructions = A ++ st :: B ∧
      (if A = [] then A ++ st :: B ++ [regionStartInstruction w d]
        else A ++ regionStartInstruction w d :: st :: B) = A2 ++ cu :: B2 ∧
      ((A2 ++ cu :: B2).map (fun i => i.addr)).Nodup ∧
      w1.cg.instructions =
        (if A2 = [] then A2 ++ cu :: B2 ++ [regionEndInstruction w]
         else A2 ++ regionEndInstruction w :: cu :: B2) := by
  unfold insertRegionMarkers at h
  simp only [Option.bind_eq_bind, Option.bind_eq_some, generateLabelSymbol] at h
  obtain ⟨start, hst, startPrev, hsp, ⟨a3, cg3⟩, h3, cursor, hcu, cursorPrev, hcp,
    ⟨a5, cg5⟩, h5, h⟩ := h
  simp only [Option.pure_def, Option.some.injEq] at h
  subst h
  obtain ⟨e1, -⟩ := generateS390LabelInstruction_effect _ _ _ _ _ _ _ _ h3
  have wf3 := fun hh1 hh2 =>
    generateS390LabelInstruction_wellformed _ _ _ _ _ _ _ _ hh1 hh2 h3
  obtain ⟨nd3, -⟩ := wf3 hnd hfresh
  have pl3 := fun hh1 hh2 => labelInstruction_placed _ _ _ _ _ _ start _ _ hh1 hh2 h3
  obtain ⟨A, st, B, k1, k2, k3⟩ := pl3 hnd hsp
  have pl5 := fun hh1 hh2 => labelInstruction_placed _ _ _ _ _ _ cursor _ _ hh1 hh2 h5
  obtain ⟨A2, cu, B2, m1, m2, m3⟩ := pl5 nd3 hcp
  simp only [setStartInternalControlFlow] at m1 m3
  simp only at e1 k1 k3
  rw [e1] at m3
  refine ⟨A, st, B, A2, cu, B2, by rw [hst, k2], by rw [hcu, m2], k1, ?_, ?_, ?_⟩
  · rw [← m1, k3]
    rfl
  · rw [← m1]
    exact nd3
  · simp only [setEndInternalControlFlow]
    rw [m3]
    rfl

/-- Two ways to split a stream of distinct instructions at the same address agree. -/
theorem append_cons_unique (A : List Instruction) (x : Instruction)
    (B A2 : List Instruction) (x2 : Instruction) (B2 : List Instruction)
    (h : A ++ x :: B = A2 ++ x2 :: B2) (hx : x.addr = x2.addr)
    (hnd : ((A ++ x :: B).map (fun i => i.addr)).Nodup) : A = A2 ∧ x = x2 ∧ B = B2 := by
  induction A generalizing A2 with
  | nil =>
    cases A2 with
    | nil =>
      simp only [List.nil_append, List.cons.injEq] at h
      exact ⟨rfl, h.1, h.2⟩
    | cons a A3 =>
      simp only [List.nil_append, List.cons_append, List.cons.injEq] at h
      exfalso
      simp only [List.nil_append, List.map_cons, List.nodup_cons] at hnd
      apply hnd.1
      rw [h.2, hx]
      simp
  | cons a A ih =>
    cases A2 with
    | nil =>
      simp only [List.nil_append, List.cons_append, List.cons.injEq] at h
      exfalso
      simp only [List.cons_append, List.map_cons, List.nodup_cons] at hnd
      apply hnd.1
      rw [h.1, ← hx]
      simp
    | cons a2 A3 =>
      simp only [List.cons_append, List.cons.injEq] at h
      simp only [List.cons_append, List.map_cons, List.nodup_cons] at hnd
      obtain ⟨i1, i2, i3⟩ := ih A3 h.2 hnd.2
      exact ⟨by rw [h.1, i1], i2, i3⟩

/-- Lines 86-90 on any stream: a `_startControlFlow` that is set is kept; a `NULL` one
becomes the instruction after `cursorBefore`, or the one after that when the former is an
`ASSOCREGS`. -/
theorem resolveStartControlFlow_cases {σ : Type} (w w1 : World σ) (cb : Option InstrPtr)
    (h : resolveStartControlFlow w cb = some w1) :
    (w.op._startControlFlow ≠ none ∧ w1.op._startControlFlow = w.op._startControlFlow) ∨
    (w.op._startControlFlow = none ∧ ∃ b nxt, cb = some b ∧
      getNext w.cg.instructions b = some (some nxt) ∧
      ((getOpCodeValue w.cg.instructions nxt ≠ some Mnemonic.ASSOCREGS ∧
          w1.op._startControlFlow = some nxt) ∨
        (getOpCodeValue w.cg.instructions nxt = some Mnemonic.ASSOCREGS ∧
          getNext w.cg.instructions nxt = some w1.op._startControlFlow))) := by
  unfold resolveStartControlFlow at h
  split at h
  · rename_i h0
    right
    simp only [Option.bind_eq_bind, Option.bind_eq_some] at h
    obtain ⟨cb0, hcb, start, hn, s0, hs0, op, hop, h⟩ := h
    refine ⟨h0, cb0, s0, hcb, by rw [hn, hs0], ?_⟩
    split at h
    · rename_i hop2
      simp only [Option.bind_eq_some] at h
      obtain ⟨next, hnx, h⟩ := h
      simp only [Option.pure_def, Option.some.injEq] at h
      subst h
      right
      exact ⟨by rw [hop, hop2], by rw [hnx]; rfl⟩
    · rename_i hop2
      simp only [Option.pure_def, Option.some.injEq] at h
      subst h
      left
      refine ⟨?_, hs0⟩
      rw [hop]
      intro hc
      exact hop2 (Option.some.inj hc)
  · rename_i h0
    simp only [Option.pure_def, Option.some.injEq] at h
    subst h
    exact Or.inl ⟨h0, rfl⟩

/-- Lines 82-102 with a descriptor `d`, when the two labels are created, on any stream of
distinct instructions: `d` is attached to the cursor `cu`, the region start `st` is not
`cu`, and the label instructions land as `insertRegionMarkers_placed` says. -/
theorem attachDependencies_placed {σ : Type} (w w4 : World σ) (cb : Option InstrPtr)
    (d : DependencyConditions)
    (hnd : (w.cg.instructions.map (fun i => i.addr)).Nodup)
    (hfresh : ∀ i ∈ w.cg.instructions, i.addr < w.cg.instrCount)
    (h : attachDependencies w cb (some d) = some w4)
    (hmark : w4.cg.labelCount ≠ w.cg.labelCount) :
    ∃ s A st B A2 cu B2,
      w.op._cursor = some cu.addr ∧ cu.conditions = some d ∧
      setDependencyConditions w.cg.instructions cu.addr d = some s ∧
      (s.map (fun i => i.addr)).Nodup ∧
      resolveStartControlFlow (w.setInstructions s) cb =
        some ((w.setInstructions s).setStartControlFlow (some st.addr)) ∧
      w4.op._startControlFlow = some st.addr ∧ st.addr ≠ cu.addr ∧
      s = A ++ st :: B ∧
      (if A = [] then A ++ st :: B ++ [regionStartInstruction w d]
        else A ++ regionStartInstruction w d :: st :: B) = A2 ++ cu :: B2 ∧
      ((A2 ++ cu :: B2).map (fun i => i.addr)).Nodup ∧
      w4.cg.instructions =
        (if A2 = [] then A2 ++ cu :: B2 ++ [regionEndInstruction w]
         else A2 ++ regionEndInstruction w :: cu :: B2) ∧
      w4.cg.startInternalControlFlow = w.cg.startInternalControlFlow ++ [w.cg.labelCount] ∧
      w4.cg.endInternalControlFlow =
        w.cg.endInternalControlFlow ++ [w.cg.labelCount + 1] := by
  have heff := attachDependencies_effect w w4 cb (some d) h
  unfold attachDependencies at h
  simp only [Option.bind_eq_bind, Option.bind_eq_some] at h
  obtain ⟨cursor, hcur, s, hset, w1, hres, h⟩ := h
  obtain ⟨A0, c, B0, e1, e2, e3, e4⟩ := setDependencyConditions_split _ _ _ _ hset
  have hw1 := resolveStartControlFlow_eq _ _ _ hres
  have nds : (s.map (fun i => i.addr)).Nodup := by
    rw [e4, map_addr_withConditions, ← e1]; exact hnd
  have frs : ∀ i ∈ s, i.addr < w.cg.instrCount := by
    intro i hi
    rw [e4] at hi
    simp only [List.mem_append, List.mem_cons] at hi
    rcases hi with hi | hi | hi
    · exact hfresh i (by rw [e1]; simp [hi])
    · rw [hi]
      exact hfresh c (by rw [e1]; simp)
    · exact hfresh i (by rw [e1]; simp [hi])
  split at h
  · rename_i hne
    have hs1 : w1.cg.instructions = s := by rw [hw1]; rfl
    have hc1 : w1.cg.instrCount = w.cg.instrCount := by rw [hw1]; rfl
    have hcu1 : w1.op._cursor = some cursor := by rw [hw1]; exact hcur
    have r1 : regionStartInstruction w1 d = regionStartInstruction w d := by
      rw [hw1]; rfl
    have r2 : regionEndInstruction w1 = regionEndInstruction w := by
      rw [hw1]; rfl
    obtain ⟨A, st, B, A2, cu, B2, p1, p2, p3, p4, p5, p6⟩ :=
      insertRegionMarkers_placed w1 w4 d (by rw [hs1]; exact nds)
        (by rw [hs1, hc1]; exact frs) h
    obtain ⟨g1, -⟩ := insertRegionMarkers_effect _ _ _ h
    rw [r1] at p4
    rw [r2] at p6
    rw [hs1] at p3
    have hcua : cu.addr = cursor := by
      rw [hcu1] at p2
      exact (Option.some.inj p2).symm
    have hmem : withConditions c d ∈ A2 ++ cu :: B2 := by
      have h0 : withConditions c d ∈ A ++ st :: B := by
        rw [← p3, e4]; simp
      rw [← p4]
      split
      · exact List.mem_append_left _ h0
      · simp only [List.mem_append, List.mem_cons] at h0 ⊢
        tauto
    have hcueq : withConditions c d = cu :=
      List.inj_on_of_nodup_map p5 hmem (by simp) (by rw [hcua]; exact e2)
    rcases heff with hl | ⟨-, -, -, -, -, g6, g7, -⟩
    · exact absurd hl.1 hmark
    · refine ⟨s, A, st, B, A2, cu, B2, by rw [hcur, hcua], by rw [← hcueq]; rfl,
        by rw [hcua]; exact hset, nds, ?_, by rw [g1]; exact p1, ?_, p3, p4, p5, p6, g6, g7⟩
      · rw [hres, ← p1]
        exact congrArg some hw1
      · intro heq
        apply hne
        rw [p1, p2, heq]
  · simp only [Option.pure_def, Option.some.injEq] at h
    subst h
    exfalso
    apply hmark
    rw [hw1]
    rfl

/-! ## Claim C3 -/

/-- C3, as stated, fails. In the demo run the final cursor is the instruction at address 3
and the region-end label (label 1, flagged as end of internal control flow) is the `LABEL`
instruction at address 5; that instruction is not the successor of the final cursor, which
has no successor, but its predecessor. In the run of `assocStrategy` the first instruction
emitted after the cursor-before 0 is the `ASSOCREGS` at address 1, and the region-start
label (label 0, the `LABEL` instruction at address 4) is placed after it, not before it. -/
theorem region_end_not_after_cursor :
    (demoRun.instructions.map (fun i => (i.addr, i.label)) =
      [(0, none), (4, some 0), (1, none), (2, none), (5, some 1), (3, none)] ∧
    getNext demoRun.instructions 3 = some none ∧
    ¬ (getNext demoRun.instructions 3 = some (some 5)) ∧
    getNext demoRun.instructions 5 = some (some 3)) ∧
    (assocRun.instructions.map (fun i => (i.addr, i.label)) =
      [(0, none), (1, none), (4, some 0), (2, none), (5, some 1), (3, none)] ∧
    getNext assocRun.instructions 0 = some (some 1) ∧
    ¬ (getNext assocRun.instructions 4 = some (some 1)) ∧
    getPrev assocRun.instructions 4 = some (some 1)) := by
  decide

/-- C3 (amended): whenever a call of `generate` that returns has inserted the region
markers (it created a label), on a stream of distinct instructions, with `wS` the state the
last invoked strategy step left: the cursor advanced, the dependencies are a descriptor `d`
that the final cursor `cu` carries, and the region start `st`, which is not `cu`, is the
value of `_startControlFlow` if it was set, else the instruction after `cursorBefore`, or
the one after that when the former is an `ASSOCREGS`. In the stream `s = A ++ st :: B` that
`setDependencyConditions` left, the region-start label instruction is placed immediately
before `st`, or at the end of the stream when `st` has no predecessor; in the resulting
stream `A2 ++ cu :: B2` the region-end label instruction is placed immediately before the
final cursor `cu`, not after it, or at the end of the stream when `cu` has no predecessor.
So, when the region start follows an instruction `p` and precedes the final cursor, the
two labels bracket the instructions from the region start up to, but not including, the
final cursor. -/
theorem region_markers_placement {σ : Type} (MAXDISP : Int) (V : Strategy σ) (w : World σ)
    (dstReg srcReg tmpReg : Option Register) (offset : Int) (cursor : Option InstrPtr)
    (dstMR srcMR : Option MemRefPtr) (c1 c2 : Option InstrPtr) (w1 w2 wS : World σ)
    (dd : Option DependencyConditions) (r : Option InstrPtr) (wf : World σ) (cs : List Step)
    (hoff : offset ≤ MAXDISP)
    (hL : V.generateLoop (initMembers w dstReg srcReg tmpReg offset cursor dstMR srcMR) =
      some (c1, w1))
    (hR : V.generateRemainder (w1.setCursor c1) = some (c2, w2))
    (hS : (¬ (c2 ≠ none ∧ cursorBeforeOf w.cg cursor ≠ c2) ∧ wS = w2.setCursor c2) ∨
      ((c2 ≠ none ∧ cursorBeforeOf w.cg cursor ≠ c2) ∧
        V.generateDependencies (w2.setCursor c2) = some (dd, wS)))
    (hnd : (wS.cg.instructions.map (fun i => i.addr)).Nodup)
    (hfresh : ∀ i ∈ wS.cg.instructions, i.addr < wS.cg.instrCount)
    (hret : MemToMemMacroOp.generate MAXDISP V w dstReg srcReg tmpReg offset cursor dstMR
      srcMR = Outcome.returned r wf cs)
    (hmark : wf.cg.labelCount ≠ wS.cg.labelCount) :
    ∃ d s A st B A2 cu B2,
      dd = some d ∧ (c2 ≠ none ∧ cursorBeforeOf w.cg cursor ≠ c2) ∧
      r = some cu.addr ∧ cu.conditions = some d ∧
      setDependencyConditions wS.cg.instructions cu.addr d = some s ∧
      wf.op._startControlFlow = some st.addr ∧ st.addr ≠ cu.addr ∧
      (wS.op._startControlFlow = some st.addr ∨
        (wS.op._startControlFlow = none ∧ ∃ b nxt, cursorBeforeOf w.cg cursor = some b ∧
          getNext s b = some (some nxt) ∧
          ((getOpCodeValue s nxt ≠ some Mnemonic.ASSOCREGS ∧ st.addr = nxt) ∨
            (getOpCodeValue s nxt = some Mnemonic.ASSOCREGS ∧
              getNext s nxt = some (some st.addr))))) ∧
      s = A ++ st :: B ∧
      (if A = [] then A ++ st :: B ++ [regionStartInstruction wS d]
        else A ++ regionStartInstruction wS d :: st :: B) = A2 ++ cu :: B2 ∧
      wf.cg.instructions =
        (if A2 = [] then A2 ++ cu :: B2 ++ [regionEndInstruction wS]
         else A2 ++ regionEndInstruction wS :: cu :: B2) ∧
      wf.cg.startInternalControlFlow =
        wS.cg.startInternalControlFlow ++ [wS.cg.labelCount] ∧
      wf.cg.endInternalControlFlow =
        wS.cg.endInternalControlFlow ++ [wS.cg.labelCount + 1] ∧
      (∀ P p M Q, s = P ++ p :: st :: M ++ cu :: Q →
        wf.cg.instructions =
          P ++ p :: regionStartInstruction wS d :: st :: M ++
            regionEndInstruction wS :: cu :: Q) := by
  rcases hS with ⟨hna, hw⟩ | ⟨hadv, hD⟩
  · exfalso
    rw [generate_not_advanced MAXDISP V w dstReg srcReg tmpReg offset cursor dstMR
      srcMR c1 c2 w1 w2 hoff hL hR hna] at hret
    simp only [Outcome.returned.injEq] at hret
    apply hmark
    rw [← hret.2.1, (releaseTemps_frame _).2.2.2.1, hw]
  · rw [generate_advanced MAXDISP V w dstReg srcReg tmpReg offset cursor dstMR srcMR
      c1 c2 w1 w2 dd wS hoff hL hR hadv hD] at hret
    cases hA : attachDependencies wS (cursorBeforeOf w.cg cursor) dd with
    | none =>
      rw [hA] at hret
      cases hret
    | some w4 =>
      rw [hA] at hret
      simp only [Outcome.returned.injEq] at hret
      obtain ⟨er, ew, -⟩ := hret
      obtain ⟨f0, f1, -, f3, f4, f5⟩ := releaseTemps_frame w4
      have hmark4 : w4.cg.labelCount ≠ wS.cg.labelCount := by
        rw [← f3, ew]; exact hmark
      cases dd with
      | none =>
        exfalso
        apply hmark4
        have h0 : attachDependencies wS (cursorBeforeOf w.cg cursor) none = some wS := rfl
        rw [h0] at hA
        rw [← Option.some.inj hA]
      | some d =>
        obtain ⟨s, A, st, B, A2, cu, B2, q1, q2, q3, qn, q4, q5, q6, q7, q8, q9, q10, q11,
          q12⟩ := attachDependencies_placed wS w4 _ d hnd hfresh hA hmark4
        have hcur := (attachDependencies_frame wS w4 _ _ hA).1
        refine ⟨d, s, A, st, B, A2, cu, B2, rfl, hadv, by rw [← er, hcur, q1], q2, q3,
          by rw [← ew, f0]; exact q5, q6, ?_, q7, q8, by rw [← ew, f1]; exact q10,
          by rw [← ew, f4]; exact q11, by rw [← ew, f5]; exact q12, ?_⟩
        · rcases resolveStartControlFlow_cases _ _ _ q4 with ⟨-, k⟩ | ⟨k0, b, nxt, k1, k2, k3⟩
          · exact Or.inl k.symm
          · refine Or.inr ⟨k0, b, nxt, k1, k2, ?_⟩
            rcases k3 with ⟨k4, k5⟩ | ⟨k4, k5⟩
            · exact Or.inl ⟨k4, Option.some.inj k5⟩
            · exact Or.inr ⟨k4, k5⟩
        · intro P p M Q hsP
          have hnd2 : ((A ++ st :: B).map (fun i => i.addr)).Nodup := by
            rw [← q7]; exact qn
          obtain ⟨hA1, -, hB1⟩ := append_cons_unique A st B (P ++ [p]) st (M ++ cu :: Q)
            (by rw [← q7, hsP]; simp) rfl hnd2
          subst hA1
          subst hB1
          rw [if_neg (by simp)] at q8
          obtain ⟨hA2, -, hB2⟩ := append_cons_unique A2 cu B2
            (P ++ p :: regionStartInstruction wS d :: st :: M) cu Q
            (by rw [← q8]; simp) rfl q9
          subst hA2
          subst hB2
          rw [← ew, f1, q10, if_neg (by simp)]

/-- Witness of `region_markers_placement`: a run whose span begins with an `ASSOCREGS`;
the region-start label lands after the `ASSOCREGS`, right before the region start at
address 2, and the region-end label right before the final cursor at address 3. -/
theorem region_markers_placement_witness :
    ∃ wf : World Unit,
      assocRun = Outcome.returned (some 3) wf
        [Step.generateLoop, Step.generateRemainder, Step.generateDependencies] ∧
      wf.cg.instructions.map (fun i => (i.addr, i.opcode, i.label)) =
        [(0, Mnemonic.other 0, none), (1, Mnemonic.ASSOCREGS, none),
         (4, Mnemonic.LABEL, some 0), (2, Mnemonic.MVC, none), (5, Mnemonic.LABEL, some 1),
         (3, Mnemonic.other 1, none)] ∧
      ∃ st cu : Instruction, wf.op._startControlFlow = some st.addr ∧
        some 3 = some cu.addr ∧ st.addr ≠ cu.addr ∧
        wf.cg.startInternalControlFlow = [0] ∧ wf.cg.endInternalControlFlow = [1] := by
  obtain ⟨d, s, A, st, B, A2, cu, B2, -, -, h3, -, -, h6, h7, -, -, -, -, h12, h13, -⟩ :=
    region_markers_placement 4096 assocStrategy demoWorld (some 10) (some 11) none 0 (some 0)
      none none _ _ _ _ _ (some 7) _ _ _ (by decide) rfl rfl (Or.inr ⟨by decide, rfl⟩)
      (by decide) (by decide) rfl (by decide)
  exact ⟨_, rfl, rfl, st, cu, h6, h3, h7, h12, h13⟩

/-! ## Claim C4 -/

theorem cursorBeforeOf_not_advanced (cg : CodeGenerator) (cursor : Option InstrPtr) :
    ¬ (cursor ≠ none ∧ cursorBeforeOf cg cursor ≠ cursor) := by
  cases cursor with
  | none => simp
  | some x => simp [cursorBeforeOf]

/-- C4: when `generateLoop()` and `generateRemainder()` each return the cursor unchanged
and emit no instruction, `generate` returns the input cursor, does not invoke
`generateDependencies()` (its outcome is the same with any other `generateDependencies`),
and leaves the instruction stream, with the dependencies its instructions carry, and the
labels as they were. -/
theorem generate_nothing_emitted {σ : Type} (MAXDISP : Int) (V : Strategy σ) (w : World σ)
    (dstReg srcReg tmpReg : Option Register) (offset : Int) (cursor : Option InstrPtr)
    (dstMR srcMR : Option MemRefPtr) (w1 w2 : World σ)
    (gd0 : World σ → Option (Option DependencyConditions × World σ))
    (hoff : offset ≤ MAXDISP)
    (hL : V.generateLoop (initMembers w dstReg srcReg tmpReg offset cursor dstMR srcMR) =
      some (cursor, w1))
    (hR : V.generateRemainder (w1.setCursor cursor) = some (cursor, w2))
    (hstream : w2.cg.instructions = w.cg.instructions) :
    ∃ wf : World σ,
      MemToMemMacroOp.generate MAXDISP V w dstReg srcReg tmpReg offset cursor dstMR srcMR =
        Outcome.returned cursor wf [Step.generateLoop, Step.generateRemainder] ∧
      MemToMemMacroOp.generate MAXDISP { V with generateDependencies := gd0 } w dstReg srcReg
          tmpReg offset cursor dstMR srcMR =
        Outcome.returned cursor wf [Step.generateLoop, Step.generateRemainder] ∧
      wf.cg.instructions = w.cg.instructions ∧
      wf.cg.instrCount = w2.cg.instrCount ∧
      wf.cg.labelCount = w2.cg.labelCount ∧
      wf.cg.startInternalControlFlow = w2.cg.startInternalControlFlow ∧
      wf.cg.endInternalControlFlow = w2.cg.endInternalControlFlow := by
  have hna := cursorBeforeOf_not_advanced w.cg cursor
  refine ⟨releaseTemps (w2.setCursor cursor),
    generate_not_advanced MAXDISP V w dstReg srcReg tmpReg offset cursor dstMR srcMR cursor
      cursor w1 w2 hoff hL hR hna,
    generate_not_advanced MAXDISP { V with generateDependencies := gd0 } w dstReg srcReg tmpReg
      offset cursor dstMR srcMR cursor cursor w1 w2 hoff hL hR hna, ?_⟩
  obtain ⟨-, f1, f2, f3, f4, f5⟩ := releaseTemps_frame (w2.setCursor cursor)
  rw [f1, f2, f3, f4, f5]
  exact ⟨hstream, rfl, rfl, rfl, rfl⟩

/-- Witness of `generate_nothing_emitted`: a zero-length operation called with the cursor
at the instruction at address 0. -/
theorem generate_nothing_emitted_witness :
    ∃ wf : World Unit,
      MemToMemMacroOp.generate 4096 idleStrategy demoWorld (some 10) (some 11) none 0 (some 0)
          none none =
        Outcome.returned (some 0) wf [Step.generateLoop, Step.generateRemainder] ∧
      wf.cg.instructions = demoCG.instructions ∧ wf.cg.labelCount = 0 := by
  obtain ⟨wf, h1, -, h3, -, h5, -⟩ := generate_nothing_emitted 4096 idleStrategy demoWorld
    (some 10) (some 11) none 0 (some 0) none none _ _ (fun _ => none) (by decide) rfl rfl rfl
  exact ⟨wf, h1, h3, h5⟩

/-! ## Claim C5 -/

/-- The path on which `generateDependencies` is invoked and does not return. -/
theorem generate_dependencies_aborted {σ : Type} (MAXDISP : Int) (V : Strategy σ)
    (w : World σ) (dstReg srcReg tmpReg : Option Register) (offset : Int)
    (cursor : Option InstrPtr) (dstMR srcMR : Option MemRefPtr) (c1 c2 : Option InstrPtr)
    (w1 w2 : World σ)
    (hoff : offset ≤ MAXDISP)
    (hL : V.generateLoop (initMembers w dstReg srcReg tmpReg offset cursor dstMR srcMR) =
      some (c1, w1))
    (hR : V.generateRemainder (w1.setCursor c1) = some (c2, w2))
    (hadv : c2 ≠ none ∧ cursorBeforeOf w.cg cursor ≠ c2)
    (hD : V.generateDependencies (w2.setCursor c2) = none) :
    MemToMemMacroOp.generate MAXDISP V w dstReg srcReg tmpReg offset cursor dstMR srcMR =
      Outcome.stepAborted
        [Step.generateLoop, Step.generateRemainder, Step.generateDependencies] := by
  have hadv2 : (w2.setCursor c2).op._cursor ≠ none ∧
      cursorBeforeOf (initMembers w dstReg srcReg tmpReg offset cursor dstMR srcMR).cg cursor ≠
        (w2.setCursor c2).op._cursor := hadv
  simp only [MemToMemMacroOp.generate, not_not.2 hoff, if_false, hL, hR, if_pos hadv2, hD]

/-- Lines 86-90 do the same with and without a log. -/
theorem resolveStartControlFlow_withLog {σ : Type} (w : World σ) (l : List Step)
    (cb : Option InstrPtr) :
    resolveStartControlFlow (w.withLog l) cb =
      (resolveStartControlFlow w cb).map (fun y => y.withLog l) := by
  unfold resolveStartControlFlow
  have e0 : (w.withLog l).op._startControlFlow = w.op._startControlFlow := rfl
  have e1 : (w.withLog l).cg.instructions = w.cg.instructions := rfl
  rw [e0, e1]
  split
  · cases cb with
    | none => rfl
    | some b =>
      simp only [Option.bind_eq_bind, Option.some_bind]
      cases h1 : getNext w.cg.instructions b with
      | none => rfl
      | some start =>
        cases start with
        | none => rfl
        | some s0 =>
          simp only [Option.some_bind]
          cases h2 : getOpCodeValue w.cg.instructions s0 with
          | none => rfl
          | some op =>
            simp only [Option.some_bind]
            split
            · cases h3 : getNext w.cg.instructions s0 with
              | none => rfl
              | some nx => rfl
            · rfl
  · rfl

/-- Lines 93-100 do the same with and without a log. -/
theorem insertRegionMarkers_withLog {σ : Type} (w : World σ) (l : List Step)
    (d : DependencyConditions) :
    insertRegionMarkers (w.withLog l) d =
      (insertRegionMarkers w d).map (fun y => y.withLog l) := by
  unfold insertRegionMarkers
  have e0 : (w.withLog l).op = w.op := rfl
  have e1 : (w.withLog l).cg = w.cg := rfl
  rw [e0, e1]
  simp only [generateLabelSymbol, Option.bind_eq_bind]
  cases w.op._startControlFlow with
  | none => rfl
  | some start =>
    simp only [Option.some_bind]
    cases getPrev w.cg.instructions start with
    | none => rfl
    | some sp =>
      simp only [Option.some_bind]
      cases generateS390LabelInstruction
        { w.cg with labelCount := w.cg.labelCount + 1 + 1 } Mnemonic.LABEL w.op._rootNode
        w.cg.labelCount (some d) sp with
      | none => rfl
      | some r3 =>
        simp only [Option.some_bind]
        cases w.op._cursor with
        | none => rfl
        | some cu =>
          simp only [Option.some_bind]
          cases getPrev (setStartInternalControlFlow r3.2 w.cg.labelCount).instructions cu with
          | none => rfl
          | some cp =>
            simp only [Option.some_bind]
            cases generateS390LabelInstruction
              (setStartInternalControlFlow r3.2 w.cg.labelCount) Mnemonic.LABEL w.op._rootNode
              (w.cg.labelCount + 1) none cp with
            | none => rfl
            | some r5 => rfl

/-- Lines 82-102 do the same with and without a log. -/
theorem attachDependencies_withLog {σ : Type} (w : World σ) (l : List Step)
    (cb : Option InstrPtr) (dd : Option DependencyConditions) :
    attachDependencies (w.withLog l) cb dd =
      (attachDependencies w cb dd).map (fun y => y.withLog l) := by
  cases dd with
  | none => rfl
  | some d =>
    unfold attachDependencies
    have e0 : (w.withLog l).op._cursor = w.op._cursor := rfl
    have e1 : (w.withLog l).cg.instructions = w.cg.instructions := rfl
    simp only [Option.bind_eq_bind]
    rw [e0, e1]
    cases w.op._cursor with
    | none => rfl
    | some cu =>
      simp only [Option.some_bind]
      cases hset : setDependencyConditions w.cg.instructions cu d with
      | none => rfl
      | some s =>
        simp only [Option.some_bind]
        have e2 : (w.withLog l).setInstructions s = (w.setInstructions s).withLog l := rfl
        rw [e2, resolveStartControlFlow_withLog]
        cases hres : resolveStartControlFlow (w.setInstructions s) cb with
        | none => rfl
        | some w1 =>
          simp only [Option.map_some', Option.some_bind]
          have e3 : (w1.withLog l).op = w1.op := rfl
          rw [e3]
          split
          · exact insertRegionMarkers_withLog w1 l d
          · rfl

/-- The recorder changes nothing but the log: a call of `generate` with the strategy
`V.logged` ends as the call with `V` does, and the log of a call that returns is the log
before the call followed by the steps the call invoked. -/
theorem generate_logged {σ : Type} (MAXDISP : Int) (V : Strategy σ) (w : World σ)
    (l : List Step)
    (dstReg srcReg tmpReg : Option Register) (offset : Int) (cursor : Option InstrPtr)
    (dstMR srcMR : Option MemRefPtr) (r : Option InstrPtr) (wf : World σ) (cs : List Step)
    (hret : MemToMemMacroOp.generate MAXDISP V w dstReg srcReg tmpReg offset cursor dstMR
      srcMR = Outcome.returned r wf cs) :
    MemToMemMacroOp.generate MAXDISP V.logged (w.withLog l) dstReg srcReg tmpReg offset cursor
      dstMR srcMR = Outcome.returned r (wf.withLog (l ++ cs)) cs := by
  by_cases hoff : offset ≤ MAXDISP
  · cases hL : V.generateLoop (initMembers w dstReg srcReg tmpReg offset cursor dstMR srcMR) with
    | none =>
      simp [MemToMemMacroOp.generate, hoff, hL] at hret
    | some r1 =>
      obtain ⟨c1, w1⟩ := r1
      cases hR : V.generateRemainder (w1.setCursor c1) with
      | none =>
        simp [MemToMemMacroOp.generate, hoff, hL, hR] at hret
      | some r2 =>
        obtain ⟨c2, w2⟩ := r2
        have hL2 : V.logged.generateLoop
            (initMembers (w.withLog l) dstReg srcReg tmpReg offset cursor dstMR srcMR) =
            some (c1, w1.withLog (l ++ [Step.generateLoop])) := by
          show (V.generateLoop
            (initMembers w dstReg srcReg tmpReg offset cursor dstMR srcMR)).map _ = _
          rw [hL]
          rfl
        have hR2 : V.logged.generateRemainder
            ((w1.withLog (l ++ [Step.generateLoop])).setCursor c1) =
            some (c2, w2.withLog (l ++ [Step.generateLoop] ++ [Step.generateRemainder])) := by
          show (V.generateRemainder (w1.setCursor c1)).map _ = _
          rw [hR]
          rfl
        have hcb : cursorBeforeOf (w.withLog l).cg cursor = cursorBeforeOf w.cg cursor := rfl
        by_cases hadv : c2 ≠ none ∧ cursorBeforeOf w.cg cursor ≠ c2
        · cases hD : V.generateDependencies (w2.setCursor c2) with
          | none =>
            rw [generate_dependencies_aborted MAXDISP V w dstReg srcReg tmpReg offset cursor
              dstMR srcMR c1 c2 w1 w2 hoff hL hR hadv hD] at hret
            cases hret
          | some r3 =>
            obtain ⟨dd, w3⟩ := r3
            have hD2 : V.logged.generateDependencies
                ((w2.withLog (l ++ [Step.generateLoop] ++ [Step.generateRemainder])).setCursor
                  c2) =
                some (dd, w3.withLog (l ++ [Step.generateLoop] ++ [Step.generateRemainder] ++
                  [Step.generateDependencies])) := by
              show (V.generateDependencies (w2.setCursor c2)).map _ = _
              rw [hD]
              rfl
            rw [generate_advanced MAXDISP V w dstReg srcReg tmpReg offset cursor dstMR srcMR
              c1 c2 w1 w2 dd w3 hoff hL hR hadv hD] at hret
            rw [generate_advanced MAXDISP V.logged (w.withLog l) dstReg srcReg tmpReg offset
              cursor dstMR srcMR c1 c2 _ _ dd _ hoff hL2 hR2 (by rw [hcb]; exact hadv) hD2,
              hcb, attachDependencies_withLog]
            cases hA : attachDependencies w3 (cursorBeforeOf w.cg cursor) dd with
            | none =>
              rw [hA] at hret
              cases hret
            | some w4 =>
              rw [hA] at hret
              simp only [Outcome.returned.injEq] at hret
              obtain ⟨e1, e2, e3⟩ := hret
              subst e1
              subst e2
              subst e3
              simp only [Option.map_some']
              have e : l ++ [Step.generateLoop] ++ [Step.generateRemainder] ++
                  [Step.generateDependencies] =
                  l ++ [Step.generateLoop, Step.generateRemainder,
                    Step.generateDependencies] := by simp
              rw [e]
              rfl
        · rw [generate_not_advanced MAXDISP V w dstReg srcReg tmpReg offset cursor dstMR
            srcMR c1 c2 w1 w2 hoff hL hR hadv] at hret
          rw [generate_not_advanced MAXDISP V.logged (w.withLog l) dstReg srcReg tmpReg offset
            cursor dstMR srcMR c1 c2 _ _ hoff hL2 hR2 (by rw [hcb]; exact hadv)]
          simp only [Outcome.returned.injEq] at hret
          obtain ⟨e1, e2, e3⟩ := hret
          subst e1
          subst e2
          subst e3
          have e : l ++ [Step.generateLoop] ++ [Step.generateRemainder] =
              l ++ [Step.generateLoop, Step.generateRemainder] := by simp
          rw [e]
          rfl
  · simp [MemToMemMacroOp.generate, hoff] at hret

/-- A call of `generate` that returns: the value returned is the member `_cursor`; either
the cursor did not advance, only `generateLoop()` and `generateRemainder()` were invoked
and lines 82-102 were skipped, or it advanced, `generateDependencies()` was invoked after
them and lines 82-102 ran on the state it left. -/
theorem generate_returned {σ : Type} (MAXDISP : Int) (V : Strategy σ) (w : World σ)
    (dstReg srcReg tmpReg : Option Register) (offset : Int) (cursor : Option InstrPtr)
    (dstMR srcMR : Option MemRefPtr) (c1 c2 : Option InstrPtr) (w1 w2 : World σ)
    (r : Option InstrPtr) (wf : World σ) (cs : List Step)
    (hoff : offset ≤ MAXDISP)
    (hL : V.generateLoop (initMembers w dstReg srcReg tmpReg offset cursor dstMR srcMR) =
      some (c1, w1))
    (hR : V.generateRemainder (w1.setCursor c1) = some (c2, w2))
    (hret : MemToMemMacroOp.generate MAXDISP V w dstReg srcReg tmpReg offset cursor dstMR
      srcMR = Outcome.returned r wf cs) :
    r = wf.op._cursor ∧
    ((¬ (c2 ≠ none ∧ cursorBeforeOf w.cg cursor ≠ c2) ∧
        cs = [Step.generateLoop, Step.generateRemainder] ∧ r = c2 ∧
        wf = releaseTemps (w2.setCursor c2)) ∨
      ((c2 ≠ none ∧ cursorBeforeOf w.cg cursor ≠ c2) ∧
        cs = [Step.generateLoop, Step.generateRemainder, Step.generateDependencies] ∧
        ∃ dd w3 w4, V.generateDependencies (w2.setCursor c2) = some (dd, w3) ∧
          attachDependencies w3 (cursorBeforeOf w.cg cursor) dd = some w4 ∧
          r = w3.op._cursor ∧ wf = releaseTemps w4)) := by
  by_cases hadv : c2 ≠ none ∧ cursorBeforeOf w.cg cursor ≠ c2
  · cases hD : V.generateDependencies (w2.setCursor c2) with
    | none =>
      rw [generate_dependencies_aborted MAXDISP V w dstReg srcReg tmpReg offset cursor dstMR
        srcMR c1 c2 w1 w2 hoff hL hR hadv hD] at hret
      cases hret
    | some r3 =>
      obtain ⟨dd, w3⟩ := r3
      rw [generate_advanced MAXDISP V w dstReg srcReg tmpReg offset cursor dstMR srcMR
        c1 c2 w1 w2 dd w3 hoff hL hR hadv hD] at hret
      cases hA : attachDependencies w3 (cursorBeforeOf w.cg cursor) dd with
      | none =>
        rw [hA] at hret
        cases hret
      | some w4 =>
        rw [hA] at hret
        simp only [Outcome.returned.injEq] at hret
        obtain ⟨e1, e2, e3⟩ := hret
        have hcur := (attachDependencies_frame w3 w4 _ dd hA).1
        refine ⟨?_, Or.inr ⟨hadv, e3.symm, dd, w3, w4, rfl, hA, ?_, e2.symm⟩⟩
        · rw [← e1, ← e2, (releaseTemps_frame w4).1]
        · rw [← e1, hcur]
  · rw [generate_not_advanced MAXDISP V w dstReg srcReg tmpReg offset cursor dstMR
      srcMR c1 c2 w1 w2 hoff hL hR hadv] at hret
    simp only [Outcome.returned.injEq] at hret
    obtain ⟨e1, e2, e3⟩ := hret
    refine ⟨?_, Or.inl ⟨hadv, e3.symm, e1.symm, e2.symm⟩⟩
    rw [← e1, ← e2, (releaseTemps_frame _).1]
    rfl

/-- C5, as stated, fails: in the call of `cursorMovingStrategy` the step
`generateRemainder()` returns the cursor 3, and `generate` returns the cursor 1, the value
`generateDependencies()` left in the member `_cursor`. -/
theorem returned_cursor_not_from_generateRemainder :
    (∃ c1 w1 w2,
      cursorMovingStrategy.generateLoop
        (initMembers demoWorld (some 10) (some 11) none 0 none none none) = some (c1, w1) ∧
      cursorMovingStrategy.generateRemainder (w1.setCursor c1) = some (some 3, w2)) ∧
    (∃ wf,
      MemToMemMacroOp.generate 4096 cursorMovingStrategy demoWorld (some 10) (some 11) none 0
          none none none =
        Outcome.returned (some 1) wf
          [Step.generateLoop, Step.generateRemainder, Step.generateDependencies]) :=
  ⟨⟨_, _, _, rfl, rfl⟩, _, rfl⟩

/-- C5 (amended): in a call of `generate` whose `generateLoop()` and `generateRemainder()`
return, the steps invoked are, in this order, `generateLoop()`, `generateRemainder()` and,
exactly when the cursor advanced, `generateDependencies()`; `generateLoop()` and
`generateRemainder()` are invoked exactly once and `generateDependencies()` at most once.
The value returned is the member `_cursor` at the end of the call: the cursor returned by
`generateRemainder()` when the cursor did not advance (the call returns then, and no
label is created), and else the value of `_cursor` that `generateDependencies()` left; the
labels of the markers, if any, are created after the state `generateDependencies()` left.
The order is also the one the steps themselves record: with the recorder `V.logged` a
call that returns does so with the same cursor and the same state, and the log is the log
before the call followed by the names of the invoked steps, in this order. -/
theorem generate_steps_order {σ : Type} (MAXDISP : Int) (V : Strategy σ) (w : World σ)
    (dstReg srcReg tmpReg : Option Register) (offset : Int) (cursor : Option InstrPtr)
    (dstMR srcMR : Option MemRefPtr) (c1 c2 : Option InstrPtr) (w1 w2 : World σ)
    (hoff : offset ≤ MAXDISP)
    (hL : V.generateLoop (initMembers w dstReg srcReg tmpReg offset cursor dstMR srcMR) =
      some (c1, w1))
    (hR : V.generateRemainder (w1.setCursor c1) = some (c2, w2)) :
    (MemToMemMacroOp.generate MAXDISP V w dstReg srcReg tmpReg offset cursor dstMR
        srcMR).calls =
      [Step.generateLoop, Step.generateRemainder] ++
        (if c2 ≠ none ∧ cursorBeforeOf w.cg cursor ≠ c2 then [Step.generateDependencies]
         else []) ∧
    (MemToMemMacroOp.generate MAXDISP V w dstReg srcReg tmpReg offset cursor dstMR
        srcMR).calls.count Step.generateLoop = 1 ∧
    (MemToMemMacroOp.generate MAXDISP V w dstReg srcReg tmpReg offset cursor dstMR
        srcMR).calls.count Step.generateRemainder = 1 ∧
    (MemToMemMacroOp.generate MAXDISP V w dstReg srcReg tmpReg offset cursor dstMR
        srcMR).calls.count Step.generateDependencies ≤ 1 ∧
    (∀ r wf cs,
      MemToMemMacroOp.generate MAXDISP V w dstReg srcReg tmpReg offset cursor dstMR srcMR =
        Outcome.returned r wf cs →
      r = wf.op._cursor ∧
      (¬ (c2 ≠ none ∧ cursorBeforeOf w.cg cursor ≠ c2) →
        r = c2 ∧ wf.cg.labelCount = w2.cg.labelCount ∧
        wf.cg.instructions = w2.cg.instructions) ∧
      ((c2 ≠ none ∧ cursorBeforeOf w.cg cursor ≠ c2) →
        ∃ dd w3, V.generateDependencies (w2.setCursor c2) = some (dd, w3) ∧
          r = w3.op._cursor ∧
          (wf.cg.labelCount = w3.cg.labelCount ∨
            (dd ≠ none ∧ wf.cg.labelCount = w3.cg.labelCount + 2 ∧
              wf.cg.startInternalControlFlow =
                w3.cg.startInternalControlFlow ++ [w3.cg.labelCount] ∧
              wf.cg.endInternalControlFlow =
                w3.cg.endInternalControlFlow ++ [w3.cg.labelCount + 1])))) ∧
    (¬ (c2 ≠ none ∧ cursorBeforeOf w.cg cursor ≠ c2) →
      ∃ wf,
        MemToMemMacroOp.generate MAXDISP V w dstReg srcReg tmpReg offset cursor dstMR srcMR =
          Outcome.returned c2 wf [Step.generateLoop, Step.generateRemainder]) ∧
    (∀ (l : List Step) r wf cs,
      MemToMemMacroOp.generate MAXDISP V w dstReg srcReg tmpReg offset cursor dstMR srcMR =
        Outcome.returned r wf cs →
      cs = [Step.generateLoop, Step.generateRemainder] ++
        (if c2 ≠ none ∧ cursorBeforeOf w.cg cursor ≠ c2 then [Step.generateDependencies]
         else []) ∧
      MemToMemMacroOp.generate MAXDISP V.logged (w.withLog l) dstReg srcReg tmpReg offset
          cursor dstMR srcMR = Outcome.returned r (wf.withLog (l ++ cs)) cs) := by
  have hcalls : (MemToMemMacroOp.generate MAXDISP V w dstReg srcReg tmpReg offset cursor dstMR
        srcMR).calls =
      [Step.generateLoop, Step.generateRemainder] ++
        (if c2 ≠ none ∧ cursorBeforeOf w.cg cursor ≠ c2 then [Step.generateDependencies]
         else []) := by
    by_cases hadv : c2 ≠ none ∧ cursorBeforeOf w.cg cursor ≠ c2
    · rw [if_pos hadv]
      cases hD : V.generateDependencies (w2.setCursor c2) with
      | none =>
        rw [generate_dependencies_aborted MAXDISP V w dstReg srcReg tmpReg offset cursor dstMR
          srcMR c1 c2 w1 w2 hoff hL hR hadv hD]
        rfl
      | some r3 =>
        obtain ⟨dd, w3⟩ := r3
        rw [generate_advanced MAXDISP V w dstReg srcReg tmpReg offset cursor dstMR srcMR
          c1 c2 w1 w2 dd w3 hoff hL hR hadv hD]
        cases hA : attachDependencies w3 (cursorBeforeOf w.cg cursor) dd <;> rfl
    · rw [if_neg hadv, generate_not_advanced MAXDISP V w dstReg srcReg tmpReg offset cursor
        dstMR srcMR c1 c2 w1 w2 hoff hL hR hadv]
      rfl
  refine ⟨hcalls, ?_, ?_, ?_, ?_, ?_, ?_⟩
  · rw [hcalls]; split <;> simp
  · rw [hcalls]; split <;> simp
  · rw [hcalls]; split <;> simp
  · intro r wf cs hret
    obtain ⟨h1, h2⟩ := generate_returned MAXDISP V w dstReg srcReg tmpReg offset cursor dstMR
      srcMR c1 c2 w1 w2 r wf cs hoff hL hR hret
    refine ⟨h1, ?_, ?_⟩
    · intro hna
      rcases h2 with ⟨-, -, e, ew⟩ | ⟨hadv, -⟩
      · obtain ⟨-, f1, -, f3, -, -⟩ := releaseTemps_frame (w2.setCursor c2)
        rw [ew, f1, f3]
        exact ⟨e, rfl, rfl⟩
      · exact absurd hadv hna
    · intro hadv
      rcases h2 with ⟨hna, -⟩ | ⟨-, -, dd, w3, w4, hD, hA, e, ew⟩
      · exact absurd hadv hna
      · refine ⟨dd, w3, hD, e, ?_⟩
        obtain ⟨-, -, -, f3, f4, f5⟩ := releaseTemps_frame w4
        rw [ew, f3, f4, f5]
        rcases attachDependencies_effect w3 w4 _ dd hA with
          hl | ⟨⟨d, hd, -⟩, -, g3, -, -, g6, g7, -⟩
        · exact Or.inl hl.1
        · exact Or.inr ⟨by rw [hd]; simp, g3, g6, g7⟩
  · intro hna
    exact ⟨_, generate_not_advanced MAXDISP V w dstReg srcReg tmpReg offset cursor dstMR srcMR
      c1 c2 w1 w2 hoff hL hR hna⟩
  · intro l r wf cs hret
    refine ⟨?_, generate_logged MAXDISP V w l dstReg srcReg tmpReg offset cursor dstMR srcMR
      r wf cs hret⟩
    have h := hcalls
    rw [hret] at h
    exact h

/-- Witness of `generate_steps_order`: the demo run, whose cursor advanced; its steps
record the log `generateLoop`, `generateRemainder`, `generateDependencies`. -/
theorem generate_steps_order_witness :
    demoRun.calls = [Step.generateLoop, Step.generateRemainder, Step.generateDependencies] ∧
    (∃ wf cs, demoRun = Outcome.returned (some 3) wf cs) ∧
    (∃ wf,
      MemToMemMacroOp.generate 4096 demoStrategy.logged (demoWorld.withLog []) (some 10)
          (some 11) none 0 none none none =
        Outcome.returned (some 3) wf
          [Step.generateLoop, Step.generateRemainder, Step.generateDependencies] ∧
      wf.derived.2 =
        [Step.generateLoop, Step.generateRemainder, Step.generateDependencies]) := by
  obtain ⟨h1, -, -, -, -, -, h7⟩ := generate_steps_order 4096 demoStrategy demoWorld (some 10)
    (some 11) none 0 none none none _ _ _ _ (by decide) rfl rfl
  exact ⟨h1, ⟨_, _, rfl⟩, _, (h7 [] _ _ _ rfl).2, rfl⟩

/-! ## Claim C6 -/

/-- C6: on every path on which `generate` returns, with `wS` the state the last invoked
strategy step left (`generateRemainder()` when the cursor did not advance, else
`generateDependencies()`), `generate` adds to the calls of the register pool exactly one
`stopUsingRegister` for each of `_srcRegTemp` and `_dstRegTemp` that is set in `wS`, the
source one first, and nothing for a temporary that is not set; and both temporaries are
`NULL` when `generateLoop()` is invoked. -/
theorem temporaries_released {σ : Type} (MAXDISP : Int) (V : Strategy σ) (w : World σ)
    (dstReg srcReg tmpReg : Option Register) (offset : Int) (cursor : Option InstrPtr)
    (dstMR srcMR : Option MemRefPtr) (c1 c2 : Option InstrPtr) (w1 w2 wS : World σ)
    (r : Option InstrPtr) (wf : World σ) (cs : List Step)
    (hoff : offset ≤ MAXDISP)
    (hL : V.generateLoop (initMembers w dstReg srcReg tmpReg offset cursor dstMR srcMR) =
      some (c1, w1))
    (hR : V.generateRemainder (w1.setCursor c1) = some (c2, w2))
    (hS : (¬ (c2 ≠ none ∧ cursorBeforeOf w.cg cursor ≠ c2) ∧ wS = w2.setCursor c2) ∨
      ((c2 ≠ none ∧ cursorBeforeOf w.cg cursor ≠ c2) ∧
        ∃ dd, V.generateDependencies (w2.setCursor c2) = some (dd, wS)))
    (hret : MemToMemMacroOp.generate MAXDISP V w dstReg srcReg tmpReg offset cursor dstMR
      srcMR = Outcome.returned r wf cs) :
    wf.cg.pool =
      wS.cg.pool ++ (wS.op._srcRegTemp.toList ++ wS.op._dstRegTemp.toList).map
        (fun x => PoolEvent.stopUsingRegister (some x)) ∧
    (initMembers w dstReg srcReg tmpReg offset cursor dstMR srcMR).op._srcRegTemp = none ∧
    (initMembers w dstReg srcReg tmpReg offset cursor dstMR srcMR).op._dstRegTemp = none := by
  refine ⟨?_, rfl, rfl⟩
  rcases hS with ⟨hna, hw⟩ | ⟨hadv, dd, hD⟩
  · rw [generate_not_advanced MAXDISP V w dstReg srcReg tmpReg offset cursor dstMR
      srcMR c1 c2 w1 w2 hoff hL hR hna] at hret
    simp only [Outcome.returned.injEq] at hret
    rw [← hret.2.1, hw]
    exact releaseTemps_pool _
  · rw [generate_advanced MAXDISP V w dstReg srcReg tmpReg offset cursor dstMR srcMR
      c1 c2 w1 w2 dd wS hoff hL hR hadv hD] at hret
    cases hA : attachDependencies wS (cursorBeforeOf w.cg cursor) dd with
    | none =>
      rw [hA] at hret
      cases hret
    | some w4 =>
      rw [hA] at hret
      simp only [Outcome.returned.injEq] at hret
      obtain ⟨-, f2, f3, f4⟩ := attachDependencies_frame wS w4 _ dd hA
      rw [← hret.2.1, releaseTemps_pool, f2, f3, f4]

/-- Witness of `temporaries_released`: in the demo run the loop takes the register 0 as
temporary for the source address and `generate` releases it once. -/
theorem temporaries_released_witness :
    ∃ wf : World Unit,
      demoRun = Outcome.returned (some 3) wf
        [Step.generateLoop, Step.generateRemainder, Step.generateDependencies] ∧
      wf.cg.pool =
        [PoolEvent.allocateRegister 0, PoolEvent.stopUsingRegister (some 0)] := by
  have h := temporaries_released 4096 demoStrategy demoWorld (some 10) (some 11) none 0 none
    none none _ _ _ _ _ _ _ _ (by decide) rfl rfl (Or.inr ⟨by decide, some 9, rfl⟩) rfl
  exact ⟨_, rfl, h.1⟩

/-! ## Claim C7 -/

/-- The typed `generate` invokes `generateLoop` in the state `beforeLoop`. -/
theorem typed_generate_eq {σ : Type}
    (generateLoop : TypedWorld σ → Option (Option InstrPtr × TypedWorld σ))
    (w : TypedWorld σ) (dstReg srcReg strideReg : Option Register) (applyDepLocally : Bool) :
    MemToMemTypedMacroOp.generate generateLoop w dstReg srcReg strideReg applyDepLocally =
      match generateLoop
        (MemToMemTypedMacroOp.beforeLoop w dstReg srcReg strideReg applyDepLocally) with
      | none => TypedOutcome.stepAborted [Step.generateLoop]
      | some (cursor, w4) =>
        TypedOutcome.returned cursor
          { w4 with cg := stopUsingRegister (stopUsingRegister w4.cg w4.op._endReg)
                            w4.op._bxhReg }
          [Step.generateLoop] := by
  have hb : MemToMemTypedMacroOp.beforeLoop w dstReg srcReg strideReg applyDepLocally =
      { op := { w.op with _srcReg := srcReg, _startReg := dstReg, _strideReg := strideReg,
                          _applyDepLocally := applyDepLocally,
                          _endReg := some w.cg.regCount,
                          _bxhReg := some (w.cg.regCount + 1) },
        cg := { w.cg with
                regCount := w.cg.regCount + 1 + 1,
                pool := w.cg.pool ++ [PoolEvent.allocateRegister w.cg.regCount] ++
                  [PoolEvent.allocateConsecutiveRegisterPair (w.cg.regCount + 1) dstReg
                    strideReg] },
        derived := w.derived } := by
    simp [MemToMemTypedMacroOp.beforeLoop]
  rw [hb]
  simp only [MemToMemTypedMacroOp.generate, allocateRegister, allocateConsecutiveRegisterPair]

/-- C7, as stated, fails: with a `generateLoop()` that overwrites the member `_endReg`
with the register 99, `generate` releases the register 99 and the pair 1; the end register
0 it allocated is never released. -/
theorem typed_end_register_not_released :
    ∃ wf : TypedWorld Unit,
      MemToMemTypedMacroOp.generate overwritingTypedLoop demoTypedWorld (some 10) (some 10)
          (some 12) true =
        TypedOutcome.returned (some 1) wf [Step.generateLoop] ∧
      wf.cg.pool =
        [PoolEvent.allocateRegister 0,
         PoolEvent.allocateConsecutiveRegisterPair 1 (some 10) (some 12),
         PoolEvent.stopUsingRegister (some 99), PoolEvent.stopUsingRegister (some 1)] ∧
      wf.cg.pool.count (PoolEvent.stopUsingRegister (some 0)) = 0 :=
  ⟨_, rfl, rfl, by decide⟩

/-- C7 (amended): a call of the typed `generate` whose `generateLoop()` returns allocates,
before `generateLoop()` runs, exactly one end register and exactly one consecutive register
pair built from `(dstReg, strideReg)` and stores them in `_endReg` and `_bxhReg`; after
`generateLoop()` has returned, in the state `w4` it left, `generate` makes exactly two
releases, of the values `_endReg` and `_bxhReg` hold in `w4`, in this order, so that it
makes two allocations and two releases of its own; it returns the cursor `generateLoop()`
returned. When `generateLoop()` left `_endReg` and `_bxhReg` alone and added the calls `δ`
to the register pool, the two releases are those of the two allocated registers, each
released exactly once. -/
theorem typed_generate_registers {σ : Type}
    (generateLoop : TypedWorld σ → Option (Option InstrPtr × TypedWorld σ))
    (w : TypedWorld σ) (dstReg srcReg strideReg : Option Register) (applyDepLocally : Bool)
    (cursor : Option InstrPtr) (w4 : TypedWorld σ)
    (hL : generateLoop
      (MemToMemTypedMacroOp.beforeLoop w dstReg srcReg strideReg applyDepLocally) =
      some (cursor, w4)) :
    ∃ wf : TypedWorld σ,
      MemToMemTypedMacroOp.generate generateLoop w dstReg srcReg strideReg applyDepLocally =
        TypedOutcome.returned cursor wf [Step.generateLoop] ∧
      (MemToMemTypedMacroOp.beforeLoop w dstReg srcReg strideReg applyDepLocally).cg.pool =
        w.cg.pool ++ [PoolEvent.allocateRegister w.cg.regCount,
          PoolEvent.allocateConsecutiveRegisterPair (w.cg.regCount + 1) dstReg strideReg] ∧
      (MemToMemTypedMacroOp.beforeLoop w dstReg srcReg strideReg applyDepLocally).op._endReg =
        some w.cg.regCount ∧
      (MemToMemTypedMacroOp.beforeLoop w dstReg srcReg strideReg applyDepLocally).op._bxhReg =
        some (w.cg.regCount + 1) ∧
      wf.cg.pool =
        w4.cg.pool ++ [PoolEvent.stopUsingRegister w4.op._endReg,
          PoolEvent.stopUsingRegister w4.op._bxhReg] ∧
      (((MemToMemTypedMacroOp.beforeLoop w dstReg srcReg strideReg
          applyDepLocally).cg.pool.drop w.cg.pool.length).countP PoolEvent.isAllocation = 2 ∧
        ((MemToMemTypedMacroOp.beforeLoop w dstReg srcReg strideReg
          applyDepLocally).cg.pool.drop w.cg.pool.length).countP PoolEvent.isRelease = 0 ∧
        (wf.cg.pool.drop w4.cg.pool.length).countP PoolEvent.isAllocation = 0 ∧
        (wf.cg.pool.drop w4.cg.pool.length).countP PoolEvent.isRelease = 2) ∧
      (∀ δ : List PoolEvent,
        w4.op._endReg = some w.cg.regCount → w4.op._bxhReg = some (w.cg.regCount + 1) →
        w4.cg.pool =
          (MemToMemTypedMacroOp.beforeLoop w dstReg srcReg strideReg
            applyDepLocally).cg.pool ++ δ →
        wf.cg.pool =
          w.cg.pool ++ [PoolEvent.allocateRegister w.cg.regCount,
            PoolEvent.allocateConsecutiveRegisterPair (w.cg.regCount + 1) dstReg strideReg] ++
            δ ++ [PoolEvent.stopUsingRegister (some w.cg.regCount),
              PoolEvent.stopUsingRegister (some (w.cg.regCount + 1))] ∧
        (wf.cg.pool.drop w.cg.pool.length).countP PoolEvent.isAllocation =
          δ.countP PoolEvent.isAllocation + 2 ∧
        (wf.cg.pool.drop w.cg.pool.length).countP PoolEvent.isRelease =
          δ.countP PoolEvent.isRelease + 2) := by
  have hgen := typed_generate_eq generateLoop w dstReg srcReg strideReg applyDepLocally
  rw [hL] at hgen
  have hq : (stopUsingRegister (stopUsingRegister w4.cg w4.op._endReg) w4.op._bxhReg).pool =
      w4.cg.pool ++ [PoolEvent.stopUsingRegister w4.op._endReg,
        PoolEvent.stopUsingRegister w4.op._bxhReg] := by
    simp [stopUsingRegister]
  refine ⟨_, hgen, rfl, rfl, rfl, hq, ⟨?_, ?_, ?_, ?_⟩, ?_⟩
  · simp [MemToMemTypedMacroOp.beforeLoop, List.countP_cons, PoolEvent.isAllocation]
  · simp [MemToMemTypedMacroOp.beforeLoop, List.countP_cons, PoolEvent.isRelease]
  · show ((stopUsingRegister (stopUsingRegister w4.cg w4.op._endReg) w4.op._bxhReg).pool.drop
      w4.cg.pool.length).countP PoolEvent.isAllocation = 0
    rw [hq]
    simp [List.countP_cons, PoolEvent.isAllocation]
  · show ((stopUsingRegister (stopUsingRegister w4.cg w4.op._endReg) w4.op._bxhReg).pool.drop
      w4.cg.pool.length).countP PoolEvent.isRelease = 2
    rw [hq]
    simp [List.countP_cons, PoolEvent.isRelease]
  · intro δ hend hbxh hpool
    have hp : (stopUsingRegister (stopUsingRegister w4.cg w4.op._endReg) w4.op._bxhReg).pool =
        w.cg.pool ++ [PoolEvent.allocateRegister w.cg.regCount,
            PoolEvent.allocateConsecutiveRegisterPair (w.cg.regCount + 1) dstReg strideReg] ++
            δ ++ [PoolEvent.stopUsingRegister (some w.cg.regCount),
              PoolEvent.stopUsingRegister (some (w.cg.regCount + 1))] := by
      simp only [stopUsingRegister, hpool, hend, hbxh, MemToMemTypedMacroOp.beforeLoop]
      simp
    refine ⟨hp, ?_, ?_⟩
    · show ((stopUsingRegister (stopUsingRegister w4.cg w4.op._endReg)
        w4.op._bxhReg).pool.drop w.cg.pool.length).countP PoolEvent.isAllocation = _
      rw [hp]
      simp [List.countP_append, List.countP_cons, PoolEvent.isAllocation]
    · show ((stopUsingRegister (stopUsingRegister w4.cg w4.op._endReg)
        w4.op._bxhReg).pool.drop w.cg.pool.length).countP PoolEvent.isRelease = _
      rw [hp]
      simp [List.countP_append, List.countP_cons, PoolEvent.isRelease]

/-- Witness of `typed_generate_registers`: a loop that takes and releases one temporary of
its own between the two allocations and the two releases of `generate`. -/
theorem typed_generate_registers_witness :
    ∃ wf : TypedWorld Unit,
      MemToMemTypedMacroOp.generate demoTypedLoop demoTypedWorld (some 10) (some 10) (some 12)
          true =
        TypedOutcome.returned (some 1) wf [Step.generateLoop] ∧
      wf.cg.pool =
        [PoolEvent.allocateRegister 0,
         PoolEvent.allocateConsecutiveRegisterPair 1 (some 10) (some 12),
         PoolEvent.allocateRegister 2, PoolEvent.stopUsingRegister (some 2),
         PoolEvent.stopUsingRegister (some 0), PoolEvent.stopUsingRegister (some 1)] := by
  obtain ⟨wf, h1, -, -, -, -, -, h7⟩ := typed_generate_registers demoTypedLoop demoTypedWorld
    (some 10) (some 10) (some 12) true _ _ rfl
  exact ⟨wf, h1, (h7 [PoolEvent.allocateRegister 2, PoolEvent.stopUsingRegister (some 2)]
    rfl rfl rfl).1⟩

/-! ## Claim C8 -/

theorem switchFallThrough_nil (v : Int) (cg : CodeGenerator) :
    switchFallThrough [] v cg = cg := rfl

theorem switchFallThrough_cons_ne (k : Int) (f : CodeGenerator → CodeGenerator)
    (cases : List (Int × (CodeGenerator → CodeGenerator))) (v : Int) (cg : CodeGenerator)
    (h : k ≠ v) : switchFallThrough ((k, f) :: cases) v cg = switchFallThrough cases v cg := by
  have hb : (k != v) = true := by simpa using h
  simp [switchFallThrough, List.dropWhile, hb]

/-- C8: `cleanUpReg` always releases `_workReg` and `_alignedReg`, once each; with
unrolling enabled, forward direction and an unroll factor `2 ≤ k ≤ 8` it then releases
`_workRegk`, ..., `_workReg2`, once each and no other; with unrolling disabled, a direction
that is not forward, or an unroll factor 0 or 1 (or any factor outside `2 .. 8`) it releases
nothing more. -/
theorem cleanUpReg_releases (o : MemCpyAtomicMacroOp) (cg : CodeGenerator) :
    (o.cleanUpReg cg).pool =
      cg.pool ++
        [PoolEvent.stopUsingRegister o._workReg, PoolEvent.stopUsingRegister o._alignedReg] ++
        (if o._unroll = true ∧ o._isForward = true ∧ 2 ≤ o._unrollFactor ∧ o._unrollFactor ≤ 8
         then (List.range' 2 (o._unrollFactor.toNat - 1)).reverse.map
           (fun j => PoolEvent.stopUsingRegister (o.workReg j))
         else []) ∧
    ((o._unroll = false ∨ o._isForward = false ∨ o._unrollFactor = 0 ∨ o._unrollFactor = 1) →
      (o.cleanUpReg cg).pool =
        cg.pool ++
          [PoolEvent.stopUsingRegister o._workReg,
           PoolEvent.stopUsingRegister o._alignedReg]) := by
  have hmain : (o.cleanUpReg cg).pool =
      cg.pool ++
        [PoolEvent.stopUsingRegister o._workReg, PoolEvent.stopUsingRegister o._alignedReg] ++
        (if o._unroll = true ∧ o._isForward = true ∧ 2 ≤ o._unrollFactor ∧ o._unrollFactor ≤ 8
         then (List.range' 2 (o._unrollFactor.toNat - 1)).reverse.map
           (fun j => PoolEvent.stopUsingRegister (o.workReg j))
         else []) := by
    obtain ⟨fw, un, tr, cl, k, r1, ra, r2, r3, r4, r5, r6, r7, r8⟩ := o
    have hbase : ∀ c0 : CodeGenerator, c0.pool = cg.pool →
        (stopUsingRegister (stopUsingRegister c0 r1) ra).pool =
          cg.pool ++ [PoolEvent.stopUsingRegister r1, PoolEvent.stopUsingRegister ra] := by
      intro c0 h0
      simp [stopUsingRegister, h0]
    have htr : (if tr = true then traceMsg cg else cg).pool = cg.pool := by
      cases tr <;> rfl
    simp only [MemCpyAtomicMacroOp.cleanUpReg]
    cases un with
    | false => simp [stopUsingRegister, htr]
    | true =>
      cases fw with
      | false => simp [stopUsingRegister, htr]
      | true =>
        simp only [Bool.and_self, if_true, true_and]
        by_cases h0 : k = 0
        · subst h0
          simp [stopUsingRegister, htr]
        · simp only [ne_eq, h0, not_false_eq_true, if_true]
          by_cases h8 : k = 8
          · subst h8
            simp [switchFallThrough, List.dropWhile, stopUsingRegister, htr,
              MemCpyAtomicMacroOp.workReg, List.range']
          by_cases h7 : k = 7
          · subst h7
            simp [switchFallThrough, List.dropWhile, stopUsingRegister, htr,
              MemCpyAtomicMacroOp.workReg, List.range']
          by_cases h6 : k = 6
          · subst h6
            simp [switchFallThrough, List.dropWhile, stopUsingRegister, htr,
              MemCpyAtomicMacroOp.workReg, List.range']
          by_cases h5 : k = 5
          · subst h5
            simp [switchFallThrough, List.dropWhile, stopUsingRegister, htr,
              MemCpyAtomicMacroOp.workReg, List.range']
          by_cases h4 : k = 4
          · subst h4
            simp [switchFallThrough, List.dropWhile, stopUsingRegister, htr,
              MemCpyAtomicMacroOp.workReg, List.range']
          by_cases h3 : k = 3
          · subst h3
            simp [switchFallThrough, List.dropWhile, stopUsingRegister, htr,
              MemCpyAtomicMacroOp.workReg, List.range']
          by_cases h2 : k = 2
          · subst h2
            simp [switchFallThrough, List.dropWhile, stopUsingRegister, htr,
              MemCpyAtomicMacroOp.workReg, List.range']
          · rw [switchFallThrough_cons_ne _ _ _ _ _ (Ne.symm h8),
              switchFallThrough_cons_ne _ _ _ _ _ (Ne.symm h7),
              switchFallThrough_cons_ne _ _ _ _ _ (Ne.symm h6),
              switchFallThrough_cons_ne _ _ _ _ _ (Ne.symm h5),
              switchFallThrough_cons_ne _ _ _ _ _ (Ne.symm h4),
              switchFallThrough_cons_ne _ _ _ _ _ (Ne.symm h3),
              switchFallThrough_cons_ne _ _ _ _ _ (Ne.symm h2), switchFallThrough_nil,
              hbase _ htr]
            have hr : ¬ (2 ≤ k ∧ k ≤ 8) := by omega
            simp [hr]
  refine ⟨hmain, ?_⟩
  intro h
  rw [hmain]
  have : ¬ (o._unroll = true ∧ o._isForward = true ∧ 2 ≤ o._unrollFactor ∧
      o._unrollFactor ≤ 8) := by
    rintro ⟨h1, h2, h3, h4⟩
    rcases h with h | h | h | h
    · rw [h1] at h; cases h
    · rw [h2] at h; cases h
    · omega
    · omega
  simp [this]

/-- Witness of `cleanUpReg_releases`: with the unroll factor 4 the registers of
`_workReg4`, `_workReg3` and `_workReg2` are released after `_workReg` and `_alignedReg`. -/
theorem cleanUpReg_releases_witness :
    (demoAtomic.cleanUpReg demoCG).pool =
      [PoolEvent.stopUsingRegister (some 20), PoolEvent.stopUsingRegister (some 30),
       PoolEvent.stopUsingRegister (some 23), PoolEvent.stopUsingRegister (some 22),
       PoolEvent.stopUsingRegister (some 21)] :=
  (cleanUpReg_releases demoAtomic demoCG).1.trans (by decide)

/-! ## Claim C9 -/

/-- C9: for every `offset ≤ MAXDISP` the assertion of `generate` passes and `generateLoop()`
is invoked, on the state in which the arguments are stored; for `offset = MAXDISP + 1` and
every larger offset the assertion fails before any step is invoked, in the unchanged input
state, whatever the strategy. -/
theorem offset_contract {σ : Type} (MAXDISP : Int) (V : Strategy σ) (w : World σ)
    (dstReg srcReg tmpReg : Option Register) (offset : Int) (cursor : Option InstrPtr)
    (dstMR srcMR : Option MemRefPtr) :
    (offset ≤ MAXDISP →
      (∀ w0 cs, MemToMemMacroOp.generate MAXDISP V w dstReg srcReg tmpReg offset cursor dstMR
        srcMR ≠ Outcome.assertionFailed w0 cs) ∧
      (MemToMemMacroOp.generate MAXDISP V w dstReg srcReg tmpReg offset cursor dstMR
        srcMR).calls.head? = some Step.generateLoop ∧
      (V.generateLoop (initMembers w dstReg srcReg tmpReg offset cursor dstMR srcMR) = none →
        MemToMemMacroOp.generate MAXDISP V w dstReg srcReg tmpReg offset cursor dstMR srcMR =
          Outcome.stepAborted [Step.generateLoop])) ∧
    (MAXDISP + 1 ≤ offset →
      MemToMemMacroOp.generate MAXDISP V w dstReg srcReg tmpReg offset cursor dstMR srcMR =
        Outcome.assertionFailed w []) ∧
    MemToMemMacroOp.generate MAXDISP V w dstReg srcReg tmpReg (MAXDISP + 1) cursor dstMR
      srcMR = Outcome.assertionFailed w [] := by
  refine ⟨?_, ?_, ?_⟩
  · intro hoff
    simp only [MemToMemMacroOp.generate, not_not.2 hoff, if_false]
    cases hL : V.generateLoop (initMembers w dstReg srcReg tmpReg offset cursor dstMR srcMR) with
    | none => simp [Outcome.calls]
    | some r1 =>
      obtain ⟨c1, w1⟩ := r1
      simp only
      cases hR : V.generateRemainder (w1.setCursor c1) with
      | none => simp [Outcome.calls]
      | some r2 =>
        obtain ⟨c2, w2⟩ := r2
        simp only
        split
        · cases hD : V.generateDependencies (w2.setCursor c2) with
          | none => simp [Outcome.calls]
          | some r3 =>
            obtain ⟨dd, w3⟩ := r3
            simp only
            cases hA : attachDependencies w3
              (cursorBeforeOf (initMembers w dstReg srcReg tmpReg offset cursor dstMR srcMR).cg
                cursor) dd <;> simp [Outcome.calls]
        · simp [Outcome.calls]
  · intro hoff
    have : ¬ offset ≤ MAXDISP := by omega
    simp [MemToMemMacroOp.generate, this]
  · have : ¬ MAXDISP + 1 ≤ MAXDISP := by omega
    simp [MemToMemMacroOp.generate, this]

/-- Witness of `offset_contract`: with `MAXDISP` 4096 the offset 4096 passes and the
offset 4097 aborts the demo strategy before it emits anything. -/
theorem offset_contract_witness :
    (MemToMemMacroOp.generate 4096 demoStrategy demoWorld (some 10) (some 11) none 4096 none
      none none).calls.head? = some Step.generateLoop ∧
    MemToMemMacroOp.generate 4096 demoStrategy demoWorld (some 10) (some 11) none 4097 none
      none none = Outcome.assertionFailed demoWorld [] :=
  ⟨((offset_contract 4096 demoStrategy demoWorld (some 10) (some 11) none 4096 none none
      none).1 (by decide)).2.1,
   (offset_contract 4096 demoStrategy demoWorld (some 10) (some 11) none 4097 none none
      none).2.1 (by decide)⟩

/-! ## Claim C10 -/

theorem generateSrcMemRef_built {σ : Type} (w : World σ) (offset : Int)
    (hsrc : ∀ q, w.op._srcMR = some q → q < w.cg.memRefs.length) :
    ∃ (w1 : World σ) (m : MemoryReference),
      MemToMemMacroOp.generateSrcMemRef w offset = some w1 ∧
      w1.op._srcMR = some w.cg.memRefs.length ∧
      builtDescriptor w.cg.memRefs w.op._srcMR w.op._srcReg w.op._rootNode w.op._srcNode
        offset = some m ∧
      w1.cg.memRefs = w.cg.memRefs ++ [m] := by
  cases hmr : w.op._srcMR with
  | none =>
    cases hreg : w.op._srcReg with
    | none =>
      refine ⟨{ w with
          op := { w.op with _srcMR := some w.cg.memRefs.length },
          cg := { w.cg with memRefs := w.cg.memRefs ++
            [{ baseRegister := none, rootNode := w.op._rootNode, node := w.op._srcNode,
               offset := offset }] } }, _, ?_, rfl, rfl, rfl⟩
      simp [MemToMemMacroOp.generateSrcMemRef, hmr, hreg, newMemoryReference,
        generateS390MemoryReferenceFromNode]
    | some r =>
      refine ⟨{ w with
          op := { w.op with _srcMR := some w.cg.memRefs.length },
          cg := { w.cg with memRefs := w.cg.memRefs ++
            [{ baseRegister := some r, rootNode := none, node := none,
               offset := offset }] } }, _, ?_, rfl, rfl, rfl⟩
      simp [MemToMemMacroOp.generateSrcMemRef, hmr, hreg, newMemoryReference]
  | some old =>
    have hlt := hsrc old hmr
    have hget : w.cg.memRefs[old]? = some (w.cg.memRefs[old]) := List.getElem?_eq_getElem hlt
    refine ⟨{ w with
        op := { w.op with _srcMR := some w.cg.memRefs.length },
        cg := { w.cg with memRefs := w.cg.memRefs ++
          [{ w.cg.memRefs[old] with offset := w.cg.memRefs[old].offset + 0 }] } },
      _, ?_, rfl, ?_, rfl⟩
    · simp [MemToMemMacroOp.generateSrcMemRef, hmr, generateS390MemoryReferenceCopy, hget,
        newMemoryReference]
    · simp [builtDescriptor, hget]

theorem generateDstMemRef_built {σ : Type} (w : World σ) (offset : Int)
    (hdst : ∀ q, w.op._dstMR = some q → q < w.cg.memRefs.length) :
    ∃ (w1 : World σ) (m : MemoryReference),
      MemToMemMacroOp.generateDstMemRef w offset = some w1 ∧
      w1.op._dstMR = some w.cg.memRefs.length ∧
      builtDescriptor w.cg.memRefs w.op._dstMR w.op._dstReg w.op._rootNode w.op._dstNode
        offset = some m ∧
      w1.cg.memRefs = w.cg.memRefs ++ [m] := by
  cases hmr : w.op._dstMR with
  | none =>
    cases hreg : w.op._dstReg with
    | none =>
      refine ⟨{ w with
          op := { w.op with _dstMR := some w.cg.memRefs.length },
          cg := { w.cg with memRefs := w.cg.memRefs ++
            [{ baseRegister := none, rootNode := w.op._rootNode, node := w.op._dstNode,
               offset := offset }] } }, _, ?_, rfl, rfl, rfl⟩
      simp [MemToMemMacroOp.generateDstMemRef, hmr, hreg, newMemoryReference,
        generateS390MemoryReferenceFromNode]
    | some r =>
      refine ⟨{ w with
          op := { w.op with _dstMR := some w.cg.memRefs.length },
          cg := { w.cg with memRefs := w.cg.memRefs ++
            [{ baseRegister := some r, rootNode := none, node := none,
               offset := offset }] } }, _, ?_, rfl, rfl, rfl⟩
      simp [MemToMemMacroOp.generateDstMemRef, hmr, hreg, newMemoryReference]
  | some old =>
    have hlt := hdst old hmr
    have hget : w.cg.memRefs[old]? = some (w.cg.memRefs[old]) := List.getElem?_eq_getElem hlt
    refine ⟨{ w with
        op := { w.op with _dstMR := some w.cg.memRefs.length },
        cg := { w.cg with memRefs := w.cg.memRefs ++
          [{ w.cg.memRefs[old] with offset := w.cg.memRefs[old].offset + 0 }] } },
      _, ?_, rfl, ?_, rfl⟩
    · simp [MemToMemMacroOp.generateDstMemRef, hmr, generateS390MemoryReferenceCopy, hget,
        newMemoryReference]
    · simp [builtDescriptor, hget]

/-- C10: a call of `generateSrcMemRef(offset)`, and likewise of `generateDstMemRef(offset)`,
on an operation whose held descriptor, if any, is a descriptor of the heap, leaves the
member referring to a new descriptor: its address is that of no descriptor that existed
before the call, in particular not the address held before; the descriptors that existed
are unchanged; the new descriptor is built from the base register and the offset, or from
the operand node when there is no base register, or is a copy of the descriptor held
before; and a second call yields yet another address. -/
theorem generateMemRef_fresh {σ : Type} (w : World σ) (offset : Int)
    (hsrc : ∀ q, w.op._srcMR = some q → q < w.cg.memRefs.length)
    (hdst : ∀ q, w.op._dstMR = some q → q < w.cg.memRefs.length) :
    (∃ (w1 : World σ) (m : MemoryReference),
      MemToMemMacroOp.generateSrcMemRef w offset = some w1 ∧
      w1.op._srcMR = some w.cg.memRefs.length ∧
      w1.op._srcMR ≠ w.op._srcMR ∧
      (∀ q, q < w.cg.memRefs.length → w1.op._srcMR ≠ some q) ∧
      builtDescriptor w.cg.memRefs w.op._srcMR w.op._srcReg w.op._rootNode w.op._srcNode
        offset = some m ∧
      w1.cg.memRefs = w.cg.memRefs ++ [m] ∧
      (∀ (offset2 : Int), ∃ w2 : World σ,
        MemToMemMacroOp.generateSrcMemRef w1 offset2 = some w2 ∧
        w2.op._srcMR = some (w.cg.memRefs.length + 1) ∧ w2.op._srcMR ≠ w1.op._srcMR)) ∧
    (∃ (w1 : World σ) (m : MemoryReference),
      MemToMemMacroOp.generateDstMemRef w offset = some w1 ∧
      w1.op._dstMR = some w.cg.memRefs.length ∧
      w1.op._dstMR ≠ w.op._dstMR ∧
      (∀ q, q < w.cg.memRefs.length → w1.op._dstMR ≠ some q) ∧
      builtDescriptor w.cg.memRefs w.op._dstMR w.op._dstReg w.op._rootNode w.op._dstNode
        offset = some m ∧
      w1.cg.memRefs = w.cg.memRefs ++ [m] ∧
      (∀ (offset2 : Int), ∃ w2 : World σ,
        MemToMemMacroOp.generateDstMemRef w1 offset2 = some w2 ∧
        w2.op._dstMR = some (w.cg.memRefs.length + 1) ∧ w2.op._dstMR ≠ w1.op._dstMR)) := by
  constructor
  · obtain ⟨w1, m, h1, h2, h3, h4⟩ := generateSrcMemRef_built w offset hsrc
    refine ⟨w1, m, h1, h2, ?_, ?_, h3, h4, ?_⟩
    · intro h
      rw [h2] at h
      exact Nat.lt_irrefl _ (hsrc _ h.symm)
    · intro q hq h
      rw [h2] at h
      have h3 : w.cg.memRefs.length = q := Option.some.inj h
      rw [← h3] at hq
      exact Nat.lt_irrefl _ hq
    · intro offset2
      have hlen : w1.cg.memRefs.length = w.cg.memRefs.length + 1 := by simp [h4]
      obtain ⟨w2, -, g1, g2, -, -⟩ := generateSrcMemRef_built w1 offset2 (by
        intro q hq
        rw [h2] at hq
        have h3 : w.cg.memRefs.length = q := Option.some.inj hq
        rw [← h3, hlen]
        exact Nat.lt_succ_self _)
      refine ⟨w2, g1, by rw [g2, hlen], ?_⟩
      rw [g2, h2, hlen]
      simp
  · obtain ⟨w1, m, h1, h2, h3, h4⟩ := generateDstMemRef_built w offset hdst
    refine ⟨w1, m, h1, h2, ?_, ?_, h3, h4, ?_⟩
    · intro h
      rw [h2] at h
      exact Nat.lt_irrefl _ (hdst _ h.symm)
    · intro q hq h
      rw [h2] at h
      have h3 : w.cg.memRefs.length = q := Option.some.inj h
      rw [← h3] at hq
      exact Nat.lt_irrefl _ hq
    · intro offset2
      have hlen : w1.cg.memRefs.length = w.cg.memRefs.length + 1 := by simp [h4]
      obtain ⟨w2, -, g1, g2, -, -⟩ := generateDstMemRef_built w1 offset2 (by
        intro q hq
        rw [h2] at hq
        have h3 : w.cg.memRefs.length = q := Option.some.inj hq
        rw [← h3, hlen]
        exact Nat.lt_succ_self _)
      refine ⟨w2, g1, by rw [g2, hlen], ?_⟩
      rw [g2, h2, hlen]
      simp

/-- Witness of `generateMemRef_fresh`: a call of `generateSrcMemRef(8)` on an operation
that holds no descriptor and has the source register 11 builds the descriptor 0 from the
register and the offset, and a second call yields the address 1. -/
theorem generateMemRef_fresh_witness :
    ∃ (w1 w2 : World Unit) (m : MemoryReference),
      MemToMemMacroOp.generateSrcMemRef demoMemRefWorld 8 = some w1 ∧
      w1.op._srcMR = some 0 ∧
      m = { baseRegister := some 11, rootNode := none, node := none, offset := 8 } ∧
      w1.cg.memRefs = [m] ∧
      MemToMemMacroOp.generateSrcMemRef w1 16 = some w2 ∧
      w2.op._srcMR = some 1 := by
  obtain ⟨⟨w1, m, h1, h2, -, -, h5, h6, h7⟩, -⟩ := generateMemRef_fresh demoMemRefWorld 8
    (by intro q h; cases h) (by intro q h; cases h)
  obtain ⟨w2, g1, g2, -⟩ := h7 16
  exact ⟨w1, w2, m, h1, h2, (Option.some.inj h5).symm, h6, g1, g2⟩

/-! ## Claim C11 -/

/-- C11, as stated, fails: on a copy operation constructed with `inNestedICF = true` no
descriptor has been created (`_nestedICFDeps` is `NULL`), yet `getDependenciesForICF()`
is no contract violation: the assertion passes and the call returns `NULL`. -/
theorem icf_dependencies_null_without_violation :
    (MemCpyConstLenMacroOp.construct (some 1) (some 2) (some 3) 300 none true)._nestedICFDeps =
      none ∧
    (MemCpyConstLenMacroOp.construct (some 1) (some 2) (some 3) 300 none
      true).getDependenciesForICF = Asserted.returned none ∧
    (MemCpyConstLenMacroOp.construct (some 1) (some 2) (some 3) 300 none
      true).getDependenciesForICF ≠ Asserted.assertionFailed := by
  decide

/-- C11 (amended): `getDependenciesForICF()` is a fatal contract violation exactly on an
operation whose `_inNestedICF` is false, which is what the constructor was given; on an
operation constructed with `inNestedICF = true` it returns the member `_nestedICFDeps`,
which is `NULL` after construction, so that the call returns a descriptor only once one has
been created. -/
theorem getDependenciesForICF_contract (o : MemToMemConstLenMacroOp) :
    (o._inNestedICF = false → o.getDependenciesForICF = Asserted.assertionFailed) ∧
    (o._inNestedICF = true → o.getDependenciesForICF = Asserted.returned o._nestedICFDeps) ∧
    (∀ d, o.getDependenciesForICF = Asserted.returned (some d) →
      o._inNestedICF = true ∧ o._nestedICFDeps = some d) ∧
    (∀ (rootNode dstNode srcNode : Option Node) (length : Int) (itersReg : Option Register)
      (op : Mnemonic) (inNestedICF : Bool),
      (MemToMemConstLenMacroOp.construct rootNode dstNode srcNode length itersReg op
        inNestedICF)._nestedICFDeps = none ∧
      (MemToMemConstLenMacroOp.construct rootNode dstNode srcNode length itersReg op
        inNestedICF)._inNestedICF = inNestedICF ∧
      ((MemToMemConstLenMacroOp.construct rootNode dstNode srcNode length itersReg op
        inNestedICF).getDependenciesForICF = Asserted.assertionFailed ↔
        inNestedICF = false)) := by
  refine ⟨?_, ?_, ?_, ?_⟩
  · intro h
    simp [MemToMemConstLenMacroOp.getDependenciesForICF, h]
  · intro h
    simp [MemToMemConstLenMacroOp.getDependenciesForICF, h]
  · intro d h
    unfold MemToMemConstLenMacroOp.getDependenciesForICF at h
    split at h
    · rename_i hin
      simp only [Asserted.returned.injEq] at h
      exact ⟨hin, h⟩
    · cases h
  · intro rootNode dstNode srcNode length itersReg op inNestedICF
    refine ⟨rfl, rfl, ?_⟩
    cases inNestedICF <;>
      simp [MemToMemConstLenMacroOp.getDependenciesForICF, MemToMemConstLenMacroOp.construct]

/-- Witness of `getDependenciesForICF_contract`: a clear operation, whose constructor
leaves `inNestedICF` at its default `false`, violates the contract. -/
theorem getDependenciesForICF_contract_witness :
    (MemClearConstLenMacroOp.construct (some 1) (some 2) 300).getDependenciesForICF =
      Asserted.assertionFailed :=
  (getDependenciesForICF_contract (MemClearConstLenMacroOp.construct (some 1) (some 2) 300)).1
    rfl

/-! ## Claim C12 -/

/-- C12, as stated, fails: the constant-length copy returns `IsNotExtended`, not
`IsMemCpy`, and it carries the same tag as the constant-length clear, which performs
another kind of operation. -/
theorem constLen_getKind_not_extended :
    Variant.MemCpyConstLenMacroOp.getKind = Kind.IsNotExtended ∧
    Variant.MemCpyConstLenMacroOp.getKind ≠ Variant.MemCpyConstLenMacroOp.operation.tag ∧
    Variant.MemCpyConstLenMacroOp.getKind = Variant.MemClearConstLenMacroOp.getKind ∧
    Variant.MemCpyConstLenMacroOp.operation ≠ Variant.MemClearConstLenMacroOp.operation := by
  decide

/-- C12 (amended): for every variable-length variant `getKind()` returns the tag of the
operation it performs, so that two variable-length variants carry the same tag exactly
when they perform the same kind of operation; for every constant-length variant
`getKind()` is the one of `MemToMemMacroOp` and returns `IsNotExtended`. -/
theorem getKind_tags :
    (∀ v : Variant, v.isConstLen = false → v.getKind = v.operation.tag) ∧
    (∀ v : Variant, v.isConstLen = true → v.getKind = Kind.IsNotExtended) ∧
    (∀ v1 v2 : Variant, v1.isConstLen = false → v2.isConstLen = false →
      (v1.getKind = v2.getKind ↔ v1.operation = v2.operation)) := by
  refine ⟨?_, ?_, ?_⟩
  · intro v h
    cases v <;> first | rfl | cases h
  · intro v h
    cases v <;> first | rfl | cases h
  · intro v1 v2 h1 h2
    have e1 : v1.getKind = v1.operation.tag := by cases v1 <;> first | rfl | cases h1
    have e2 : v2.getKind = v2.operation.tag := by cases v2 <;> first | rfl | cases h2
    rw [e1, e2]
    generalize v1.operation = o1
    generalize v2.operation = o2
    cases o1 <;> cases o2 <;> decide

/-- Witness of `getKind_tags`: the variable-length copy and the variable-length signed
compare. -/
theorem getKind_tags_witness :
    Variant.MemCpyVarLenMacroOp.getKind = Kind.IsMemCpy ∧
    Variant.MemCmpVarLenSignMacroOp.getKind = Kind.IsMemCmp ∧
    Variant.BitOpMemConstLenMacroOp.getKind = Kind.IsNotExtended :=
  ⟨getKind_tags.1 Variant.MemCpyVarLenMacroOp rfl,
   getKind_tags.1 Variant.MemCmpVarLenSignMacroOp rfl,
   getKind_tags.2.1 Variant.BitOpMemConstLenMacroOp rfl⟩

/-! ## Claim C13 -/

/-- C13: each convenience overload of `generate` declared in `MemToMemMacroOp` equals the
seven-argument form with the defaults bound, with the same outcome (returned cursor, final
state and steps invoked) for all arguments: `generate(dst, src)` is
`generate(dst, src, NULL, 0, NULL, NULL, NULL)`, `generate(dst)` is
`generate(dst, dst, NULL, 0, NULL, NULL, NULL)`, `generate(dstMR, srcMR)` is
`generate(NULL, NULL, NULL, 0, NULL, dstMR, srcMR)`, `generate(dstMR)` is
`generate(NULL, NULL, NULL, 0, NULL, dstMR, dstMR)`, the overload with `itersReg` is
`generate(dst, src, tmp, offset, cursor, NULL, NULL)` on the state in which `_itersReg` is
`itersReg`; and the typed `generate(dst, stride, applyDepLocally)` is
`generate(dst, dst, stride, applyDepLocally)`. -/
theorem generate_overloads {σ : Type} (MAXDISP : Int) (V : Strategy σ) (w : World σ)
    (dstReg srcReg tmpReg itersReg : Option Register) (offset : Int)
    (cursor : Option InstrPtr) (dstMR srcMR : Option MemRefPtr)
    (generateLoop : TypedWorld σ → Option (Option InstrPtr × TypedWorld σ))
    (tw : TypedWorld σ) (strideReg : Option Register) (applyDepLocally : Bool) :
    MemToMemMacroOp.generateDstSrc MAXDISP V w dstReg srcReg =
      sevenArgumentForm MAXDISP V w dstReg srcReg none 0 none none none ∧
    MemToMemMacroOp.generateDst MAXDISP V w dstReg =
      sevenArgumentForm MAXDISP V w dstReg dstReg none 0 none none none ∧
    MemToMemMacroOp.generateMemRefs MAXDISP V w dstMR srcMR =
      sevenArgumentForm MAXDISP V w none none none 0 none dstMR srcMR ∧
    MemToMemMacroOp.generateMemRef MAXDISP V w dstMR =
      sevenArgumentForm MAXDISP V w none none none 0 none dstMR dstMR ∧
    MemToMemMacroOp.generateIters MAXDISP V w dstReg srcReg tmpReg itersReg offset cursor =
      sevenArgumentForm MAXDISP V { w with op := { w.op with _itersReg := itersReg } }
        dstReg srcReg tmpReg offset cursor none none ∧
    (initMembers { w with op := { w.op with _itersReg := itersReg } } dstReg srcReg tmpReg
      offset cursor none none).op._itersReg = itersReg ∧
    MemToMemTypedMacroOp.generateDstStride generateLoop tw dstReg strideReg applyDepLocally =
      MemToMemTypedMacroOp.generate generateLoop tw dstReg dstReg strideReg applyDepLocally :=
  ⟨rfl, rfl, rfl, rfl, rfl, rfl, rfl⟩

/-- Witness of `generate_overloads`: `generate(dstReg = 10, srcReg = 11)` of the demo
strategy is the demo run. -/
theorem generate_overloads_witness :
    MemToMemMacroOp.generateDstSrc 4096 demoStrategy demoWorld (some 10) (some 11) = demoRun :=
  (generate_overloads 4096 demoStrategy demoWorld (some 10) (some 11) none none 0 none none
    none demoTypedLoop demoTypedWorld none true).1

/-! ## Claim C15 -/

/-- A constant length for which the constructor finds that no loop is needed is at most
4096. -/
theorem needsLoop_false_le (rootNode dstNode srcNode : Option Node)
    (itersReg : Option Register) (op : Mnemonic) (inNestedICF : Bool) (L : Int) (h0 : 0 ≤ L)
    (h63 : L < 2 ^ 63)
    (h : (MemToMemConstLenMacroOp.construct rootNode dstNode srcNode L itersReg op
      inNestedICF).needsLoop = false) : L ≤ 4096 := by
  have hmod : L % 2 ^ 64 = L := Int.emod_eq_of_lt h0 (by omega)
  have h16 : ((16 : Int) % 2 ^ 64).toNat = 16 := by decide
  obtain ⟨n, rfl⟩ := Int.eq_ofNat_of_zero_le h0
  simp only [MemToMemConstLenMacroOp.needsLoop, MemToMemConstLenMacroOp.construct, toUInt64,
    hmod, h16, Int.toNat_ofNat] at h
  by_cases hz : n = 0
  · subst hz; decide
  · simp only [hz, if_false, Bool.not_eq_false', decide_eq_true_eq] at h
    omega

theorem straightLinePlan_length (C L : Nat) :
    (straightLinePlan C L).length = (L + C - 1) / C := by
  simp [straightLinePlan]

/-- C15: for every constant length `L > 0` for which `needsLoop()` is false, the
straight-line plan has `(L-1)/256 + 1` chunks, which is at most `_maxCopies = 16`, and
the chunk of index `i` starts at the offset `256 * i`, which is at most 3840 and so
strictly below 4096. -/
theorem straightLinePlan_fits (rootNode dstNode srcNode : Option Node)
    (itersReg : Option Register) (op : Mnemonic) (inNestedICF : Bool) (L : Int)
    (hpos : 0 < L) (h63 : L < 2 ^ 63)
    (hno : (MemToMemConstLenMacroOp.construct rootNode dstNode srcNode L itersReg op
      inNestedICF).needsLoop = false) :
    ((straightLinePlan 256 L.toNat).length : Int) = (L - 1) / 256 + 1 ∧
    ((straightLinePlan 256 L.toNat).length : Int) ≤
      (MemToMemConstLenMacroOp.construct rootNode dstNode srcNode L itersReg op
        inNestedICF)._maxCopies ∧
    (straightLinePlan 256 L.toNat).length ≤ 16 ∧
    (∀ i, i < (straightLinePlan 256 L.toNat).length →
      ((straightLinePlan 256 L.toNat).get? i).map (fun e => e.1) = some (256 * i) ∧
      256 * i ≤ 3840 ∧ 256 * i < 4096) := by
  have hle := needsLoop_false_le rootNode dstNode srcNode itersReg op inNestedICF L
    (le_of_lt hpos) h63 hno
  obtain ⟨n, rfl⟩ := Int.eq_ofNat_of_zero_le (le_of_lt hpos)
  have hn0 : 0 < n := by exact_mod_cast hpos
  have hn : n ≤ 4096 := by exact_mod_cast hle
  have hlen : (straightLinePlan 256 n).length = (n - 1) / 256 + 1 := by
    rw [straightLinePlan_length]; omega
  have hlen16 : (straightLinePlan 256 n).length ≤ 16 := by
    rw [hlen]; omega
  simp only [Int.toNat_ofNat]
  refine ⟨?_, ?_, hlen16, ?_⟩
  · rw [hlen]
    omega
  · show ((straightLinePlan 256 n).length : Int) ≤ 16
    exact_mod_cast hlen16
  · intro i hi
    refine ⟨?_, by omega, by omega⟩
    have hi2 : i < (n + 256 - 1) / 256 := by rw [← straightLinePlan_length]; exact hi
    have hi3 : i < (n + 255) / 256 := by omega
    simp [straightLinePlan, List.getElem?_range hi3]

/-- Witness of `straightLinePlan_fits` at the length 300 of the spec's scenario: two
chunks, at the offsets 0 and 256. -/
theorem straightLinePlan_fits_witness :
    straightLinePlan 256 300 = [(0, 256), (256, 44)] ∧
    ((straightLinePlan 256 (300 : Int).toNat).length : Int) = (300 - 1) / 256 + 1 ∧
    (straightLinePlan 256 (300 : Int).toNat).length ≤ 16 :=
  have h := straightLinePlan_fits (some 1) (some 2) (some 3) none Mnemonic.MVC false 300
    (by decide) (by decide) (by decide)
  ⟨by decide, h.1, h.2.2.1⟩

/-! ## Claim C14 -/

/-- C14, as stated, fails: the second call of `generate` on the operation of the demo run
emits the single instruction at address 6, and yet inserts two more labels, 2 and 3, with
their label instructions at the addresses 7 and 8: the member `_startControlFlow` still
refers to the instruction at address 1 of the first call, which is not the final cursor. -/
theorem single_instruction_span_wrapped :
    demoRun.world?.map (fun w => (w.cg.labelCount, w.cg.instrCount, w.op._startControlFlow)) =
      some (2, 6, some 1) ∧
    demoRun.instructions.map (fun i => i.addr) = [0, 4, 1, 2, 5, 3] ∧
    secondRun.instructions.map (fun i => (i.addr, i.opcode, i.label)) =
      [(0, Mnemonic.other 0, none), (4, Mnemonic.LABEL, some 0), (7, Mnemonic.LABEL, some 2),
       (1, Mnemonic.MVC, none), (2, Mnemonic.other 1, none), (5, Mnemonic.LABEL, some 1),
       (3, Mnemonic.MVC, none), (8, Mnemonic.LABEL, some 3), (6, Mnemonic.MVC, none)] ∧
    secondRun.world?.map (fun w => (w.cg.labelCount, w.cg.startInternalControlFlow,
      w.cg.endInternalControlFlow)) = some (4, [0, 2], [1, 3]) := by
  decide

/-- C14 (amended): a call of `generate` that returns, with `wS` the state the last invoked
strategy step left and `dd` the result of `generateDependencies()`, inserts either no label
and no label instruction, or exactly one new region-start label and one new, distinct
region-end label with their two label instructions; it inserts the pair only if the cursor
advanced, `dd` is not null and the region start `_startControlFlow`, as lines 86-90 leave
it, is not the final cursor. In particular nothing is inserted when the cursor did not
advance, and nothing is inserted when `_startControlFlow` was `NULL` and the emitted span
is a single instruction that is no `ASSOCREGS`. -/
theorem region_markers_only_when {σ : Type} (MAXDISP : Int) (V : Strategy σ) (w : World σ)
    (dstReg srcReg tmpReg : Option Register) (offset : Int) (cursor : Option InstrPtr)
    (dstMR srcMR : Option MemRefPtr) (c1 c2 : Option InstrPtr) (w1 w2 wS : World σ)
    (dd : Option DependencyConditions) (r : Option InstrPtr) (wf : World σ) (cs : List Step)
    (hoff : offset ≤ MAXDISP)
    (hL : V.generateLoop (initMembers w dstReg srcReg tmpReg offset cursor dstMR srcMR) =
      some (c1, w1))
    (hR : V.generateRemainder (w1.setCursor c1) = some (c2, w2))
    (hS : (¬ (c2 ≠ none ∧ cursorBeforeOf w.cg cursor ≠ c2) ∧ wS = w2.setCursor c2) ∨
      ((c2 ≠ none ∧ cursorBeforeOf w.cg cursor ≠ c2) ∧
        V.generateDependencies (w2.setCursor c2) = some (dd, wS)))
    (hret : MemToMemMacroOp.generate MAXDISP V w dstReg srcReg tmpReg offset cursor dstMR
      srcMR = Outcome.returned r wf cs) :
    ((wf.cg.labelCount = wS.cg.labelCount ∧ wf.cg.instrCount = wS.cg.instrCount ∧
        wf.cg.instructions.length = wS.cg.instructions.length ∧
        wf.cg.startInternalControlFlow = wS.cg.startInternalControlFlow ∧
        wf.cg.endInternalControlFlow = wS.cg.endInternalControlFlow) ∨
      ((c2 ≠ none ∧ cursorBeforeOf w.cg cursor ≠ c2) ∧
        (∃ d, dd = some d ∧ regionStartInstruction wS d ∈ wf.cg.instructions) ∧
        wf.op._startControlFlow ≠ wf.op._cursor ∧
        wf.cg.labelCount = wS.cg.labelCount + 2 ∧
        wS.cg.labelCount ≠ wS.cg.labelCount + 1 ∧
        wf.cg.instrCount = wS.cg.instrCount + 2 ∧
        wf.cg.instructions.length = wS.cg.instructions.length + 2 ∧
        wf.cg.startInternalControlFlow =
          wS.cg.startInternalControlFlow ++ [wS.cg.labelCount] ∧
        wf.cg.endInternalControlFlow =
          wS.cg.endInternalControlFlow ++ [wS.cg.labelCount + 1] ∧
        regionEndInstruction wS ∈ wf.cg.instructions)) ∧
    (∀ (V0 : Strategy σ) (w0 : World σ) (dstReg0 srcReg0 tmpReg0 : Option Register)
      (offset0 : Int) (cursor0 : Option InstrPtr) (dstMR0 srcMR0 : Option MemRefPtr)
      (a1 a2 : Option InstrPtr) (u1 u2 u3 : World σ) (d0 : DependencyConditions)
      (P : List Instruction) (p c : Instruction) (Q : List Instruction),
      offset0 ≤ MAXDISP →
      V0.generateLoop (initMembers w0 dstReg0 srcReg0 tmpReg0 offset0 cursor0 dstMR0 srcMR0) =
        some (a1, u1) →
      V0.generateRemainder (u1.setCursor a1) = some (a2, u2) →
      (a2 ≠ none ∧ cursorBeforeOf w0.cg cursor0 ≠ a2) →
      V0.generateDependencies (u2.setCursor a2) = some (some d0, u3) →
      u3.cg.instructions = P ++ p :: c :: Q →
      (u3.cg.instructions.map (fun i => i.addr)).Nodup →
      u3.op._cursor = some c.addr →
      u3.op._startControlFlow = none →
      cursorBeforeOf w0.cg cursor0 = some p.addr →
      c.opcode ≠ Mnemonic.ASSOCREGS →
      ∃ wf0 : World σ,
        MemToMemMacroOp.generate MAXDISP V0 w0 dstReg0 srcReg0 tmpReg0 offset0 cursor0
          dstMR0 srcMR0 =
          Outcome.returned (some c.addr) wf0
            [Step.generateLoop, Step.generateRemainder, Step.generateDependencies] ∧
        wf0.cg.labelCount = u3.cg.labelCount ∧
        wf0.cg.startInternalControlFlow = u3.cg.startInternalControlFlow ∧
        wf0.cg.endInternalControlFlow = u3.cg.endInternalControlFlow ∧
        wf0.cg.instructions = P ++ p :: withConditions c d0 :: Q) := by
  constructor
  · rcases hS with ⟨hna, hw⟩ | ⟨hadv, hD⟩
    · rw [generate_not_advanced MAXDISP V w dstReg srcReg tmpReg offset cursor dstMR
        srcMR c1 c2 w1 w2 hoff hL hR hna] at hret
      simp only [Outcome.returned.injEq] at hret
      obtain ⟨-, f1, f2, f3, f4, f5⟩ := releaseTemps_frame (w2.setCursor c2)
      left
      rw [← hret.2.1, hw]
      exact ⟨f3, f2, by rw [f1], f4, f5⟩
    · rw [generate_advanced MAXDISP V w dstReg srcReg tmpReg offset cursor dstMR srcMR
        c1 c2 w1 w2 dd wS hoff hL hR hadv hD] at hret
      cases hA : attachDependencies wS (cursorBeforeOf w.cg cursor) dd with
      | none =>
        rw [hA] at hret
        cases hret
      | some w4 =>
        rw [hA] at hret
        simp only [Outcome.returned.injEq] at hret
        obtain ⟨f0, f1, f2, f3, f4, f5⟩ := releaseTemps_frame w4
        rw [← hret.2.1, f0, f1, f2, f3, f4, f5]
        rcases attachDependencies_effect wS w4 _ dd hA with h | ⟨g1, g2, g3, g4, g5, g6, g7, g8⟩
        · exact Or.inl h
        · exact Or.inr ⟨hadv, g1, g2, g3, Nat.ne_of_lt (Nat.lt_succ_self _), g4, g5, g6, g7, g8⟩
  · intro V0 w0 dstReg0 srcReg0 tmpReg0 offset0 cursor0 dstMR0 srcMR0 a1 a2 u1 u2 u3 d0 P p c Q
      h0 hL0 hR0 hadv0 hD0 hs0 hnd0 hc0 hn0 hcb0 hop0
    have hA := attachDependencies_single u3 (cursorBeforeOf w0.cg cursor0) P p c Q d0 hs0 hnd0
      hc0 (Or.inr (Or.inl ⟨hn0, hcb0, hop0⟩))
    have hgen := generate_advanced MAXDISP V0 w0 dstReg0 srcReg0 tmpReg0 offset0 cursor0
      dstMR0 srcMR0 a1 a2 u1 u2 (some d0) u3 h0 hL0 hR0 hadv0 hD0
    rw [hA] at hgen
    have hcur : ((u3.setInstructions (P ++ p :: withConditions c d0 :: Q)).setStartControlFlow
        (some c.addr)).op._cursor = some c.addr := hc0
    simp only [hcur] at hgen
    obtain ⟨-, f1, -, f3, f4, f5⟩ := releaseTemps_frame
      ((u3.setInstructions (P ++ p :: withConditions c d0 :: Q)).setStartControlFlow
        (some c.addr))
    refine ⟨releaseTemps ((u3.setInstructions
      (P ++ p :: withConditions c d0 :: Q)).setStartControlFlow (some c.addr)), hgen, ?_⟩
    rw [f1, f3, f4, f5]
    exact ⟨rfl, rfl, rfl, rfl⟩

/-- Witness of `region_markers_only_when`: the demo run, whose three-instruction span gets
the labels 0 and 1, and the run of `singleStrategy` on a new operation, whose
single-instruction span gets none. -/
theorem region_markers_only_when_witness :
    (∃ wf : World Unit,
      demoRun = Outcome.returned (some 3) wf
        [Step.generateLoop, Step.generateRemainder, Step.generateDependencies] ∧
      wf.cg.labelCount = 2 ∧ wf.cg.startInternalControlFlow = [0] ∧
      wf.cg.endInternalControlFlow = [1]) ∧
    (∃ wf : World Unit,
      singleRun = Outcome.returned (some 1) wf
        [Step.generateLoop, Step.generateRemainder, Step.generateDependencies] ∧
      wf.cg.labelCount = 0 ∧
      wf.cg.instructions.map (fun i => (i.addr, i.opcode, i.conditions)) =
        [(0, Mnemonic.other 0, none), (1, Mnemonic.MVC, some 9)]) := by
  have h := region_markers_only_when 4096 demoStrategy demoWorld (some 10) (some 11) none 0
    none none none _ _ _ _ _ (some 9) _ _ _ (by decide) rfl rfl
    (Or.inr ⟨by decide, rfl⟩) rfl
  constructor
  · rcases h.1 with hl | ⟨-, -, -, g3, -, -, -, g6, g7, -⟩
    · exact absurd hl.1 (by decide)
    · exact ⟨_, rfl, g3, g6, g7⟩
  · obtain ⟨wf, e1, e2, -, -, e5⟩ := h.2 singleStrategy demoWorld (some 10) (some 11) none 0
      none none none _ _ _ _ _ 9 [] (plainInstruction 0 (Mnemonic.other 0))
      (plainInstruction 1 Mnemonic.MVC) [] (by decide) rfl rfl (by decide) rfl rfl
      (by decide) rfl rfl rfl (by decide)
    exact ⟨wf, e1, e2, by rw [e5]; rfl⟩

/-! ## Claim C16 -/

/-- C16, as stated, fails: when the emitted span is a single `ASSOCREGS` at the end of the
stream (the cursor advanced from the instruction at address 0 to the one at address 1, the
dependencies are not null), lines 86-90 leave `_startControlFlow` at `NULL`, the
successor of the `ASSOCREGS`, and line 96 dereferences it. -/
theorem region_start_null_after_lone_assocregs :
    loneAssocSteps.map (fun w => (w.cg.instructions.map (fun i => (i.addr, i.opcode)),
        w.op._cursor, w.op._startControlFlow)) =
      some ([(0, Mnemonic.other 0), (1, Mnemonic.ASSOCREGS)], some 1, none) ∧
    (loneAssocSteps.bind (fun w => resolveStartControlFlow w (some 0))).map
        (fun w => w.op._startControlFlow) = some none ∧
    loneAssocRun.calls =
      [Step.generateLoop, Step.generateRemainder, Step.generateDependencies] ∧
    loneAssocRun.world? = none ∧
    loneAssocRun = Outcome.invalidDereference
      [Step.generateLoop, Step.generateRemainder, Step.generateDependencies] := by
  refine ⟨by decide, by decide, by decide, rfl, rfl⟩

/-- C16 (amended): whenever the cursor advanced, the dependency descriptor is not null and
`_startControlFlow` is `NULL`, on a stream in which the cursor-before `b` is followed by
the emitted span `lead ++ X ++ [c]` with final cursor `c`, where `lead` is empty and the
first instruction of `X ++ [c]` is no `ASSOCREGS`, or `lead` is one `ASSOCREGS` that
another instruction of the span follows, the instruction chosen as start of the region is
that first instruction of `X ++ [c]`: it is not null and lies inside the emitted span,
after the cursor-before and not after the final cursor, and `generate` returns without
dereferencing a null instruction. -/
theorem region_start_inside_span {σ : Type} (MAXDISP : Int) (V : Strategy σ) (w : World σ)
    (dstReg srcReg tmpReg : Option Register) (offset : Int) (cursor : Option InstrPtr)
    (dstMR srcMR : Option MemRefPtr) (c1 c2 : Option InstrPtr) (w1 w2 w3 : World σ)
    (d : DependencyConditions)
    (P : List Instruction) (b : Instruction) (lead X : List Instruction)
    (c first : Instruction) (Q : List Instruction)
    (hoff : offset ≤ MAXDISP)
    (hL : V.generateLoop (initMembers w dstReg srcReg tmpReg offset cursor dstMR srcMR) =
      some (c1, w1))
    (hR : V.generateRemainder (w1.setCursor c1) = some (c2, w2))
    (hadv : c2 ≠ none ∧ cursorBeforeOf w.cg cursor ≠ c2)
    (hD : V.generateDependencies (w2.setCursor c2) = some (some d, w3))
    (hs : w3.cg.instructions = P ++ b :: lead ++ X ++ c :: Q)
    (hnd : (w3.cg.instructions.map (fun i => i.addr)).Nodup)
    (hfresh : ∀ i ∈ w3.cg.instructions, i.addr < w3.cg.instrCount)
    (hc : w3.op._cursor = some c.addr)
    (hcb : cursorBeforeOf w.cg cursor = some b.addr)
    (hnull : w3.op._startControlFlow = none)
    (hfirst : (X ++ [c]).head? = some first)
    (hlead : (lead = [] ∧ first.opcode ≠ Mnemonic.ASSOCREGS) ∨
      (∃ a, lead = [a] ∧ a.opcode = Mnemonic.ASSOCREGS)) :
    ∃ wf : World σ,
      MemToMemMacroOp.generate MAXDISP V w dstReg srcReg tmpReg offset cursor dstMR srcMR =
        Outcome.returned (some c.addr) wf
          [Step.generateLoop, Step.generateRemainder, Step.generateDependencies] ∧
      wf.op._startControlFlow = some first.addr ∧
      first ∈ lead ++ X ++ [c] ∧
      first.addr ≠ b.addr ∧
      (∃ E1 E2, lead ++ X ++ [c] = E1 ++ first :: E2 ∧
        w3.cg.instructions = P ++ b :: E1 ++ first :: E2 ++ Q) := by
  have hgen := generate_advanced MAXDISP V w dstReg srcReg tmpReg offset cursor dstMR srcMR
    c1 c2 w1 w2 (some d) w3 hoff hL hR hadv hD
  have hmemX : first ∈ X ++ [c] := List.mem_of_mem_head? hfirst
  have hmemX2 : first ∈ X ∨ first = c := by simpa using hmemX
  have hmemS : first ∈ lead ++ X ++ [c] := by
    simp only [List.mem_append, List.mem_singleton]
    tauto
  obtain ⟨E2, hE2⟩ : ∃ E2, X ++ [c] = first :: E2 := by
    cases X with
    | nil =>
      simp only [List.nil_append, List.head?_cons, Option.some.injEq] at hfirst
      exact ⟨[], by simp [hfirst]⟩
    | cons x M =>
      simp only [List.cons_append, List.head?_cons, Option.some.injEq] at hfirst
      exact ⟨M ++ [c], by simp [hfirst]⟩
  have hXQ : X ++ c :: Q = first :: (E2 ++ Q) := by
    have e : X ++ c :: Q = (X ++ [c]) ++ Q := by simp
    rw [e, hE2]; rfl
  have hne : first.addr ≠ b.addr := by
    have hmem : first ∈ lead ++ X ++ c :: Q := by
      simp only [List.mem_append, List.mem_cons]
      tauto
    have hnd2 := hnd
    rw [hs] at hnd2
    have e : P ++ b :: lead ++ X ++ c :: Q = P ++ b :: (lead ++ X ++ c :: Q) := by simp
    rw [e, List.map_append, List.map_cons, List.nodup_append, List.nodup_cons] at hnd2
    intro heq
    exact hnd2.2.1.1 (heq ▸ List.mem_map_of_mem (fun i => i.addr) hmem)
  rcases hlead with ⟨hl, hop⟩ | ⟨a, hl, hop⟩
  · subst hl
    have hs2 : w3.cg.instructions = P ++ b :: X ++ c :: Q := by rw [hs]; simp
    obtain ⟨w4, hA, hcur, hst, -⟩ := attachDependencies_shape w3 (cursorBeforeOf w.cg cursor)
      P b X c first Q d hs2 hnd hfresh hc hfirst (Or.inr (Or.inl ⟨hnull, hcb, hop⟩))
    rw [hA] at hgen
    simp only [hcur] at hgen
    refine ⟨releaseTemps w4, hgen, ?_, hmemS, hne, [], E2, ?_, ?_⟩
    · rw [(releaseTemps_frame w4).1]; exact hst
    · simp [hE2]
    · rw [hs]
      simp [hXQ]
  · subst hl
    have hs2 : w3.cg.instructions = (P ++ [b]) ++ a :: X ++ c :: Q := by rw [hs]; simp
    obtain ⟨w4, hA, hcur, hst, -⟩ := attachDependencies_shape w3 (cursorBeforeOf w.cg cursor)
      (P ++ [b]) a X c first Q d hs2 hnd hfresh hc hfirst
      (Or.inr (Or.inr ⟨hnull, hop, P, b, rfl, hcb⟩))
    rw [hA] at hgen
    simp only [hcur] at hgen
    refine ⟨releaseTemps w4, hgen, ?_, hmemS, hne, [a], E2, ?_, ?_⟩
    · rw [(releaseTemps_frame w4).1]; exact hst
    · have e : [a] ++ X ++ [c] = [a] ++ (X ++ [c]) := by simp
      rw [e, hE2]
    · rw [hs]
      simp [hXQ]

/-- Witness of `region_start_inside_span`: the run whose span is an `ASSOCREGS` followed
by two instructions; the region start is the instruction at address 2. -/
theorem region_start_inside_span_witness :
    ∃ wf : World Unit,
      assocRun = Outcome.returned (some 3) wf
        [Step.generateLoop, Step.generateRemainder, Step.generateDependencies] ∧
      wf.op._startControlFlow = some 2 := by
  obtain ⟨wf, h1, h2, -⟩ := region_start_inside_span 4096 assocStrategy demoWorld (some 10)
    (some 11) none 0 (some 0) none none _ _ _ _ _ 7 [] (plainInstruction 0 (Mnemonic.other 0))
    [plainInstruction 1 Mnemonic.ASSOCREGS] [plainInstruction 2 Mnemonic.MVC]
    (plainInstruction 3 (Mnemonic.other 1)) (plainInstruction 2 Mnemonic.MVC) []
    (by decide) rfl rfl (by decide) rfl rfl (by decide) (by decide) rfl rfl rfl rfl
    (Or.inr ⟨plainInstruction 1 Mnemonic.ASSOCREGS, rfl, rfl⟩)
  exact ⟨wf, h1, h2⟩

end OpMemToMem
